import Mathlib

/-!
Helicopter relief routing: a shallow embedding of `solver.cpp`.

The development follows `src/solver.cpp` function by function and loop by loop.

Conventions of the embedding.

* `double` is modelled by `ℚ`.  The definitions that follow the source compute in exact
  arithmetic: rounding, infinities and NaN are outside them.  The literals of the source
  (`1e-9`, `0.95`, ...) are the corresponding rationals.
* `int` is modelled by `Int`.  The definitions that follow the source describe the runs in
  which no `int` overflows and every `static_cast<int>` of a `double` is a truncation toward
  zero (`toInt`).
* Where a statement depends on the arithmetic of the compiled program, the section *Machine
  arithmetic* makes it explicit: `wrap32` is the value that a 32-bit `int` holds, `castInt`
  the conversion with its range, and the definitions of the namespace `Machine` round every
  `double` operation with a rounding `fl` that is a parameter (`Rounding`); `fl64` is
  binary64 round-to-nearest-even.  The statements about the value model and about the mix of
  a scan are made for these definitions.  The statements about whole passes are made for the
  exact definitions, on the problems on which no `int` wraps (`IntRange`), every converted
  quotient is in the range of `int` (`CastRange`) and the sums of distances, weights, values
  and costs have the same value in `double` and in exact arithmetic (`ExactData`,
  `exactData_sums`).  The quotient and the product with the ratio from which a mix is
  computed are rounded by the program on all data.
* `v[i]` on a `std::vector` is `vecAt v i`; an index outside the vector (undefined behaviour
  in C++) reads a default element, so that every function of the embedding is total.
* `solver.h` is not part of the sources at hand.  Its record types are modelled from the
  specification (sections 3 and 6), and the three library services that `solve` calls,
  `distance`, `exp` and the uniform generator `dis(gen)`, are parameters (`Extern`).
* `chrono::steady_clock` is monotone: the successive deadline tests of one run succeed
  ("time remains") some number `n` of times and fail from then on.  The clock is therefore
  a natural number, the number of deadline tests that still succeed, decremented by each
  successful test.  A run of `solve` is determined by the problem, `n` and the `Extern`.
* The three unbounded loops (`while (true)` twice, `while (current_dist_budget > 1e-6)`)
  are structural recursions on a fuel that is set to `clock + 1` where the loop is entered;
  each iteration that does not leave the loop consumes at least one clock tick, so the fuel
  never runs out first (theorems `extendTrip_fuel`, `buildTrips_fuel`, `iterate_fuel`).
-/

namespace Solver

/-! ## Data model -/

/-- Modelled from the spec: `Point` of `solver.h`, a 2D coordinate. -/
structure Point where
  x : ℚ
  y : ℚ
deriving DecidableEq, Inhabited

/-- Modelled from the spec: `PackageInfo` of `solver.h`, unit weight and unit value of one
supply kind. -/
structure PackageInfo where
  weight : ℚ
  value : ℚ
deriving DecidableEq, Inhabited

/-- Modelled from the spec: `Village` of `solver.h`: id, population, coordinates. -/
structure Village where
  id : Int
  population : Int
  coords : Point
deriving DecidableEq, Inhabited

/-- Modelled from the spec: `Helicopter` of `solver.h`. -/
structure Helicopter where
  id : Int
  home_city_id : Int
  weight_capacity : ℚ
  distance_capacity : ℚ
  fixed_cost : ℚ
  alpha : ℚ
deriving DecidableEq, Inhabited

/-- Modelled from the spec: `Drop` of `solver.h`, in the field order of the aggregate
initialisers of `solver.cpp` (lines 149 and 208). -/
structure Drop where
  village_id : Int
  dry_food : Int
  perishable_food : Int
  other_supplies : Int
deriving DecidableEq, Inhabited

/-- Modelled from the spec: `Trip` of `solver.h`: the drops in route order and the three
pickup totals. -/
structure Trip where
  drops : List Drop
  dry_food_pickup : Int
  perishable_food_pickup : Int
  other_supplies_pickup : Int
deriving DecidableEq, Inhabited

/-- Modelled from the spec: `HelicopterPlan` of `solver.h`. -/
structure HelicopterPlan where
  helicopter_id : Int
  trips : List Trip
deriving DecidableEq, Inhabited

/-- Modelled from the spec: `Solution` of `solver.h`, a vector of helicopter plans. -/
abbrev Solution := List HelicopterPlan

/-- Modelled from the spec: `ProblemData` of `solver.h`.  `time_limit_minutes` only fixes the
deadline; its effect on a run is carried by the clock argument of `solve`. -/
structure ProblemData where
  cities : List Point
  villages : List Village
  helicopters : List Helicopter
  packages : List PackageInfo
  d_max : ℚ
  time_limit_minutes : ℚ

/-- Modelled from the spec: the library services used by `solve` that are not defined in
`solver.cpp`: `distance` (declared in `solver.h`, Euclidean distance between two points),
`exp` of `<cmath>`, and `dis k`, the value of the `k`-th call of `dis(gen)` of the run. -/
structure Extern where
  distance : Point → Point → ℚ
  exp : ℚ → ℚ
  dis : Nat → ℚ

/-! ## Primitive operations -/

/-- `v[i]` for a `std::vector` and an `int` index. -/
def vecAt {α : Type} [Inhabited α] (v : List α) (i : Int) : α :=
  if 0 ≤ i then v.getD i.toNat default else default

/-- `v[i] = a` for a `std::vector` and an `int` index. -/
def vecSet {α : Type} (v : List α) (i : Int) (a : α) : List α :=
  if 0 ≤ i then v.set i.toNat a else v

/-- `static_cast<int>(q)`: truncation toward zero. -/
def toInt (q : ℚ) : Int := Int.tdiv q.num q.den

/-- `const int DRY = 0, PER = 1, OTH = 2;` (line 11). -/
def DRY : Int := 0

/-- See `DRY`. -/
def PER : Int := 1

/-- See `DRY`. -/
def OTH : Int := 2

/-- `numeric_limits<double>::max()`, the largest finite binary64 value. -/
def DBL_MAX : ℚ := (2 ^ 53 - 1) * 2 ^ 971

/-- The literal `1e-9`. -/
def eps9 : ℚ := 1 / 1000000000

/-- The literal `1e-6`. -/
def eps6 : ℚ := 1 / 1000000

/-! ## Value model (lines 14-34) -/

/-- `calculateVillageValue` (lines 14-34). -/
def calculateVillageValue (village : Village)
    (dry_delivered perishable_delivered other_delivered : Int)
    (packages : List PackageInfo) : ℚ :=
  let max_food_needed := 9 * village.population
  let max_other_needed := village.population
  let total_food_delivered := dry_delivered + perishable_delivered
  let effective_food := min total_food_delivered max_food_needed
  let effective_other := min other_delivered max_other_needed
  let food_value : ℚ :=
    if effective_food > 0 then
      let effective_perishable := min perishable_delivered effective_food
      let remaining_food_need := effective_food - effective_perishable
      let effective_dry := min dry_delivered remaining_food_need
      (0 + (effective_perishable : ℚ) * (vecAt packages PER).value)
        + (effective_dry : ℚ) * (vecAt packages DRY).value
    else 0
  let other_value : ℚ := (effective_other : ℚ) * (vecAt packages OTH).value
  food_value + other_value

/-! ## Route length -/

/-- The distance loop that `solve` repeats at lines 171-175, 238-242, 263-269 and 380-386:
starting at `loc` with `acc` already flown, visit the villages of the drops in order;
returns the distance flown and the last location. -/
def routeLegs (ext : Extern) (problem : ProblemData) :
    List Drop → Point → ℚ → ℚ × Point
  | [], loc, acc => (acc, loc)
  | drop :: rest, loc, acc =>
    let village_coords := (vecAt problem.villages (drop.village_id - 1)).coords
    routeLegs ext problem rest village_coords (acc + ext.distance loc village_coords)

/-- Round-trip distance `home -> drops in order -> home` (lines 237-243, 263-270,
380-387). -/
def tripDistance (ext : Extern) (problem : ProblemData) (home : Point)
    (drops : List Drop) : ℚ :=
  let r := routeLegs ext problem drops home 0
  r.1 + ext.distance r.2 home

/-- The weight of a trip as the validation pass computes it from the pickups (line 393). -/
def tripWeight (problem : ProblemData) (trip : Trip) : ℚ :=
  (trip.dry_food_pickup : ℚ) * (vecAt problem.packages DRY).weight
    + (trip.perishable_food_pickup : ℚ) * (vecAt problem.packages PER).weight
    + (trip.other_supplies_pickup : ℚ) * (vecAt problem.packages OTH).weight

/-! ## Validation pass (lines 348-405) -/

/-- Lines 360-365: the three drop totals of a trip. -/
def total_dry_dropped (trip : Trip) : Int := (trip.drops.map Drop.dry_food).sum

/-- See `total_dry_dropped`. -/
def total_peri_dropped (trip : Trip) : Int := (trip.drops.map Drop.perishable_food).sum

/-- See `total_dry_dropped`. -/
def total_other_dropped (trip : Trip) : Int := (trip.drops.map Drop.other_supplies).sum

/-- Line 367: the condition under which the trip is skipped. -/
def pickupMismatch (trip : Trip) : Bool :=
  decide (trip.dry_food_pickup ≠ total_dry_dropped trip)
    || decide (trip.perishable_food_pickup ≠ total_peri_dropped trip)
    || decide (trip.other_supplies_pickup ≠ total_other_dropped trip)
    || decide (trip.dry_food_pickup < 0)
    || decide (trip.perishable_food_pickup < 0)
    || decide (trip.other_supplies_pickup < 0)

/-- Lines 371-377: `has_negative_drops`. -/
def has_negative_drops (trip : Trip) : Bool :=
  trip.drops.any fun drop =>
    decide (drop.dry_food < 0) || decide (drop.perishable_food < 0)
      || decide (drop.other_supplies < 0)

/-- The body of the loop over the trips of one plan (lines 357-398), as the decision it
takes: `true` when the trip is pushed to `validated_plan.trips`, `false` on each
`continue`.  `total_distance_used` is the running total at that point. -/
def keepTrip (ext : Extern) (problem : ProblemData) (helicopter : Helicopter) (home : Point)
    (total_distance_used : ℚ) (trip : Trip) : Bool :=
  if trip.drops.isEmpty then false
  else if pickupMismatch trip then false
  else if has_negative_drops trip then false
  else
    let trip_distance := tripDistance ext problem home trip.drops
    if trip_distance > helicopter.distance_capacity + eps9 then false
    else if total_distance_used + trip_distance > problem.d_max + eps9 then false
    else if tripWeight problem trip > helicopter.weight_capacity + eps9 then false
    else true

/-- The loop over the trips of one plan (lines 357-398): the trips pushed to
`validated_plan.trips`, in order. -/
def validateTrips (ext : Extern) (problem : ProblemData) (helicopter : Helicopter)
    (home : Point) : List Trip → ℚ → List Trip
  | [], _ => []
  | trip :: rest, total_distance_used =>
    if keepTrip ext problem helicopter home total_distance_used trip then
      trip :: validateTrips ext problem helicopter home rest
        (total_distance_used + tripDistance ext problem home trip.drops)
    else validateTrips ext problem helicopter home rest total_distance_used

/-- The validation pass (lines 348-405): `validated_solution` for a given
`best_global_solution`. -/
def validate (ext : Extern) (problem : ProblemData) : Solution → Solution
  | [] => []
  | plan :: rest =>
    let helicopter := vecAt problem.helicopters (plan.helicopter_id - 1)
    let home := vecAt problem.cities (helicopter.home_city_id - 1)
    let trips := validateTrips ext problem helicopter home plan.trips 0
    if trips.isEmpty then validate ext problem rest
    else { helicopter_id := plan.helicopter_id, trips := trips } :: validate ext problem rest

/-! ## Trip constructor (lines 80-249) -/

/-- The variables `best_first_vil_idx`, `best_init_value`, `best_init_dry`, `best_init_peri`
and `best_init_other` of the first-stop scan (lines 99-101). -/
structure FirstStop where
  best_first_vil_idx : Int
  best_init_value : ℚ
  best_init_dry : Int
  best_init_peri : Int
  best_init_other : Int
deriving DecidableEq, Inhabited

/-- What the body of the first-stop scan computes for a village that reaches the comparison
of line 135: its net value and its mix. -/
structure FirstCandidate where
  net_value : ℚ
  dry_units : Int
  perishable_units : Int
  other_units : Int
deriving DecidableEq, Inhabited

/-- Line 96: `avg_food_wt`. -/
def avgFoodWt (problem : ProblemData) (dry_ratio perishable_ratio : ℚ) : ℚ :=
  dry_ratio * (vecAt problem.packages DRY).weight
    + perishable_ratio * (vecAt problem.packages PER).weight

/-- A delivery mix computed by one of the two scans, with its weight (`total_weight`). -/
structure Mix where
  dry_units : Int
  perishable_units : Int
  other_units : Int
  total_weight : ℚ
deriving DecidableEq, Inhabited

/-- Lines 114-129, the mix of the first-stop scan for a village with the given remaining
demand: `none` on each of the two `continue` of the weight checks. -/
def firstStopMix (problem : ProblemData) (weight_capacity dry_ratio avg_food_wt : ℚ)
    (rem_food rem_other : Int) : Option Mix :=
  let food_to_send := min rem_food (toInt (weight_capacity / avg_food_wt))
  let dry_units := toInt ((food_to_send : ℚ) * dry_ratio)
  let perishable_units := food_to_send - dry_units
  let food_weight : ℚ := (dry_units : ℚ) * (vecAt problem.packages DRY).weight
    + (perishable_units : ℚ) * (vecAt problem.packages PER).weight
  if food_weight > weight_capacity + eps9 then none
  else
    let rem_weight := weight_capacity - food_weight
    let other_units : Int :=
      if (vecAt problem.packages OTH).weight > eps9 ∧ rem_weight > eps9 then
        max 0 (min rem_other (toInt (rem_weight / (vecAt problem.packages OTH).weight)))
      else 0
    let total_weight := food_weight + (other_units : ℚ) * (vecAt problem.packages OTH).weight
    if total_weight > weight_capacity + eps9 then none
    else some { dry_units := dry_units, perishable_units := perishable_units,
                other_units := other_units, total_weight := total_weight }

/-- Lines 106-133 of the first-stop scan for village index `i`, after the deadline test:
`none` on each `continue`, otherwise the net value and the mix that reach line 135. -/
def firstStopCandidate (ext : Extern) (problem : ProblemData) (helicopter : Helicopter)
    (home : Point) (dry_ratio perishable_ratio current_dist_budget : ℚ)
    (rem_food_demand rem_other_demand : List Int) (i : Nat) : Option FirstCandidate :=
  let avg_food_wt := avgFoodWt problem dry_ratio perishable_ratio
  if vecAt rem_food_demand i ≤ 0 ∧ vecAt rem_other_demand i ≤ 0 then none
  else
    let village := vecAt problem.villages i
    let village_coord := village.coords
    let trip_distance := 2 * ext.distance home village_coord
    if trip_distance > helicopter.distance_capacity ∨ trip_distance > current_dist_budget then
      none
    else if avg_food_wt < eps9 then none
    else
      match firstStopMix problem helicopter.weight_capacity dry_ratio avg_food_wt
          (vecAt rem_food_demand i) (vecAt rem_other_demand i) with
      | none => none
      | some m =>
        let value := calculateVillageValue village m.dry_units m.perishable_units
          m.other_units problem.packages
        let cost := helicopter.fixed_cost + helicopter.alpha * trip_distance
        let net_value := value - cost
        some { net_value := net_value, dry_units := m.dry_units,
               perishable_units := m.perishable_units, other_units := m.other_units }

/-- Lines 135-141: the comparison and the update of the running best. -/
def firstStopUpdate (best : FirstStop) (i : Nat) (c : FirstCandidate) : FirstStop :=
  if c.net_value > best.best_init_value then
    { best_first_vil_idx := i, best_init_value := c.net_value, best_init_dry := c.dry_units,
      best_init_peri := c.perishable_units, best_init_other := c.other_units }
  else best

/-- The first-stop scan (lines 103-142) over the village indices still to visit.  Each
iteration first tests the deadline (lines 104-105): with no tick left the scan breaks.
Returns the running best and the clock. -/
def firstStopScan (ext : Extern) (problem : ProblemData) (helicopter : Helicopter)
    (home : Point) (dry_ratio perishable_ratio current_dist_budget : ℚ)
    (rem_food_demand rem_other_demand : List Int) :
    List Nat → Nat → FirstStop → FirstStop × Nat
  | [], clock, best => (best, clock)
  | _ :: _, 0, best => (best, 0)
  | i :: rest, clock + 1, best =>
    match firstStopCandidate ext problem helicopter home dry_ratio perishable_ratio
        current_dist_budget rem_food_demand rem_other_demand i with
    | none =>
      firstStopScan ext problem helicopter home dry_ratio perishable_ratio
        current_dist_budget rem_food_demand rem_other_demand rest clock best
    | some c =>
      firstStopScan ext problem helicopter home dry_ratio perishable_ratio
        current_dist_budget rem_food_demand rem_other_demand rest clock
        (firstStopUpdate best i c)

/-- The variables of one trip under construction (lines 146-154): `current_trip.drops`,
`visited_in_this_trip`, `current_trip_weight` and `last_location`. -/
structure TripState where
  drops : List Drop
  visited_in_this_trip : List Bool
  current_trip_weight : ℚ
  last_location : Point
deriving DecidableEq, Inhabited

/-- The variables `best_next_village_idx`, `best_val_added_net`, `best_next_drop` and
`best_wt_added` of the extension scan (lines 157-160). -/
structure NextStop where
  best_next_village_idx : Int
  best_val_added_net : ℚ
  best_next_drop : Drop
  best_wt_added : ℚ
deriving DecidableEq, Inhabited

/-- What the body of the extension scan computes for a village that reaches the comparison
of line 205. -/
structure NextCandidate where
  net_added : ℚ
  drop : Drop
  total_weight : ℚ
deriving DecidableEq, Inhabited

/-- Lines 183-200, the mix of the extension scan for a village with the given remaining
demand and the leftover capacity `remaining_weight_cap`: `none` on each of the three
`continue`. -/
def nextStopMix (problem : ProblemData) (remaining_weight_cap dry_ratio avg_food_wt : ℚ)
    (rem_food rem_other : Int) : Option Mix :=
  let food_to_send := min rem_food (toInt (remaining_weight_cap / (avg_food_wt + eps9)))
  let dry_units := toInt ((food_to_send : ℚ) * dry_ratio)
  let perishable_units := food_to_send - dry_units
  let food_weight : ℚ := (dry_units : ℚ) * (vecAt problem.packages DRY).weight
    + (perishable_units : ℚ) * (vecAt problem.packages PER).weight
  if food_weight > remaining_weight_cap + eps9 then none
  else
    let temp_rem_weight := remaining_weight_cap - food_weight
    let other_units : Int :=
      if (vecAt problem.packages OTH).weight > eps9 ∧ temp_rem_weight > eps9 then
        max 0 (min rem_other (toInt (temp_rem_weight / (vecAt problem.packages OTH).weight)))
      else 0
    let total_weight := food_weight + (other_units : ℚ) * (vecAt problem.packages OTH).weight
    if total_weight > remaining_weight_cap + eps9 then none
    else if dry_units + perishable_units + other_units = 0 then none
    else some { dry_units := dry_units, perishable_units := perishable_units,
                other_units := other_units, total_weight := total_weight }

/-- Lines 165-203 of the extension scan for village index `j`, after the deadline test:
`none` on each `continue`, otherwise what reaches line 205. -/
def nextStopCandidate (ext : Extern) (problem : ProblemData) (helicopter : Helicopter)
    (home : Point) (dry_ratio perishable_ratio current_dist_budget : ℚ)
    (rem_food_demand rem_other_demand : List Int) (trip : TripState) (j : Nat) :
    Option NextCandidate :=
  let avg_food_wt := avgFoodWt problem dry_ratio perishable_ratio
  if vecAt trip.visited_in_this_trip j = true
      ∨ (vecAt rem_food_demand j ≤ 0 ∧ vecAt rem_other_demand j ≤ 0) then none
  else
    let village := vecAt problem.villages j
    let next_village_coord := village.coords
    let distance_added := ext.distance trip.last_location next_village_coord
      + ext.distance next_village_coord home - ext.distance trip.last_location home
    let legs := routeLegs ext problem trip.drops home 0
    let total_trip_dist_if_added := legs.1
      + (ext.distance legs.2 next_village_coord + ext.distance next_village_coord home)
    if total_trip_dist_if_added > helicopter.distance_capacity
        ∨ total_trip_dist_if_added > current_dist_budget then none
    else
      let remaining_weight_cap := helicopter.weight_capacity - trip.current_trip_weight
      if remaining_weight_cap ≤ eps9 then none
      else
        match nextStopMix problem remaining_weight_cap dry_ratio avg_food_wt
            (vecAt rem_food_demand j) (vecAt rem_other_demand j) with
        | none => none
        | some m =>
          let value_added := calculateVillageValue village m.dry_units m.perishable_units
            m.other_units problem.packages
          let cost_added := helicopter.alpha * distance_added
          some { net_added := value_added - cost_added,
                 drop := { village_id := village.id, dry_food := m.dry_units,
                           perishable_food := m.perishable_units,
                           other_supplies := m.other_units },
                 total_weight := m.total_weight }

/-- Lines 205-210: the comparison and the update of the running best. -/
def nextStopUpdate (best : NextStop) (j : Nat) (c : NextCandidate) : NextStop :=
  if c.net_added > best.best_val_added_net then
    { best_next_village_idx := j, best_val_added_net := c.net_added,
      best_next_drop := c.drop, best_wt_added := c.total_weight }
  else best

/-- The extension scan (lines 162-211), with the deadline test of lines 163-164 at the head
of each iteration. -/
def nextStopScan (ext : Extern) (problem : ProblemData) (helicopter : Helicopter)
    (home : Point) (dry_ratio perishable_ratio current_dist_budget : ℚ)
    (rem_food_demand rem_other_demand : List Int) (trip : TripState) :
    List Nat → Nat → NextStop → NextStop × Nat
  | [], clock, best => (best, clock)
  | _ :: _, 0, best => (best, 0)
  | j :: rest, clock + 1, best =>
    match nextStopCandidate ext problem helicopter home dry_ratio perishable_ratio
        current_dist_budget rem_food_demand rem_other_demand trip j with
    | none =>
      nextStopScan ext problem helicopter home dry_ratio perishable_ratio
        current_dist_budget rem_food_demand rem_other_demand trip rest clock best
    | some c =>
      nextStopScan ext problem helicopter home dry_ratio perishable_ratio
        current_dist_budget rem_food_demand rem_other_demand trip rest clock
        (nextStopUpdate best j c)

/-- The initial values of the extension scan variables (lines 157-160); `best_next_drop` is
default-initialised in the source and only read after it has been assigned. -/
def nextStopInit : NextStop :=
  { best_next_village_idx := -1, best_val_added_net := 0, best_next_drop := default,
    best_wt_added := 0 }

/-- The extension loop `while (true)` (lines 156-221).  Returns the trip state and the
clock when the loop is left. -/
def extendTrip (ext : Extern) (problem : ProblemData) (helicopter : Helicopter)
    (home : Point) (dry_ratio perishable_ratio current_dist_budget : ℚ)
    (rem_food_demand rem_other_demand : List Int) :
    Nat → Nat → TripState → TripState × Nat
  | 0, clock, trip => (trip, clock)
  | fuel + 1, clock, trip =>
    let r := nextStopScan ext problem helicopter home dry_ratio perishable_ratio
      current_dist_budget rem_food_demand rem_other_demand trip
      (List.range problem.villages.length) clock nextStopInit
    if r.1.best_next_village_idx ≠ -1 then
      extendTrip ext problem helicopter home dry_ratio perishable_ratio current_dist_budget
        rem_food_demand rem_other_demand fuel r.2
        { drops := trip.drops ++ [r.1.best_next_drop],
          visited_in_this_trip := vecSet trip.visited_in_this_trip r.1.best_next_village_idx true,
          current_trip_weight := trip.current_trip_weight + r.1.best_wt_added,
          last_location := (vecAt problem.villages r.1.best_next_village_idx).coords }
    else (trip, r.2)

/-- The demand counters of one construction pass (lines 80-85). -/
structure Demand where
  rem_food_demand : List Int
  rem_other_demand : List Int
deriving DecidableEq, Inhabited

/-- Lines 232-234: the decrement of the two counters of the village of one drop. -/
def decrementDemand (dem : Demand) (drop : Drop) : Demand :=
  let village_idx := drop.village_id - 1
  { rem_food_demand := vecSet dem.rem_food_demand village_idx
      (max 0 (vecAt dem.rem_food_demand village_idx - (drop.dry_food + drop.perishable_food))),
    rem_other_demand := vecSet dem.rem_other_demand village_idx
      (max 0 (vecAt dem.rem_other_demand village_idx - drop.other_supplies)) }

/-- Lines 223-235, the pickups: the three totals start at 0 and every drop is added. -/
def finalizeTrip (drops : List Drop) : Trip :=
  drops.foldl
    (fun t drop =>
      { t with dry_food_pickup := t.dry_food_pickup + drop.dry_food,
               perishable_food_pickup := t.perishable_food_pickup + drop.perishable_food,
               other_supplies_pickup := t.other_supplies_pickup + drop.other_supplies })
    { drops := drops, dry_food_pickup := 0, perishable_food_pickup := 0,
      other_supplies_pickup := 0 }

/-- The state of the trip loop of one helicopter: `current_dist_budget`, the demand
counters, `plan.trips` and the clock. -/
structure PlanState where
  current_dist_budget : ℚ
  demand : Demand
  trips : List Trip
  clock : Nat
deriving DecidableEq, Inhabited

/-- The initial values of the first-stop scan variables (lines 99-101). -/
def firstStopInit : FirstStop :=
  { best_first_vil_idx := -1, best_init_value := 0, best_init_dry := 0, best_init_peri := 0,
    best_init_other := 0 }

/-- Lines 146-154: the trip that starts at the selected first stop. -/
def startTrip (problem : ProblemData) (best : FirstStop) : TripState :=
  { drops :=
      [{ village_id := (vecAt problem.villages best.best_first_vil_idx).id,
         dry_food := best.best_init_dry, perishable_food := best.best_init_peri,
         other_supplies := best.best_init_other }],
    visited_in_this_trip :=
      vecSet (List.replicate problem.villages.length false) best.best_first_vil_idx true,
    current_trip_weight :=
      (best.best_init_dry : ℚ) * (vecAt problem.packages DRY).weight
        + (best.best_init_peri : ℚ) * (vecAt problem.packages PER).weight
        + (best.best_init_other : ℚ) * (vecAt problem.packages OTH).weight,
    last_location := (vecAt problem.villages best.best_first_vil_idx).coords }

/-- Lines 223-246: the finalisation of a trip with the given drops: the pickups are
aggregated, the demand counters decremented drop by drop, the trip is pushed to `plan.trips`
and its recomputed round-trip distance is subtracted from `current_dist_budget`. -/
def commitTrip (ext : Extern) (problem : ProblemData) (home : Point) (st : PlanState)
    (drops : List Drop) (clock : Nat) : PlanState :=
  { current_dist_budget := st.current_dist_budget - tripDistance ext problem home drops,
    demand := drops.foldl decrementDemand st.demand,
    trips := st.trips ++ [finalizeTrip drops],
    clock := clock }

/-- The trip loop `while (current_dist_budget > 1e-6)` of one helicopter (lines 98-247). -/
def buildTrips (ext : Extern) (problem : ProblemData) (helicopter : Helicopter)
    (home : Point) (dry_ratio perishable_ratio : ℚ) : Nat → PlanState → PlanState
  | 0, st => st
  | fuel + 1, st =>
    if st.current_dist_budget > eps6 then
      let r := firstStopScan ext problem helicopter home dry_ratio perishable_ratio
        st.current_dist_budget st.demand.rem_food_demand st.demand.rem_other_demand
        (List.range problem.villages.length) st.clock firstStopInit
      if r.1.best_first_vil_idx = -1 then { st with clock := r.2 }
      else
        let e := extendTrip ext problem helicopter home dry_ratio perishable_ratio
          st.current_dist_budget st.demand.rem_food_demand st.demand.rem_other_demand
          (r.2 + 1) r.2 (startTrip problem r.1)
        buildTrips ext problem helicopter home dry_ratio perishable_ratio fuel
          (commitTrip ext problem home st e.1.drops e.2)
    else st

/-- The state of the loop over the helicopters (lines 87-249): the demand counters,
`current_solution` and the clock. -/
structure PassState where
  demand : Demand
  current_solution : Solution
  clock : Nat
deriving DecidableEq, Inhabited

/-- The loop over the helicopters (lines 87-249), with the deadline test of lines 88-89 at
the head of each iteration.  A plan is pushed for every helicopter reached, also when it has
no trip (line 248). -/
def buildPlans (ext : Extern) (problem : ProblemData) (dry_ratio perishable_ratio : ℚ) :
    List Helicopter → PassState → PassState
  | [], st => st
  | helicopter :: rest, st =>
    match st.clock with
    | 0 => st
    | clock + 1 =>
      let home := vecAt problem.cities (helicopter.home_city_id - 1)
      let r := buildTrips ext problem helicopter home dry_ratio perishable_ratio (clock + 1)
        { current_dist_budget := problem.d_max, demand := st.demand, trips := [],
          clock := clock }
      buildPlans ext problem dry_ratio perishable_ratio rest
        { demand := r.demand,
          current_solution :=
            st.current_solution ++ [{ helicopter_id := helicopter.id, trips := r.trips }],
          clock := r.clock }

/-- Lines 80-85: the demand counters at the start of a construction pass. -/
def initialDemand (problem : ProblemData) : Demand :=
  { rem_food_demand := problem.villages.map fun v => 9 * v.population,
    rem_other_demand := problem.villages.map fun v => v.population }

/-- One construction pass (lines 77-249): the candidate `current_solution` built with the
given ratios, and the clock after the pass. -/
def constructCandidate (ext : Extern) (problem : ProblemData)
    (dry_ratio perishable_ratio : ℚ) (clock : Nat) : PassState :=
  buildPlans ext problem dry_ratio perishable_ratio problem.helicopters
    { demand := initialDemand problem, current_solution := [], clock := clock }

/-! ## Solution evaluator (lines 251-295) -/

/-- The accumulators of the evaluator (lines 251-254). -/
structure EvalState where
  tval_gained : ℚ
  ttrip_cost : ℚ
  food_delivered : List ℚ
  other_delivered : List ℚ
deriving DecidableEq, Inhabited

/-- The body of the loop over the drops of a trip (lines 274-292). -/
def evalDrop (problem : ProblemData) (st : EvalState) (drop : Drop) : EvalState :=
  let village := vecAt problem.villages (drop.village_id - 1)
  let max_food_needed : ℚ := (village.population : ℚ) * 9
  let food_room_left := max 0 (max_food_needed - vecAt st.food_delivered village.id)
  let food_in_this_drop : ℚ := ((drop.dry_food + drop.perishable_food : Int) : ℚ)
  let effective_food := min food_in_this_drop food_room_left
  let effective_vp := min (drop.perishable_food : ℚ) effective_food
  let tval1 := st.tval_gained + effective_vp * (vecAt problem.packages PER).value
  let effective_vd := min (drop.dry_food : ℚ) (effective_food - effective_vp)
  let tval2 := tval1 + effective_vd * (vecAt problem.packages DRY).value
  let food_delivered := vecSet st.food_delivered village.id
    (vecAt st.food_delivered village.id + food_in_this_drop)
  let max_other_needed : ℚ := (village.population : ℚ) * 1
  let other_room_left := max 0 (max_other_needed - vecAt st.other_delivered village.id)
  let effective_vo := min (drop.other_supplies : ℚ) other_room_left
  let tval3 := tval2 + effective_vo * (vecAt problem.packages OTH).value
  let other_delivered := vecSet st.other_delivered village.id
    (vecAt st.other_delivered village.id + (drop.other_supplies : ℚ))
  { tval_gained := tval3, ttrip_cost := st.ttrip_cost, food_delivered := food_delivered,
    other_delivered := other_delivered }

/-- The body of the loop over the trips of a plan (lines 260-293). -/
def evalTrip (ext : Extern) (problem : ProblemData) (helicopter : Helicopter)
    (home_city_coords : Point) (st : EvalState) (trip : Trip) : EvalState :=
  if trip.drops.isEmpty then st
  else
    let trip_distance := tripDistance ext problem home_city_coords trip.drops
    trip.drops.foldl (evalDrop problem)
      { st with ttrip_cost :=
          st.ttrip_cost + (helicopter.fixed_cost + helicopter.alpha * trip_distance) }

/-- The body of the loop over the plans of the candidate (lines 256-294). -/
def evalPlan (ext : Extern) (problem : ProblemData) (st : EvalState)
    (helicopter_plan : HelicopterPlan) : EvalState :=
  let helicopter := vecAt problem.helicopters (helicopter_plan.helicopter_id - 1)
  let home_city_coords := vecAt problem.cities (helicopter.home_city_id - 1)
  helicopter_plan.trips.foldl (evalTrip ext problem helicopter home_city_coords) st

/-- The accumulators at the start of the evaluation (lines 251-254). -/
def evalInit (problem : ProblemData) : EvalState :=
  { tval_gained := 0, ttrip_cost := 0,
    food_delivered := List.replicate (problem.villages.length + 1) 0,
    other_delivered := List.replicate (problem.villages.length + 1) 0 }

/-- The evaluator (lines 251-295): `final_value` of a candidate. -/
def evaluate (ext : Extern) (problem : ProblemData) (current_solution : Solution) : ℚ :=
  let st := current_solution.foldl (evalPlan ext problem) (evalInit problem)
  st.tval_gained - st.ttrip_cost

/-! ## Ratio search (lines 44-345) -/

/-- The variables of one restart (lines 57-69).  `completed` is a specification-only
counter, the number of completed iterations of the restart; no program variable holds it
and nothing is computed from it. -/
structure RestartState where
  dry_ratio : ℚ
  perishable_ratio : ℚ
  learning_rate : ℚ
  direction : Int
  previous_value : ℚ
  first_iteration : Bool
  no_imp_count : Int
  temperature : ℚ
  completed : Nat
deriving DecidableEq, Inhabited

/-- One entry of the specification-only log of the search: the restart variables at the
start of a construction pass, the candidate built and the score the evaluator gave it. -/
structure PassRecord where
  at_start : RestartState
  candidate : Solution
  final_value : ℚ
deriving DecidableEq, Inhabited

/-- The variables that live across restarts (lines 44-49): the global best, the clock and
the number of values drawn from `dis(gen)` so far.  `scored` is a specification-only log of
the candidates scored so far, oldest first; nothing is computed from it. -/
structure SearchState where
  best_global_solution : Solution
  best_value : ℚ
  clock : Nat
  draws : Nat
  scored : List PassRecord
deriving DecidableEq, Inhabited

/-- `max_no_improvement` (line 65). -/
def max_no_improvement : Int := 20

/-- `min_imp_threshold` (line 66). -/
def min_imp_threshold : ℚ := 1 / 100

/-- `cooling_rate` (line 69). -/
def cooling_rate : ℚ := 95 / 100

/-- Lines 57-69: the variables of a restart that begins at `start_ratio`. -/
def initRestart (start_ratio : ℚ) : RestartState :=
  { dry_ratio := start_ratio, perishable_ratio := 1 - start_ratio, learning_rate := 2 / 10,
    direction := 1, previous_value := -DBL_MAX, first_iteration := true, no_imp_count := 0,
    temperature := 100, completed := 0 }

/-- Lines 297-309: the update of the global best and of the stagnation counter for a
candidate with score `final_value`. -/
def updateBest (rs : RestartState) (g : SearchState) (current_solution : Solution)
    (final_value : ℚ) : RestartState × SearchState :=
  if final_value > g.best_value then
    let improvement := final_value - g.best_value
    let g1 := { g with best_value := final_value, best_global_solution := current_solution }
    if improvement ≥ min_imp_threshold then ({ rs with no_imp_count := 0 }, g1)
    else ({ rs with no_imp_count := rs.no_imp_count + 1 }, g1)
  else ({ rs with no_imp_count := rs.no_imp_count + 1 }, g)

/-- Lines 315-337: the step adaptation.  Returns the restart variables and the number of
values drawn from `dis(gen)`. -/
def adaptStep (ext : Extern) (rs : RestartState) (final_value : ℚ) (draws : Nat) :
    RestartState × Nat :=
  if rs.first_iteration then
    ({ rs with previous_value := final_value, first_iteration := false,
               dry_ratio := rs.dry_ratio + (rs.direction : ℚ) * rs.learning_rate }, draws)
  else
    let acceptance_prob := ext.exp ((final_value - rs.previous_value) / rs.temperature)
    if final_value < rs.previous_value then
      if ext.dis draws < acceptance_prob then
        ({ rs with previous_value := final_value,
                   dry_ratio := rs.dry_ratio + (rs.direction : ℚ) * rs.learning_rate },
          draws + 1)
      else
        let direction := rs.direction * -1
        let learning_rate := rs.learning_rate * (9 / 10)
        ({ rs with direction := direction, learning_rate := learning_rate,
                   previous_value := final_value,
                   dry_ratio := rs.dry_ratio + (direction : ℚ) * learning_rate },
          draws + 1)
    else
      let learning_rate := rs.learning_rate * (11 / 10)
      ({ rs with learning_rate := learning_rate, previous_value := final_value,
                 dry_ratio := rs.dry_ratio + (rs.direction : ℚ) * learning_rate }, draws)

/-- Lines 339-342: the clamping of the ratio and of the step, and the cooling. -/
def clampStep (rs : RestartState) : RestartState :=
  let dry_ratio := max 0 (min 1 rs.dry_ratio)
  { rs with dry_ratio := dry_ratio, perishable_ratio := 1 - dry_ratio,
            learning_rate := max (5 / 100) (min (3 / 10) rs.learning_rate),
            temperature := rs.temperature * cooling_rate,
            completed := rs.completed + 1 }

/-- The loop `while (true)` of one restart (lines 71-344).  Each iteration first tests the
deadline (lines 72-75), builds a candidate, scores it, updates the global best and the
stagnation counter, leaves the loop when the counter reaches `max_no_improvement`, and
otherwise adapts the step. -/
def iterate (ext : Extern) (problem : ProblemData) :
    Nat → RestartState → SearchState → SearchState
  | 0, _, g => g
  | fuel + 1, rs, g =>
    match g.clock with
    | 0 => g
    | clock + 1 =>
      let pass := constructCandidate ext problem rs.dry_ratio rs.perishable_ratio clock
      let current_solution := pass.current_solution
      let final_value := evaluate ext problem current_solution
      let u := updateBest rs
        { g with clock := pass.clock,
                 scored := g.scored ++ [{ at_start := rs, candidate := current_solution,
                                          final_value := final_value }] }
        current_solution final_value
      if u.1.no_imp_count ≥ max_no_improvement then u.2
      else
        let a := adaptStep ext u.1 final_value u.2.draws
        iterate ext problem fuel (clampStep a.1) { u.2 with draws := a.2 }

/-- `starting_ratios` (line 51). -/
def starting_ratios : List ℚ := [1 / 10, 3 / 10, 5 / 10, 7 / 10, 9 / 10]

/-- The loop over the starting ratios (lines 53-345), with the deadline test of line 54 at
the head of each iteration. -/
def restarts (ext : Extern) (problem : ProblemData) : List ℚ → SearchState → SearchState
  | [], g => g
  | start_ratio :: rest, g =>
    match g.clock with
    | 0 => g
    | clock + 1 =>
      restarts ext problem rest
        (iterate ext problem (clock + 1) (initRestart start_ratio) { g with clock := clock })

/-- Lines 44-49: the global variables before the first restart. -/
def searchInit (clock : Nat) : SearchState :=
  { best_global_solution := [], best_value := -DBL_MAX, clock := clock, draws := 0,
    scored := [] }

/-- Lines 38-345 of `solve`: the whole search, for a run in which `clock` deadline tests
succeed. -/
def search (ext : Extern) (problem : ProblemData) (clock : Nat) : SearchState :=
  restarts ext problem starting_ratios (searchInit clock)

/-- `solve` (lines 36-406): the validation pass applied to the global best of the search. -/
def solve (ext : Extern) (problem : ProblemData) (clock : Nat) : Solution :=
  validate ext problem (search ext problem clock).best_global_solution

/-! ## Specification vocabulary

The definitions below are not part of the program: they name the properties that the
theorems state about it. -/

/-- The spec's `deliveryValue` (section 4.1), written from the spec's words: the food room
is `max(0, 9 x population - alreadyCountedFood)`, perishable units are counted first up to
the room, dry units fill what is left of it, other-supply units are capped at
`max(0, population - alreadyCountedOther)`. -/
def deliveryValue (village : Village) (dryUnits perishableUnits otherUnits : Int)
    (alreadyCountedFood alreadyCountedOther : Int) (packages : List PackageInfo) : ℚ :=
  let room := max 0 (9 * village.population - alreadyCountedFood)
  let countedPerishable := min perishableUnits room
  let countedDry := min dryUnits (room - countedPerishable)
  let countedOther := min otherUnits (max 0 (village.population - alreadyCountedOther))
  (countedPerishable : ℚ) * (vecAt packages PER).value
    + (countedDry : ℚ) * (vecAt packages DRY).value
    + (countedOther : ℚ) * (vecAt packages OTH).value

/-- The villages have dense 1-based ids: the village at index `i` has id `i + 1`. -/
def DenseVillageIds (problem : ProblemData) : Prop :=
  ∀ i : Nat, i < problem.villages.length → (vecAt problem.villages i).id = (i : Int) + 1

/-- The helicopters have dense 1-based ids. -/
def DenseHelicopterIds (problem : ProblemData) : Prop :=
  ∀ i : Nat, i < problem.helicopters.length →
    (vecAt problem.helicopters i).id = (i : Int) + 1

/-- A well-formed problem: populations and weight capacities are non-negative and the
village ids are dense. -/
def WellFormed (problem : ProblemData) : Prop :=
  (∀ v ∈ problem.villages, 0 ≤ v.population)
  ∧ (∀ h ∈ problem.helicopters, 0 ≤ h.weight_capacity)
  ∧ DenseVillageIds problem

/-- A trip passes the per-trip checks of the validation pass: it has a drop, its pickups
equal the sums over its drops, no quantity is negative, and its distance and weight are
within the capacities of the helicopter (up to `1e-9`). -/
def FeasibleTrip (ext : Extern) (problem : ProblemData) (helicopter : Helicopter)
    (home : Point) (trip : Trip) : Prop :=
  trip.drops ≠ []
  ∧ trip.dry_food_pickup = total_dry_dropped trip
  ∧ trip.perishable_food_pickup = total_peri_dropped trip
  ∧ trip.other_supplies_pickup = total_other_dropped trip
  ∧ 0 ≤ trip.dry_food_pickup ∧ 0 ≤ trip.perishable_food_pickup
  ∧ 0 ≤ trip.other_supplies_pickup
  ∧ (∀ drop ∈ trip.drops,
      0 ≤ drop.dry_food ∧ 0 ≤ drop.perishable_food ∧ 0 ≤ drop.other_supplies)
  ∧ tripDistance ext problem home trip.drops ≤ helicopter.distance_capacity + eps9
  ∧ tripWeight problem trip ≤ helicopter.weight_capacity + eps9

/-- A plan is feasible: it has a trip, every trip is feasible for the helicopter of the
plan, and the cumulative distance after each trip is within `d_max` (up to `1e-9`). -/
def FeasiblePlan (ext : Extern) (problem : ProblemData) (plan : HelicopterPlan) : Prop :=
  plan.trips ≠ []
  ∧ (∀ trip ∈ plan.trips,
      FeasibleTrip ext problem (vecAt problem.helicopters (plan.helicopter_id - 1))
        (vecAt problem.cities
          ((vecAt problem.helicopters (plan.helicopter_id - 1)).home_city_id - 1)) trip)
  ∧ ∀ n : Nat, 0 < n → n ≤ plan.trips.length →
      (((plan.trips.take n).map fun t =>
        tripDistance ext problem
          (vecAt problem.cities
            ((vecAt problem.helicopters (plan.helicopter_id - 1)).home_city_id - 1))
          t.drops).sum) ≤ problem.d_max + eps9

/-- A solution is feasible: every plan is. -/
def Feasible (ext : Extern) (problem : ProblemData) (s : Solution) : Prop :=
  ∀ plan ∈ s, FeasiblePlan ext problem plan

/-- The drops of a list of trips, in encounter order. -/
def tripsDrops : List Trip → List Drop
  | [] => []
  | t :: ts => t.drops ++ tripsDrops ts

/-- The drops of a solution, in encounter order. -/
def allDrops : Solution → List Drop
  | [] => []
  | p :: ps => tripsDrops p.trips ++ allDrops ps

/-- The food units (dry + perishable) that a list of drops delivers to a village. -/
def foodUnits (drops : List Drop) (village_id : Int) : Int :=
  ((drops.filter fun d => decide (d.village_id = village_id)).map
    fun d => d.dry_food + d.perishable_food).sum

/-- The other-supply units that a list of drops delivers to a village. -/
def otherUnits (drops : List Drop) (village_id : Int) : Int :=
  ((drops.filter fun d => decide (d.village_id = village_id)).map
    fun d => d.other_supplies).sum

/-- The ratios with which a construction pass is entered are in range. -/
def RatioOK (rs : RestartState) : Prop :=
  0 ≤ rs.dry_ratio ∧ rs.dry_ratio ≤ 1 ∧ rs.perishable_ratio = 1 - rs.dry_ratio

/-- A log entry records a candidate built by one construction pass with ratios in range,
and the score the evaluator gives it. -/
def RecordOK (ext : Extern) (problem : ProblemData) (r : PassRecord) : Prop :=
  RatioOK r.at_start
  ∧ (∃ clock, r.candidate = (constructCandidate ext problem r.at_start.dry_ratio
        r.at_start.perishable_ratio clock).current_solution)
  ∧ r.final_value = evaluate ext problem r.candidate

/-- The global best is the initial one (no candidate scored above `-DBL_MAX`), or the
earliest entry of the log with the highest score. -/
def BestOK (g : SearchState) : Prop :=
  (g.best_global_solution = [] ∧ g.best_value = -DBL_MAX
      ∧ ∀ r ∈ g.scored, r.final_value ≤ -DBL_MAX)
  ∨ ∃ l1 r l2, g.scored = l1 ++ r :: l2 ∧ g.best_global_solution = r.candidate
      ∧ g.best_value = r.final_value ∧ (∀ q ∈ l1, q.final_value < r.final_value)
      ∧ ∀ q ∈ l2, q.final_value ≤ r.final_value

/-- The invariant of the search loops. -/
def SearchInv (ext : Extern) (problem : ProblemData) (g : SearchState) : Prop :=
  (∀ r ∈ g.scored, RecordOK ext problem r) ∧ BestOK g

/-- The end-to-end single-village scenario of the spec (section 8): one city, one
helicopter and one village of population 10, all with id 1; package weights above `1e-9`;
weight capacity for the whole demand; the round trip within the distance capacity and within
`d_max`; perishable unit value above dry unit value above 0. `symmetric` holds for every
Euclidean distance. -/
structure SingleVillage (ext : Extern) (problem : ProblemData) (city : Point)
    (helicopter : Helicopter) (village : Village) : Prop where
  cities : problem.cities = [city]
  helicopters : problem.helicopters = [helicopter]
  villages : problem.villages = [village]
  helicopter_id : helicopter.id = 1
  home : helicopter.home_city_id = 1
  village_id : village.id = 1
  population : village.population = 10
  dry_weight : eps9 < (vecAt problem.packages DRY).weight
  perishable_weight : eps9 < (vecAt problem.packages PER).weight
  other_weight : eps9 < (vecAt problem.packages OTH).weight
  capacity : 90 * max (vecAt problem.packages DRY).weight (vecAt problem.packages PER).weight
    + 10 * (vecAt problem.packages OTH).weight ≤ helicopter.weight_capacity
  symmetric : ext.distance village.coords city = ext.distance city village.coords
  reach : 2 * ext.distance city village.coords ≤ helicopter.distance_capacity
  budget : 2 * ext.distance city village.coords ≤ problem.d_max
  dry_value : 0 < (vecAt problem.packages DRY).value
  perishable_value : (vecAt problem.packages DRY).value < (vecAt problem.packages PER).value

/-- The solution with one plan, one trip and one drop that delivers `d` dry units,
`90 - d` perishable units and 10 other-supply units to village 1 with helicopter 1. -/
def singleTrip (d : Int) : Solution :=
  [{ helicopter_id := 1,
     trips := [{ drops := [{ village_id := 1, dry_food := d, perishable_food := 90 - d,
                             other_supplies := 10 }],
                 dry_food_pickup := d, perishable_food_pickup := 90 - d,
                 other_supplies_pickup := 10 }] }]

/-! ## Example instances

Concrete inputs on which the theorems are instantiated. -/

/-- The distance of the examples: `|dx| + |dy|`, which is the Euclidean distance between
points of equal `y`, as are all points of the examples. -/
def exampleDistance (a b : Point) : ℚ := |a.x - b.x| + |a.y - b.y|

/-- The library services of the examples: a stand-in for `exp` with values in `(0,1]` on
non-positive arguments, and a generator that always draws `1/2`. -/
def exampleExtern : Extern :=
  { distance := exampleDistance, exp := fun x => 1 / (1 + |x|), dis := fun _ => 1 / 2 }

/-- The packages of the examples: dry (weight 1, value 1), perishable (weight 1, value 2),
other (weight 1, value 1). -/
def examplePackages : List PackageInfo := [⟨1, 1⟩, ⟨1, 2⟩, ⟨1, 1⟩]

/-- The city of the examples. -/
def exampleCity : Point := ⟨0, 0⟩

/-- The village of the examples: id 1, population 10, at distance 3 from the city. -/
def exampleVillage : Village := ⟨1, 10, ⟨3, 0⟩⟩

/-- The helicopter of the examples: weight capacity 1000, distance capacity 100, fixed
cost 10, alpha 1. -/
def exampleHelicopter : Helicopter := ⟨1, 1, 1000, 100, 10, 1⟩

/-- An instance of the single-village scenario with `d_max = 50`. -/
def exampleProblem : ProblemData :=
  { cities := [exampleCity], villages := [exampleVillage], helicopters := [exampleHelicopter],
    packages := examplePackages, d_max := 50, time_limit_minutes := 1 }

/-- The plan of the example problem that delivers 9 dry, 81 perishable and 10 other units
in one trip with one drop. -/
def examplePlan : HelicopterPlan :=
  { helicopter_id := 1,
    trips := [{ drops := [{ village_id := 1, dry_food := 9, perishable_food := 81,
                            other_supplies := 10 }],
                dry_food_pickup := 9, perishable_food_pickup := 81,
                other_supplies_pickup := 10 }] }

/-- A helicopter that cannot reach the village of the examples: distance capacity 1. -/
def shortRangeHelicopter : Helicopter := ⟨1, 1, 1000, 1, 10, 1⟩

/-- The example problem with the short-range helicopter: no delivery is feasible. -/
def unreachableProblem : ProblemData :=
  { cities := [exampleCity], villages := [exampleVillage],
    helicopters := [shortRangeHelicopter], packages := examplePackages, d_max := 50,
    time_limit_minutes := 1 }

/-- The spec's step adaptation (section 4.4), written from the spec's words, for the score
`new_score` of the iteration and the uniform draw `draw`. In the first iteration of a restart
direction and step are kept. Later, when the new score is worse than the previous score of
the restart, the move is accepted when `draw < exp((new - previous)/temperature)`: on
acceptance direction and step are kept, on rejection the direction is negated and the step is
multiplied by 0.9; when the new score is not worse the step is multiplied by 1.1 and the
direction kept. Then the previous score becomes the new score, the ratio becomes
`clamp(ratio + direction x step, 0, 1)`, the step `clamp(step, 0.05, 0.3)` and the
temperature `0.95 x temperature`. -/
def specAdapt (ext : Extern) (rs : RestartState) (new_score draw : ℚ) : RestartState :=
  let worse : Prop := new_score < rs.previous_value
  let accepted : Prop :=
    draw < ext.exp ((new_score - rs.previous_value) / rs.temperature)
  let direction : Int :=
    if rs.first_iteration = true then rs.direction
    else if worse then (if accepted then rs.direction else -rs.direction)
    else rs.direction
  let step : ℚ :=
    if rs.first_iteration = true then rs.learning_rate
    else if worse then (if accepted then rs.learning_rate else rs.learning_rate * (9 / 10))
    else rs.learning_rate * (11 / 10)
  let ratio : ℚ := max 0 (min 1 (rs.dry_ratio + (direction : ℚ) * step))
  { dry_ratio := ratio, perishable_ratio := 1 - ratio,
    learning_rate := max (5 / 100) (min (3 / 10) step), direction := direction,
    previous_value := new_score, first_iteration := false,
    no_imp_count := rs.no_imp_count, temperature := rs.temperature * (95 / 100),
    completed := rs.completed + 1 }

/-- The invariant of the variables of a restart at the start of a construction pass: the
ratios are in range and sum to 1, the step is in `[0.05, 0.3]`, the direction is `+1` or
`-1`, the temperature is `100 x 0.95^completed`, and in the first iteration (the only one
with `first_iteration` set) nothing has been adapted yet. -/
def StepOK (rs : RestartState) : Prop :=
  0 ≤ rs.dry_ratio ∧ rs.dry_ratio ≤ 1 ∧ rs.perishable_ratio = 1 - rs.dry_ratio
  ∧ 5 / 100 ≤ rs.learning_rate ∧ rs.learning_rate ≤ 3 / 10
  ∧ (rs.direction = 1 ∨ rs.direction = -1)
  ∧ rs.temperature = 100 * (95 / 100) ^ rs.completed
  ∧ (rs.first_iteration = true ↔ rs.completed = 0)
  ∧ (rs.first_iteration = true → rs.direction = 1 ∧ rs.learning_rate = 2 / 10)

/-- The candidates of a log are all stagnant for a global best that starts at `best`: none
has a score that exceeds the global best of its moment by at least `min_imp_threshold`. The
global best of the moment is the highest of `best` and the earlier scores. -/
def stagnantRun : ℚ → List PassRecord → Bool
  | _, [] => true
  | best, r :: rs =>
    decide (r.final_value < best + min_imp_threshold)
      && stagnantRun (max best r.final_value) rs

/-- The log entry of the iteration that starts with the variables `rs` when `clock`
deadline tests remain after the test at the head of the iteration. -/
def passRecord (ext : Extern) (problem : ProblemData) (rs : RestartState) (clock : Nat) :
    PassRecord :=
  { at_start := rs,
    candidate := (constructCandidate ext problem rs.dry_ratio rs.perishable_ratio
      clock).current_solution,
    final_value := evaluate ext problem (constructCandidate ext problem rs.dry_ratio
      rs.perishable_ratio clock).current_solution }

/-- The restart variables and the search state of an iteration after line 309: the candidate
is built and scored, and the global best and the stagnation counter are updated. -/
def scoreState (ext : Extern) (problem : ProblemData) (rs : RestartState) (g : SearchState)
    (clock : Nat) : RestartState × SearchState :=
  updateBest rs
    { g with clock := (constructCandidate ext problem rs.dry_ratio rs.perishable_ratio
               clock).clock,
             scored := g.scored ++ [passRecord ext problem rs clock] }
    (passRecord ext problem rs clock).candidate (passRecord ext problem rs clock).final_value

/-- A search state as a restart finds it after earlier restarts left a best score of 0. -/
def settledState (clock : Nat) : SearchState :=
  { best_global_solution := [], best_value := 0, clock := clock, draws := 0, scored := [] }

/-- The food units of the spec's first-stop mix (section 4.2), written from the spec's
words: `min(remaining food demand, floor(weight capacity / blended food weight))`. -/
def specFood (weight_capacity avg_food_wt : ℚ) (rem_food : Int) : Int :=
  min rem_food ⌊weight_capacity / avg_food_wt⌋

/-- The dry units of the spec's mix: `floor(food x ratio)`. -/
def specDry (weight_capacity ratio avg_food_wt : ℚ) (rem_food : Int) : Int :=
  ⌊(specFood weight_capacity avg_food_wt rem_food : ℚ) * ratio⌋

/-- The perishable units of the spec's mix: `food - dry`. -/
def specPerishable (weight_capacity ratio avg_food_wt : ℚ) (rem_food : Int) : Int :=
  specFood weight_capacity avg_food_wt rem_food
    - specDry weight_capacity ratio avg_food_wt rem_food

/-- The weight of the food of the spec's mix. -/
def specFoodWeight (problem : ProblemData) (weight_capacity ratio avg_food_wt : ℚ)
    (rem_food : Int) : ℚ :=
  (specDry weight_capacity ratio avg_food_wt rem_food : ℚ)
      * (vecAt problem.packages DRY).weight
    + (specPerishable weight_capacity ratio avg_food_wt rem_food : ℚ)
      * (vecAt problem.packages PER).weight

/-- The other units of the spec's mix:
`min(remaining other demand, floor(leftover weight / other weight))`. -/
def specOther (problem : ProblemData) (weight_capacity ratio avg_food_wt : ℚ)
    (rem_food rem_other : Int) : Int :=
  min rem_other
    ⌊(weight_capacity - specFoodWeight problem weight_capacity ratio avg_food_wt rem_food)
      / (vecAt problem.packages OTH).weight⌋

/-- The extension scan skips a village whose mix is all zero (line 200). -/
def nonZeroMix (m : Mix) : Option Mix :=
  if m.dry_units + m.perishable_units + m.other_units = 0 then none else some m

/-- Packages in which a perishable unit weighs ten times a dry unit. -/
def heavyPerishablePackages : List PackageInfo := [⟨1, 1⟩, ⟨10, 2⟩, ⟨1, 1⟩]

/-- A helicopter of weight capacity 9.9. -/
def lightHelicopter : Helicopter := ⟨1, 1, 99 / 10, 100, 10, 1⟩

/-- The example problem with heavy perishable packages and the light helicopter. -/
def heavyPerishableProblem : ProblemData :=
  { cities := [exampleCity], villages := [exampleVillage], helicopters := [lightHelicopter],
    packages := heavyPerishablePackages, d_max := 50, time_limit_minutes := 1 }

/-- An evaluator state with another accumulated cost. -/
def withCost (st : EvalState) (cost : ℚ) : EvalState :=
  { st with ttrip_cost := cost }

/-- The local variable `effective_food` of the evaluator (lines 275-278) for a drop, in the
state in which the drop is met: the food units of the drop that the evaluator counts. -/
def effectiveFood (problem : ProblemData) (st : EvalState) (drop : Drop) : ℚ :=
  let village := vecAt problem.villages (drop.village_id - 1)
  let max_food_needed : ℚ := (village.population : ℚ) * 9
  let food_room_left := max 0 (max_food_needed - vecAt st.food_delivered village.id)
  let food_in_this_drop : ℚ := ((drop.dry_food + drop.perishable_food : Int) : ℚ)
  min food_in_this_drop food_room_left

/-- The local variable `effective_vo` of the evaluator (lines 285-287) for a drop: the other
units of the drop that the evaluator counts. -/
def effectiveOther (problem : ProblemData) (st : EvalState) (drop : Drop) : ℚ :=
  let village := vecAt problem.villages (drop.village_id - 1)
  let max_other_needed : ℚ := (village.population : ℚ) * 1
  let other_room_left := max 0 (max_other_needed - vecAt st.other_delivered village.id)
  min (drop.other_supplies : ℚ) other_room_left

/-- The food units that the evaluator counts for the village with id `village_id` over a
list of drops met in order from the state `st`. -/
def countedFood (problem : ProblemData) : EvalState → List Drop → Int → ℚ
  | _, [], _ => 0
  | st, d :: ds, village_id =>
    (if d.village_id = village_id then effectiveFood problem st d else 0)
      + countedFood problem (evalDrop problem st d) ds village_id

/-- The other units that the evaluator counts for the village with id `village_id` over a
list of drops met in order from the state `st`. -/
def countedOther (problem : ProblemData) : EvalState → List Drop → Int → ℚ
  | _, [], _ => 0
  | st, d :: ds, village_id =>
    (if d.village_id = village_id then effectiveOther problem st d else 0)
      + countedOther problem (evalDrop problem st d) ds village_id

/-- A second village for the examples: id 2, population 10, on the line through the city and
the first village, at distance 4 from the city and 1 from the first village. -/
def secondVillage : Village := ⟨2, 10, ⟨4, 0⟩⟩

/-- The example problem with two villages. -/
def twoVillageProblem : ProblemData :=
  { cities := [exampleCity], villages := [exampleVillage, secondVillage],
    helicopters := [exampleHelicopter], packages := examplePackages, d_max := 50,
    time_limit_minutes := 1 }

/-- The number of binary digits of `n`, by halving at most `fuel` times. -/
def bitsAux : Nat → Nat → Nat
  | 0, _ => 0
  | fuel + 1, n => if n = 0 then 0 else bitsAux fuel (n / 2) + 1

/-- The number of binary digits of `n`. -/
def bits (n : Nat) : Nat := bitsAux n n

/-- The power `2 ^ e` for an integer exponent. -/
def pow2 (e : Int) : ℚ := if 0 ≤ e then 2 ^ e.toNat else 1 / 2 ^ (-e).toNat

/-- The binary exponent of a rational `q` that is not zero: `2 ^ e <= |q| < 2 ^ (e + 1)`. -/
def binade (q : ℚ) : Int :=
  let e0 : Int := (bits q.num.natAbs : Int) - (bits q.den : Int)
  if pow2 e0 ≤ |q| then e0 else e0 - 1

/-- Rounding to the nearest integer, a tie going to the even one. -/
def roundEven (q : ℚ) : Int :=
  if q - ⌊q⌋ < 1 / 2 then ⌊q⌋
  else if 1 / 2 < q - ⌊q⌋ then ⌊q⌋ + 1
  else if ⌊q⌋ % 2 = 0 then ⌊q⌋ else ⌊q⌋ + 1

/-- Rounding to binary64: the nearest number with 53 significant binary digits, a tie going
to the even significand.  The exponent is not bounded: this is the rounding of a `double`
operation whose result is neither subnormal nor out of range. -/
def fl64 (q : ℚ) : ℚ :=
  if q = 0 then 0
  else (roundEven (q / pow2 (binade q - 52)) : ℚ) * pow2 (binade q - 52)

/-! ## Machine arithmetic

The definitions above compute in exact arithmetic.  The definitions of this section make the
arithmetic of the compiled program explicit where a claim depends on it: a 32-bit `int`
wraps, `static_cast<int>` has a range, and every `double` operation is followed by a
rounding `fl`, which is a parameter.  `fl64` is the rounding of binary64. -/

/-- The value that a 32-bit two's-complement `int` holds for the mathematical result `x`. -/
def wrap32 (x : Int) : Int := (x + 2147483648) % 4294967296 - 2147483648

/-- The conversion `static_cast<int>(q)` of a `double` as the x86-64 instruction computes
it: truncation toward zero for a value whose truncation is an `int`, and `INT_MIN` for every
other value. -/
def castInt (q : ℚ) : Int :=
  if -2147483649 < q ∧ q < 2147483648 then toInt q else -2147483648

/-- What the theorems assume of the rounding of the `double` operations, as holds for
binary64 round-to-nearest: it is monotone, it leaves the integers up to `2^53` unchanged,
and it leaves its own results unchanged. -/
structure Rounding (fl : ℚ → ℚ) : Prop where
  mono : ∀ x y : ℚ, x ≤ y → fl x ≤ fl y
  exact_int : ∀ n : Int, |n| ≤ 9007199254740992 → fl (n : ℚ) = (n : ℚ)
  idem : ∀ x : ℚ, fl (fl x) = fl x

namespace Machine

/-- The function `calculateVillageValue` (lines 14-34) in machine arithmetic: the `int`
results wrap, the `double` results are rounded.  The conversion of an `int` to `double` is
exact. -/
def calculateVillageValue (fl : ℚ → ℚ) (village : Village)
    (dry_delivered perishable_delivered other_delivered : Int)
    (packages : List PackageInfo) : ℚ :=
  let max_food_needed := wrap32 (9 * village.population)
  let max_other_needed := village.population
  let total_food_delivered := wrap32 (dry_delivered + perishable_delivered)
  let effective_food := min total_food_delivered max_food_needed
  let effective_other := min other_delivered max_other_needed
  let food_value : ℚ :=
    if effective_food > 0 then
      let effective_perishable := min perishable_delivered effective_food
      let remaining_food_need := wrap32 (effective_food - effective_perishable)
      let effective_dry := min dry_delivered remaining_food_need
      fl (fl (0 + fl ((effective_perishable : ℚ) * (vecAt packages PER).value))
        + fl ((effective_dry : ℚ) * (vecAt packages DRY).value))
    else 0
  let other_value : ℚ := fl ((effective_other : ℚ) * (vecAt packages OTH).value)
  fl (food_value + other_value)

/-- Line 96 in machine arithmetic: `avg_food_wt`. -/
def avgFoodWt (fl : ℚ → ℚ) (problem : ProblemData) (dry_ratio perishable_ratio : ℚ) : ℚ :=
  fl (fl (dry_ratio * (vecAt problem.packages DRY).weight)
    + fl (perishable_ratio * (vecAt problem.packages PER).weight))

/-- Lines 114-129 in machine arithmetic, the mix of the first-stop scan: `none` on each of the
two `continue` of the weight checks.  The literal `1e-9` is the `double` `fl eps9`. -/
def firstStopMix (fl : ℚ → ℚ) (problem : ProblemData)
    (weight_capacity dry_ratio avg_food_wt : ℚ) (rem_food rem_other : Int) : Option Mix :=
  let food_to_send := min rem_food (castInt (fl (weight_capacity / avg_food_wt)))
  let dry_units := castInt (fl ((food_to_send : ℚ) * dry_ratio))
  let perishable_units := wrap32 (food_to_send - dry_units)
  let food_weight : ℚ := fl (fl ((dry_units : ℚ) * (vecAt problem.packages DRY).weight)
    + fl ((perishable_units : ℚ) * (vecAt problem.packages PER).weight))
  if food_weight > fl (weight_capacity + fl eps9) then none
  else
    let rem_weight := fl (weight_capacity - food_weight)
    let other_units : Int :=
      if (vecAt problem.packages OTH).weight > fl eps9 ∧ rem_weight > fl eps9 then
        max 0 (min rem_other (castInt (fl (rem_weight / (vecAt problem.packages OTH).weight))))
      else 0
    let total_weight :=
      fl (food_weight + fl ((other_units : ℚ) * (vecAt problem.packages OTH).weight))
    if total_weight > fl (weight_capacity + fl eps9) then none
    else some { dry_units := dry_units, perishable_units := perishable_units,
                other_units := other_units, total_weight := total_weight }

/-- Lines 183-200 in machine arithmetic, the mix of the extension scan for the leftover
capacity `remaining_weight_cap`: `none` on each of the three `continue`. -/
def nextStopMix (fl : ℚ → ℚ) (problem : ProblemData)
    (remaining_weight_cap dry_ratio avg_food_wt : ℚ) (rem_food rem_other : Int) :
    Option Mix :=
  let food_to_send :=
    min rem_food (castInt (fl (remaining_weight_cap / fl (avg_food_wt + fl eps9))))
  let dry_units := castInt (fl ((food_to_send : ℚ) * dry_ratio))
  let perishable_units := wrap32 (food_to_send - dry_units)
  let food_weight : ℚ := fl (fl ((dry_units : ℚ) * (vecAt problem.packages DRY).weight)
    + fl ((perishable_units : ℚ) * (vecAt problem.packages PER).weight))
  if food_weight > fl (remaining_weight_cap + fl eps9) then none
  else
    let temp_rem_weight := fl (remaining_weight_cap - food_weight)
    let other_units : Int :=
      if (vecAt problem.packages OTH).weight > fl eps9 ∧ temp_rem_weight > fl eps9 then
        max 0 (min rem_other
          (castInt (fl (temp_rem_weight / (vecAt problem.packages OTH).weight))))
      else 0
    let total_weight :=
      fl (food_weight + fl ((other_units : ℚ) * (vecAt problem.packages OTH).weight))
    if total_weight > fl (remaining_weight_cap + fl eps9) then none
    else if wrap32 (wrap32 (dry_units + perishable_units) + other_units) = 0 then none
    else some { dry_units := dry_units, perishable_units := perishable_units,
                other_units := other_units, total_weight := total_weight }

/-- Lines 106-133 of the first-stop scan for village index `i` in machine arithmetic, after
the deadline test: `none` on each `continue`, otherwise the net value and the mix that reach
line 135. -/
def firstStopCandidate (fl : ℚ → ℚ) (ext : Extern) (problem : ProblemData)
    (helicopter : Helicopter) (home : Point)
    (dry_ratio perishable_ratio current_dist_budget : ℚ)
    (rem_food_demand rem_other_demand : List Int) (i : Nat) : Option FirstCandidate :=
  let avg_food_wt := avgFoodWt fl problem dry_ratio perishable_ratio
  if vecAt rem_food_demand i ≤ 0 ∧ vecAt rem_other_demand i ≤ 0 then none
  else
    let village := vecAt problem.villages i
    let village_coord := village.coords
    let trip_distance := fl (2 * ext.distance home village_coord)
    if trip_distance > helicopter.distance_capacity ∨ trip_distance > current_dist_budget then
      none
    else if avg_food_wt < fl eps9 then none
    else
      match firstStopMix fl problem helicopter.weight_capacity dry_ratio avg_food_wt
          (vecAt rem_food_demand i) (vecAt rem_other_demand i) with
      | none => none
      | some m =>
        let value := calculateVillageValue fl village m.dry_units m.perishable_units
          m.other_units problem.packages
        let cost := fl (helicopter.fixed_cost + fl (helicopter.alpha * trip_distance))
        let net_value := fl (value - cost)
        some { net_value := net_value, dry_units := m.dry_units,
               perishable_units := m.perishable_units, other_units := m.other_units }

/-- The spec's `deliveryValue` (section 4.1), written from the spec's words, with the sum
`countedPerishable x value[PER] + countedDry x value[DRY] + countedOther x value[OTH]`
evaluated from left to right in `double` arithmetic. -/
def deliveryValue (fl : ℚ → ℚ) (village : Village)
    (dryUnits perishableUnits otherUnits : Int)
    (alreadyCountedFood alreadyCountedOther : Int) (packages : List PackageInfo) : ℚ :=
  let room := max 0 (9 * village.population - alreadyCountedFood)
  let countedPerishable := min perishableUnits room
  let countedDry := min dryUnits (room - countedPerishable)
  let countedOther := min otherUnits (max 0 (village.population - alreadyCountedOther))
  fl (fl (fl ((countedPerishable : ℚ) * (vecAt packages PER).value)
      + fl ((countedDry : ℚ) * (vecAt packages DRY).value))
    + fl ((countedOther : ℚ) * (vecAt packages OTH).value))

/-- The food units of the spec's first-stop mix (section 4.2), written from the spec's
words, the quotient being the `double` quotient:
`min(remaining food demand, floor(weight capacity / blended food weight))`. -/
def specFood (fl : ℚ → ℚ) (weight_capacity avg_food_wt : ℚ) (rem_food : Int) : Int :=
  min rem_food ⌊fl (weight_capacity / avg_food_wt)⌋

/-- The dry units of the spec's mix: `floor(food x ratio)`, the product being the `double`
product. -/
def specDry (fl : ℚ → ℚ) (weight_capacity ratio avg_food_wt : ℚ) (rem_food : Int) : Int :=
  ⌊fl ((specFood fl weight_capacity avg_food_wt rem_food : ℚ) * ratio)⌋

/-- The perishable units of the spec's mix: `food - dry`. -/
def specPerishable (fl : ℚ → ℚ) (weight_capacity ratio avg_food_wt : ℚ) (rem_food : Int) :
    Int :=
  specFood fl weight_capacity avg_food_wt rem_food
    - specDry fl weight_capacity ratio avg_food_wt rem_food

/-- The weight of the food of the spec's mix, in `double` arithmetic. -/
def specFoodWeight (fl : ℚ → ℚ) (problem : ProblemData)
    (weight_capacity ratio avg_food_wt : ℚ) (rem_food : Int) : ℚ :=
  fl (fl ((specDry fl weight_capacity ratio avg_food_wt rem_food : ℚ)
        * (vecAt problem.packages DRY).weight)
    + fl ((specPerishable fl weight_capacity ratio avg_food_wt rem_food : ℚ)
        * (vecAt problem.packages PER).weight))

/-- The other units of the spec's mix:
`min(remaining other demand, floor(leftover weight / other weight))`, in `double`
arithmetic, and 0 when the other weight or the leftover weight is not above `1e-9`. -/
def specOther (fl : ℚ → ℚ) (problem : ProblemData) (weight_capacity ratio avg_food_wt : ℚ)
    (rem_food rem_other : Int) : Int :=
  if (vecAt problem.packages OTH).weight > fl eps9
      ∧ fl (weight_capacity
          - specFoodWeight fl problem weight_capacity ratio avg_food_wt rem_food) > fl eps9
  then
    min rem_other
      ⌊fl (fl (weight_capacity
            - specFoodWeight fl problem weight_capacity ratio avg_food_wt rem_food)
          / (vecAt problem.packages OTH).weight)⌋
  else 0

/-- The weight of the whole mix of the spec, in `double` arithmetic. -/
def specTotalWeight (fl : ℚ → ℚ) (problem : ProblemData)
    (weight_capacity ratio avg_food_wt : ℚ) (rem_food rem_other : Int) : ℚ :=
  fl (specFoodWeight fl problem weight_capacity ratio avg_food_wt rem_food
    + fl ((specOther fl problem weight_capacity ratio avg_food_wt rem_food rem_other : ℚ)
        * (vecAt problem.packages OTH).weight))

end Machine

/-! ## Ranges of the data -/

/-- A whole number of absolute value at most `2^20`. Sums and products of a few such numbers
and of `int` quantities are integers below `2^53`, on which `double` arithmetic is exact. -/
abbrev Whole (q : ℚ) : Prop := q.den = 1 ∧ q.num.natAbs ≤ 1048576

/-- Packages whose weights and values are the `double` values of the decimals 1.1, 1.1 and
1.06 (weights) and 2.3, 2.3 and 1 (values). -/
def decimalPackages : List PackageInfo :=
  [⟨fl64 (11 / 10), fl64 (23 / 10)⟩, ⟨fl64 (11 / 10), fl64 (23 / 10)⟩, ⟨fl64 (53 / 50), 1⟩]

/-- A helicopter whose weight capacity is the smallest `double` that is at least
`90 x 1.1 + 10 x 1.06` for the `double` values of 1.1 and 1.06. -/
def tightHelicopter : Helicopter :=
  ⟨1, 1, 7712414361871975 / 70368744177664, 100, 10, 1⟩

/-- The example problem with the decimal packages and the tight helicopter. -/
def decimalProblem : ProblemData :=
  { cities := [exampleCity], villages := [exampleVillage], helicopters := [tightHelicopter],
    packages := decimalPackages, d_max := 50, time_limit_minutes := 1 }

namespace Machine

/-- The distance loop of `routeLegs` in `double` arithmetic: every `+=` is rounded. -/
def routeLegs (fl : ℚ → ℚ) (ext : Extern) (problem : ProblemData) :
    List Drop → Point → ℚ → ℚ × Point
  | [], loc, acc => (acc, loc)
  | drop :: rest, loc, acc =>
    let village_coords := (vecAt problem.villages (drop.village_id - 1)).coords
    routeLegs fl ext problem rest village_coords (fl (acc + ext.distance loc village_coords))

/-- The round-trip distance as lines 237-243, 263-270 and 380-387 add it up in `double`
arithmetic: the leg back to `home` is added last, on its own. -/
def tripDistance (fl : ℚ → ℚ) (ext : Extern) (problem : ProblemData) (home : Point)
    (drops : List Drop) : ℚ :=
  let r := routeLegs fl ext problem drops home 0
  fl (r.1 + ext.distance r.2 home)

/-- The weight of a trip (line 393) in `double` arithmetic. -/
def tripWeight (fl : ℚ → ℚ) (problem : ProblemData) (trip : Trip) : ℚ :=
  fl (fl (fl ((trip.dry_food_pickup : ℚ) * (vecAt problem.packages DRY).weight)
      + fl ((trip.perishable_food_pickup : ℚ) * (vecAt problem.packages PER).weight))
    + fl ((trip.other_supplies_pickup : ℚ) * (vecAt problem.packages OTH).weight))

/-- The cost of a trip of distance `trip_distance` (lines 132 and 272) in `double`
arithmetic. -/
def tripCost (fl : ℚ → ℚ) (helicopter : Helicopter) (trip_distance : ℚ) : ℚ :=
  fl (helicopter.fixed_cost + fl (helicopter.alpha * trip_distance))

end Machine

namespace Machine

/-- The body of the loop over the drops of a trip (lines 274-292) in machine arithmetic:
the `int` sum `dry_food + perishable_food` wraps, every `double` operation is rounded. -/
def evalDrop (fl : ℚ → ℚ) (problem : ProblemData) (st : EvalState) (drop : Drop) :
    EvalState :=
  let village := vecAt problem.villages (drop.village_id - 1)
  let max_food_needed : ℚ := fl ((village.population : ℚ) * 9)
  let food_room_left := max 0 (fl (max_food_needed - vecAt st.food_delivered village.id))
  let food_in_this_drop : ℚ := ((wrap32 (drop.dry_food + drop.perishable_food) : Int) : ℚ)
  let effective_food := min food_in_this_drop food_room_left
  let effective_vp := min (drop.perishable_food : ℚ) effective_food
  let tval1 := fl (st.tval_gained + fl (effective_vp * (vecAt problem.packages PER).value))
  let effective_vd := min (drop.dry_food : ℚ) (fl (effective_food - effective_vp))
  let tval2 := fl (tval1 + fl (effective_vd * (vecAt problem.packages DRY).value))
  let food_delivered := vecSet st.food_delivered village.id
    (fl (vecAt st.food_delivered village.id + food_in_this_drop))
  let max_other_needed : ℚ := fl ((village.population : ℚ) * 1)
  let other_room_left := max 0 (fl (max_other_needed - vecAt st.other_delivered village.id))
  let effective_vo := min (drop.other_supplies : ℚ) other_room_left
  let tval3 := fl (tval2 + fl (effective_vo * (vecAt problem.packages OTH).value))
  let other_delivered := vecSet st.other_delivered village.id
    (fl (vecAt st.other_delivered village.id + (drop.other_supplies : ℚ)))
  { tval_gained := tval3, ttrip_cost := st.ttrip_cost, food_delivered := food_delivered,
    other_delivered := other_delivered }

/-- The body of the loop over the trips of a plan (lines 260-293) in machine arithmetic. -/
def evalTrip (fl : ℚ → ℚ) (ext : Extern) (problem : ProblemData) (helicopter : Helicopter)
    (home_city_coords : Point) (st : EvalState) (trip : Trip) : EvalState :=
  if trip.drops.isEmpty then st
  else
    let trip_distance := tripDistance fl ext problem home_city_coords trip.drops
    trip.drops.foldl (evalDrop fl problem)
      { st with ttrip_cost := fl (st.ttrip_cost + tripCost fl helicopter trip_distance) }

/-- The body of the loop over the plans of the candidate (lines 256-294) in machine
arithmetic. -/
def evalPlan (fl : ℚ → ℚ) (ext : Extern) (problem : ProblemData) (st : EvalState)
    (helicopter_plan : HelicopterPlan) : EvalState :=
  let helicopter := vecAt problem.helicopters (helicopter_plan.helicopter_id - 1)
  let home_city_coords := vecAt problem.cities (helicopter.home_city_id - 1)
  helicopter_plan.trips.foldl (evalTrip fl ext problem helicopter home_city_coords) st

/-- The evaluator (lines 251-295) in machine arithmetic: `final_value` of a candidate. -/
def evaluate (fl : ℚ → ℚ) (ext : Extern) (problem : ProblemData)
    (current_solution : Solution) : ℚ :=
  let st := current_solution.foldl (evalPlan fl ext problem) (evalInit problem)
  fl (st.tval_gained - st.ttrip_cost)

end Machine

/-- The number `d` is the `double` nearest to the square root of `n`: it is a `double`, not
negative, and `n` lies between the squares of `d` less and plus half a unit in the last
place. -/
def NearestDouble (d n : ℚ) : Prop :=
  fl64 d = d ∧ 0 ≤ d ∧ (d - pow2 (binade d - 53)) ^ 2 < n ∧ n < (d + pow2 (binade d - 53)) ^ 2

/-! ## Example instances with numbers that are not whole -/

/-- Two villages far from the city, at `(1590000, 7124000)` and `(6908000, 8902000)`. -/
def farVillages : List Village :=
  [⟨1, 10, ⟨1590000, 7124000⟩⟩, ⟨2, 10, ⟨6908000, 8902000⟩⟩]

/-- Modelled from the spec: the Euclidean distance `distance` of `solver.h` between the city
`(0, 0)` and the two far villages, in `double` arithmetic: the `double` nearest to the square
root of the squared distance, which is an integer (`far_distances_are_euclidean`). -/
def farDistance (a b : Point) : ℚ :=
  let n := (a.x - b.x) ^ 2 + (a.y - b.y) ^ 2
  if n = 53279476000000 then 7837541300343137 / 1073741824
  else if n = 31442408000000 then 3010424734976045 / 536870912
  else if n = 126966068000000 then 6049419603411869 / 536870912
  else 0

end Solver

namespace Solver

/-- Closed form of `calculateVillageValue` on non-negative arguments. -/
theorem calculateVillageValue_closed (village : Village) (dry per oth : Int)
    (packages : List PackageInfo) (hP : 0 ≤ village.population) (hd : 0 ≤ dry)
    (hp : 0 ≤ per) :
    calculateVillageValue village dry per oth packages
      = ((min per (9 * village.population) : Int) : ℚ) * (vecAt packages PER).value
        + ((min dry (9 * village.population - min per (9 * village.population)) : Int) : ℚ)
            * (vecAt packages DRY).value
        + ((min oth village.population : Int) : ℚ) * (vecAt packages OTH).value := by
  unfold calculateVillageValue
  simp only []
  have h1 : min per (min (dry + per) (9 * village.population))
      = min per (9 * village.population) := by omega
  have h2 : min dry (min (dry + per) (9 * village.population)
      - min per (9 * village.population))
      = min dry (9 * village.population - min per (9 * village.population)) := by omega
  split_ifs with h
  · rw [h1, h2]; ring
  · have h3 : min per (9 * village.population) = 0 := by omega
    have h4 : min dry (9 * village.population - min per (9 * village.population)) = 0 := by
      omega
    rw [h4, h3]; simp

/-! ## Truncation -/

theorem toInt_eq_floor (q : ℚ) (h : 0 ≤ q) : toInt q = ⌊q⌋ := by
  unfold toInt
  rw [Rat.floor_def, Int.tdiv_eq_ediv (Rat.num_nonneg.mpr h) (by exact_mod_cast Nat.zero_le _)]

theorem toInt_intCast (n : Int) : toInt (n : ℚ) = n := by
  unfold toInt; simp

/-! ## The mix of a candidate stays within the remaining demand -/

theorem vecSet_length {α : Type} (v : List α) (i : Int) (a : α) :
    (vecSet v i a).length = v.length := by
  unfold vecSet; split_ifs <;> simp

theorem vecAt_vecSet_self {α : Type} [Inhabited α] (v : List α) (i : Int) (a : α)
    (h0 : 0 ≤ i) (h1 : i < v.length) : vecAt (vecSet v i a) i = a := by
  unfold vecAt vecSet
  have : i.toNat < v.length := by omega
  simp [h0, List.getD_eq_getElem?_getD, List.getElem?_set, this]

theorem vecAt_vecSet_ne {α : Type} [Inhabited α] (v : List α) (i j : Int) (a : α)
    (h : i ≠ j) : vecAt (vecSet v i a) j = vecAt v j := by
  unfold vecAt vecSet
  by_cases hj : 0 ≤ j
  · by_cases hi : 0 ≤ i
    · have : i.toNat ≠ j.toNat := by omega
      simp [hi, hj, List.getD_eq_getElem?_getD, List.getElem?_set, this]
    · simp [hi, hj]
  · simp [hj]

/-- The six checks of `keepTrip`, as propositions. -/
theorem keepTrip_iff (ext : Extern) (problem : ProblemData) (helicopter : Helicopter)
    (home : Point) (used : ℚ) (trip : Trip) :
    keepTrip ext problem helicopter home used trip = true ↔
      trip.drops ≠ [] ∧ pickupMismatch trip = false ∧ has_negative_drops trip = false
      ∧ tripDistance ext problem home trip.drops ≤ helicopter.distance_capacity + eps9
      ∧ used + tripDistance ext problem home trip.drops ≤ problem.d_max + eps9
      ∧ tripWeight problem trip ≤ helicopter.weight_capacity + eps9 := by
  unfold keepTrip
  by_cases hd : trip.drops = []
  · simp [hd]
  · have he : trip.drops.isEmpty = false := by
      cases h : trip.drops with
      | nil => exact absurd h hd
      | cons _ _ => rfl
    rw [he]
    cases pickupMismatch trip <;> cases has_negative_drops trip <;>
      simp only [Bool.false_eq_true, if_false, if_true, true_and, false_and, gt_iff_lt,
        reduceCtorEq, ne_eq, hd, not_false_eq_true, and_false]
    split_ifs with h1 h2 h3
    · simp only [Bool.false_eq_true, false_iff, not_and, not_le]
      intro h; exact absurd h1 (not_lt.mpr h)
    · simp only [Bool.false_eq_true, false_iff, not_and, not_le]
      intro _ h; exact absurd h2 (not_lt.mpr h)
    · simp only [Bool.false_eq_true, false_iff, not_and, not_le]
      intro _ _; exact h3
    · simp only [true_iff]
      exact ⟨not_lt.mp h1, not_lt.mp h2, not_lt.mp h3⟩

theorem pickupMismatch_false_iff (trip : Trip) :
    pickupMismatch trip = false ↔
      trip.dry_food_pickup = total_dry_dropped trip
      ∧ trip.perishable_food_pickup = total_peri_dropped trip
      ∧ trip.other_supplies_pickup = total_other_dropped trip
      ∧ 0 ≤ trip.dry_food_pickup ∧ 0 ≤ trip.perishable_food_pickup
      ∧ 0 ≤ trip.other_supplies_pickup := by
  unfold pickupMismatch
  simp only [Bool.or_eq_false_iff, decide_eq_false_iff_not, not_not, not_lt, ne_eq]
  tauto

theorem has_negative_drops_false_iff (trip : Trip) :
    has_negative_drops trip = false ↔
      ∀ drop ∈ trip.drops,
        0 ≤ drop.dry_food ∧ 0 ≤ drop.perishable_food ∧ 0 ≤ drop.other_supplies := by
  unfold has_negative_drops
  rw [List.any_eq_false]
  simp only [Bool.or_eq_true, decide_eq_true_eq, not_or, not_lt, and_assoc]

theorem validateTrips_sublist (ext : Extern) (problem : ProblemData) (helicopter : Helicopter)
    (home : Point) (trips : List Trip) (used : ℚ) :
    List.Sublist (validateTrips ext problem helicopter home trips used) trips := by
  induction trips generalizing used with
  | nil => exact List.Sublist.slnil
  | cons trip rest ih =>
    unfold validateTrips
    split_ifs
    · exact (ih _).cons₂ trip
    · exact (ih _).cons trip

/-- Every trip kept by `validateTrips` passed `keepTrip` at some running total. -/
theorem validateTrips_mem (ext : Extern) (problem : ProblemData) (helicopter : Helicopter)
    (home : Point) (trips : List Trip) (used : ℚ) (trip : Trip)
    (h : trip ∈ validateTrips ext problem helicopter home trips used) :
    ∃ u, keepTrip ext problem helicopter home u trip = true := by
  induction trips generalizing used with
  | nil => simp [validateTrips] at h
  | cons t rest ih =>
    unfold validateTrips at h
    split_ifs at h with hk
    · rcases List.mem_cons.mp h with rfl | h'
      · exact ⟨used, hk⟩
      · exact ih _ h'
    · exact ih _ h

theorem validateTrips_idem (ext : Extern) (problem : ProblemData) (helicopter : Helicopter)
    (home : Point) (trips : List Trip) (used : ℚ) :
    validateTrips ext problem helicopter home
        (validateTrips ext problem helicopter home trips used) used
      = validateTrips ext problem helicopter home trips used := by
  induction trips generalizing used with
  | nil => rfl
  | cons t rest ih =>
    rw [validateTrips]
    split_ifs with hk
    · rw [validateTrips, if_pos hk, ih]
    · exact ih _

theorem validate_idem (ext : Extern) (problem : ProblemData) (s : Solution) :
    validate ext problem (validate ext problem s) = validate ext problem s := by
  induction s with
  | nil => rfl
  | cons plan rest ih =>
    rw [validate]
    split_ifs with he
    · exact ih
    · rw [validate]
      simp only [validateTrips_idem, he, if_false, ih, Bool.false_eq_true]

theorem validateTrips_of_feasible (ext : Extern) (problem : ProblemData)
    (helicopter : Helicopter) (home : Point) (trips : List Trip) (used : ℚ)
    (hf : ∀ trip ∈ trips, FeasibleTrip ext problem helicopter home trip)
    (hc : ∀ n : Nat, 0 < n → n ≤ trips.length →
      used + ((trips.take n).map fun t => tripDistance ext problem home t.drops).sum
        ≤ problem.d_max + eps9) :
    validateTrips ext problem helicopter home trips used = trips := by
  induction trips generalizing used with
  | nil => rfl
  | cons t rest ih =>
    have ht := hf t (List.mem_cons_self _ _)
    have hk : keepTrip ext problem helicopter home used t = true := by
      rw [keepTrip_iff]
      refine ⟨ht.1, ?_, ?_, ht.2.2.2.2.2.2.2.2.1, ?_, ht.2.2.2.2.2.2.2.2.2⟩
      · rw [pickupMismatch_false_iff]
        exact ⟨ht.2.1, ht.2.2.1, ht.2.2.2.1, ht.2.2.2.2.1, ht.2.2.2.2.2.1, ht.2.2.2.2.2.2.1⟩
      · rw [has_negative_drops_false_iff]
        exact ht.2.2.2.2.2.2.2.1
      · have := hc 1 (by omega) (by simp)
        simpa using this
    rw [validateTrips, if_pos hk, ih]
    · intro trip hm
      exact hf trip (List.mem_cons_of_mem _ hm)
    · intro n hn hl
      have := hc (n + 1) (by omega) (by simpa using hl)
      simp only [List.take_succ_cons, List.map_cons, List.sum_cons] at this
      linarith

theorem validate_of_feasible (ext : Extern) (problem : ProblemData) (s : Solution)
    (h : Feasible ext problem s) : validate ext problem s = s := by
  induction s with
  | nil => rfl
  | cons plan rest ih =>
    have hp := h plan (List.mem_cons_self _ _)
    have ht := validateTrips_of_feasible ext problem _ _ plan.trips 0 hp.2.1
      (fun n hn hl => by simpa using hp.2.2 n hn hl)
    rw [validate]
    simp only [ht]
    have he : plan.trips.isEmpty = false := by
      cases hh : plan.trips with
      | nil => exact absurd hh hp.1
      | cons _ _ => rfl
    rw [he]
    simp only [Bool.false_eq_true, if_false]
    rw [ih (fun q hq => h q (List.mem_cons_of_mem _ hq))]

/-- Every plan of the validated solution comes from an input plan with the same helicopter id,
holds exactly the trips that `validateTrips` kept for it, and holds at least one. -/
theorem validate_mem (ext : Extern) (problem : ProblemData) (s : Solution)
    (plan : HelicopterPlan) (h : plan ∈ validate ext problem s) :
    ∃ inp ∈ s, plan.helicopter_id = inp.helicopter_id
      ∧ plan.trips = validateTrips ext problem
          (vecAt problem.helicopters (plan.helicopter_id - 1))
          (vecAt problem.cities
            ((vecAt problem.helicopters (plan.helicopter_id - 1)).home_city_id - 1))
          inp.trips 0
      ∧ plan.trips ≠ [] := by
  induction s with
  | nil => simp [validate] at h
  | cons p rest ih =>
    rw [validate] at h
    split_ifs at h with he
    · obtain ⟨inp, hi, hr⟩ := ih h
      exact ⟨inp, List.mem_cons_of_mem _ hi, hr⟩
    · rcases List.mem_cons.mp h with rfl | h'
      · refine ⟨p, List.mem_cons_self _ _, rfl, rfl, ?_⟩
        intro hn
        simp only [] at hn
        rw [hn] at he
        exact he rfl
      · obtain ⟨inp, hi, hr⟩ := ih h'
        exact ⟨inp, List.mem_cons_of_mem _ hi, hr⟩

/-- The shape of every trip of a validated solution. -/
theorem validate_shape (ext : Extern) (problem : ProblemData) (s : Solution)
    (plan : HelicopterPlan) (h : plan ∈ validate ext problem s) :
    plan.trips ≠ [] ∧ ∀ trip ∈ plan.trips,
      trip.drops ≠ []
      ∧ trip.dry_food_pickup = (trip.drops.map Drop.dry_food).sum
      ∧ trip.perishable_food_pickup = (trip.drops.map Drop.perishable_food).sum
      ∧ trip.other_supplies_pickup = (trip.drops.map Drop.other_supplies).sum
      ∧ 0 ≤ trip.dry_food_pickup ∧ 0 ≤ trip.perishable_food_pickup
      ∧ 0 ≤ trip.other_supplies_pickup
      ∧ ∀ drop ∈ trip.drops,
          0 ≤ drop.dry_food ∧ 0 ≤ drop.perishable_food ∧ 0 ≤ drop.other_supplies := by
  obtain ⟨inp, _, _, ht, hne⟩ := validate_mem ext problem s plan h
  refine ⟨hne, ?_⟩
  intro trip hm
  rw [ht] at hm
  obtain ⟨u, hk⟩ := validateTrips_mem ext problem _ _ _ _ trip hm
  have hk' := (keepTrip_iff ext problem _ _ u trip).mp hk
  have hp := (pickupMismatch_false_iff trip).mp hk'.2.1
  have hn := (has_negative_drops_false_iff trip).mp hk'.2.2.1
  exact ⟨hk'.1, hp.1, hp.2.1, hp.2.2.1, hp.2.2.2.1, hp.2.2.2.2.1, hp.2.2.2.2.2, hn⟩

/-! ## Clock and fuel -/

theorem firstStopScan_clock (ext : Extern) (problem : ProblemData) (helicopter : Helicopter)
    (home : Point) (dr pr budget : ℚ) (remF remO : List Int) (l : List Nat) (clock : Nat)
    (best : FirstStop) :
    (firstStopScan ext problem helicopter home dr pr budget remF remO l clock best).2 ≤ clock
    ∧ ((firstStopScan ext problem helicopter home dr pr budget remF remO l clock best).1 = best
      ∨ (firstStopScan ext problem helicopter home dr pr budget remF remO l clock best).2
          < clock) := by
  induction l generalizing clock best with
  | nil => exact ⟨le_refl _, Or.inl rfl⟩
  | cons i rest ih =>
    cases clock with
    | zero => exact ⟨le_refl _, Or.inl rfl⟩
    | succ c =>
      rw [firstStopScan]
      split
      · exact ⟨Nat.le_succ_of_le (ih c best).1, Or.inr (Nat.lt_succ_of_le (ih c best).1)⟩
      · exact ⟨Nat.le_succ_of_le (ih c _).1, Or.inr (Nat.lt_succ_of_le (ih c _).1)⟩

theorem nextStopScan_clock (ext : Extern) (problem : ProblemData) (helicopter : Helicopter)
    (home : Point) (dr pr budget : ℚ) (remF remO : List Int) (trip : TripState)
    (l : List Nat) (clock : Nat) (best : NextStop) :
    (nextStopScan ext problem helicopter home dr pr budget remF remO trip l clock best).2
        ≤ clock
    ∧ ((nextStopScan ext problem helicopter home dr pr budget remF remO trip l clock best).1
          = best
      ∨ (nextStopScan ext problem helicopter home dr pr budget remF remO trip l clock best).2
          < clock) := by
  induction l generalizing clock best with
  | nil => exact ⟨le_refl _, Or.inl rfl⟩
  | cons i rest ih =>
    cases clock with
    | zero => exact ⟨le_refl _, Or.inl rfl⟩
    | succ c =>
      rw [nextStopScan]
      split
      · exact ⟨Nat.le_succ_of_le (ih c best).1, Or.inr (Nat.lt_succ_of_le (ih c best).1)⟩
      · exact ⟨Nat.le_succ_of_le (ih c _).1, Or.inr (Nat.lt_succ_of_le (ih c _).1)⟩

theorem firstStopScan_zero (ext : Extern) (problem : ProblemData) (helicopter : Helicopter)
    (home : Point) (dr pr budget : ℚ) (remF remO : List Int) (l : List Nat)
    (best : FirstStop) :
    firstStopScan ext problem helicopter home dr pr budget remF remO l 0 best = (best, 0) := by
  cases l <;> rfl

theorem nextStopScan_zero (ext : Extern) (problem : ProblemData) (helicopter : Helicopter)
    (home : Point) (dr pr budget : ℚ) (remF remO : List Int) (trip : TripState)
    (l : List Nat) (best : NextStop) :
    nextStopScan ext problem helicopter home dr pr budget remF remO trip l 0 best
      = (best, 0) := by
  cases l <;> rfl

theorem extendTrip_zero (ext : Extern) (problem : ProblemData) (helicopter : Helicopter)
    (home : Point) (dr pr budget : ℚ) (remF remO : List Int) (fuel : Nat)
    (trip : TripState) :
    extendTrip ext problem helicopter home dr pr budget remF remO fuel 0 trip = (trip, 0) := by
  cases fuel with
  | zero => rfl
  | succ f =>
    rw [extendTrip, nextStopScan_zero]
    simp [nextStopInit]

theorem extendTrip_clock (ext : Extern) (problem : ProblemData) (helicopter : Helicopter)
    (home : Point) (dr pr budget : ℚ) (remF remO : List Int) (fuel clock : Nat)
    (trip : TripState) :
    (extendTrip ext problem helicopter home dr pr budget remF remO fuel clock trip).2
      ≤ clock := by
  induction fuel generalizing clock trip with
  | zero => exact le_refl _
  | succ fuel ih =>
    rw [extendTrip]
    have hs := (nextStopScan_clock ext problem helicopter home dr pr budget remF remO trip
      (List.range problem.villages.length) clock nextStopInit).1
    split_ifs
    · exact le_trans (ih _ _) hs
    · exact hs

/-- The extension loop does not depend on its fuel once the fuel is at least the clock. -/
theorem extendTrip_fuel (ext : Extern) (problem : ProblemData) (helicopter : Helicopter)
    (home : Point) (dr pr budget : ℚ) (remF remO : List Int) (fuel fuel' clock : Nat)
    (trip : TripState) (h : clock ≤ fuel) (h' : clock ≤ fuel') :
    extendTrip ext problem helicopter home dr pr budget remF remO fuel clock trip
      = extendTrip ext problem helicopter home dr pr budget remF remO fuel' clock trip := by
  induction fuel generalizing fuel' clock trip with
  | zero =>
    have hc : clock = 0 := by omega
    subst hc
    rw [extendTrip_zero, extendTrip_zero]
  | succ fuel ih =>
    cases fuel' with
    | zero =>
      have hc : clock = 0 := by omega
      subst hc
      rw [extendTrip_zero, extendTrip_zero]
    | succ f =>
      rw [extendTrip, extendTrip]
      have hs := nextStopScan_clock ext problem helicopter home dr pr budget remF remO trip
        (List.range problem.villages.length) clock nextStopInit
      split_ifs with hb
      · rcases hs.2 with he | hlt
        · rw [he] at hb
          exact absurd rfl hb
        · exact ih _ _ _ (by omega) (by omega)
      · rfl

theorem buildTrips_zero (ext : Extern) (problem : ProblemData) (helicopter : Helicopter)
    (home : Point) (dr pr : ℚ) (fuel : Nat) (st : PlanState) (h : st.clock = 0) :
    buildTrips ext problem helicopter home dr pr fuel st = st := by
  cases fuel with
  | zero => rfl
  | succ f =>
    rw [buildTrips]
    split_ifs with hb
    · simp only [h, firstStopScan_zero, firstStopInit, if_true]
      cases st
      simp only at h
      rw [h]
    · rfl

theorem buildTrips_clock (ext : Extern) (problem : ProblemData) (helicopter : Helicopter)
    (home : Point) (dr pr : ℚ) (fuel : Nat) (st : PlanState) :
    (buildTrips ext problem helicopter home dr pr fuel st).clock ≤ st.clock := by
  induction fuel generalizing st with
  | zero => exact le_refl _
  | succ fuel ih =>
    rw [buildTrips]
    have hs := (firstStopScan_clock ext problem helicopter home dr pr st.current_dist_budget
      st.demand.rem_food_demand st.demand.rem_other_demand
      (List.range problem.villages.length) st.clock firstStopInit).1
    simp only []
    split_ifs
    · exact hs
    · refine le_trans (ih _) ?_
      exact le_trans (extendTrip_clock ext problem helicopter home dr pr _ _ _ _ _ _) hs
    · exact le_refl _

/-- The trip loop does not depend on its fuel once the fuel is at least the clock. -/
theorem buildTrips_fuel (ext : Extern) (problem : ProblemData) (helicopter : Helicopter)
    (home : Point) (dr pr : ℚ) (fuel fuel' : Nat) (st : PlanState)
    (h : st.clock ≤ fuel) (h' : st.clock ≤ fuel') :
    buildTrips ext problem helicopter home dr pr fuel st
      = buildTrips ext problem helicopter home dr pr fuel' st := by
  induction fuel generalizing fuel' st with
  | zero =>
    rw [buildTrips_zero _ _ _ _ _ _ _ _ (by omega), buildTrips_zero _ _ _ _ _ _ _ _ (by omega)]
  | succ fuel ih =>
    cases fuel' with
    | zero =>
      rw [buildTrips_zero _ _ _ _ _ _ _ _ (by omega),
        buildTrips_zero _ _ _ _ _ _ _ _ (by omega)]
    | succ f =>
      rw [buildTrips, buildTrips]
      have hs := firstStopScan_clock ext problem helicopter home dr pr st.current_dist_budget
        st.demand.rem_food_demand st.demand.rem_other_demand
        (List.range problem.villages.length) st.clock firstStopInit
      simp only []
      split_ifs with hb hi
      · rfl
      · rcases hs.2 with he | hlt
        · rw [he] at hi
          exact absurd rfl hi
        · have he := extendTrip_clock ext problem helicopter home dr pr st.current_dist_budget
            st.demand.rem_food_demand st.demand.rem_other_demand
            ((firstStopScan ext problem helicopter home dr pr st.current_dist_budget
              st.demand.rem_food_demand st.demand.rem_other_demand
              (List.range problem.villages.length) st.clock firstStopInit).2 + 1)
            (firstStopScan ext problem helicopter home dr pr st.current_dist_budget
              st.demand.rem_food_demand st.demand.rem_other_demand
              (List.range problem.villages.length) st.clock firstStopInit).2
          exact ih _ _ (le_trans (he _) (by omega)) (le_trans (he _) (by omega))
      · rfl

theorem buildPlans_clock (ext : Extern) (problem : ProblemData) (dr pr : ℚ)
    (hs : List Helicopter) (st : PassState) :
    (buildPlans ext problem dr pr hs st).clock ≤ st.clock := by
  induction hs generalizing st with
  | nil => exact le_refl _
  | cons helicopter rest ih =>
    rw [buildPlans]
    split
    · exact le_refl _
    · rename_i clock hc
      refine le_trans (ih _) ?_
      have := buildTrips_clock ext problem helicopter
        (vecAt problem.cities (helicopter.home_city_id - 1)) dr pr (clock + 1)
        { current_dist_budget := problem.d_max, demand := st.demand, trips := [],
          clock := clock }
      simp only [] at this ⊢
      omega

theorem constructCandidate_clock (ext : Extern) (problem : ProblemData) (dr pr : ℚ)
    (clock : Nat) : (constructCandidate ext problem dr pr clock).clock ≤ clock :=
  buildPlans_clock ext problem dr pr _ _

theorem updateBest_clock (rs : RestartState) (g : SearchState) (s : Solution) (v : ℚ) :
    (updateBest rs g s v).2.clock = g.clock := by
  unfold updateBest
  simp only []
  split_ifs <;> rfl

theorem iterate_zero (ext : Extern) (problem : ProblemData) (fuel : Nat) (rs : RestartState)
    (g : SearchState) (h : g.clock = 0) : iterate ext problem fuel rs g = g := by
  cases fuel with
  | zero => rfl
  | succ f => rw [iterate]; split <;> first | rfl | omega

/-- The loop of a restart does not depend on its fuel once the fuel is at least the clock. -/
theorem iterate_fuel (ext : Extern) (problem : ProblemData) (fuel fuel' : Nat)
    (rs : RestartState) (g : SearchState) (h : g.clock ≤ fuel) (h' : g.clock ≤ fuel') :
    iterate ext problem fuel rs g = iterate ext problem fuel' rs g := by
  induction fuel generalizing fuel' rs g with
  | zero => rw [iterate_zero _ _ _ _ _ (by omega), iterate_zero _ _ _ _ _ (by omega)]
  | succ fuel ih =>
    cases fuel' with
    | zero => rw [iterate_zero _ _ _ _ _ (by omega), iterate_zero _ _ _ _ _ (by omega)]
    | succ f =>
      rw [iterate, iterate]
      split
      · rfl
      · rename_i clock hc
        simp only []
        split_ifs with hstop
        · rfl
        · apply ih
          · simp only [updateBest_clock]
            have := constructCandidate_clock ext problem rs.dry_ratio rs.perishable_ratio clock
            omega
          · simp only [updateBest_clock]
            have := constructCandidate_clock ext problem rs.dry_ratio rs.perishable_ratio clock
            omega

theorem clampStep_ratioOK (rs : RestartState) : RatioOK (clampStep rs) := by
  unfold RatioOK clampStep
  refine ⟨le_max_left _ _, max_le (by norm_num) (min_le_left _ _), rfl⟩

theorem initRestart_ratioOK (r : ℚ) (h0 : 0 ≤ r) (h1 : r ≤ 1) : RatioOK (initRestart r) :=
  ⟨h0, h1, rfl⟩

theorem updateBest_inv (ext : Extern) (problem : ProblemData) (rs : RestartState)
    (g : SearchState) (c : Nat) (e : PassRecord) (he : RecordOK ext problem e)
    (hg : SearchInv ext problem g) :
    SearchInv ext problem
      (updateBest rs { g with clock := c, scored := g.scored ++ [e] }
        e.candidate e.final_value).2 := by
  obtain ⟨hrec, hbest⟩ := hg
  have hrec' : ∀ r ∈ g.scored ++ [e], RecordOK ext problem r := by
    intro r hr
    rcases List.mem_append.mp hr with h | h
    · exact hrec r h
    · rw [List.mem_singleton] at h
      subst h
      exact he
  have hup : e.final_value > g.best_value → ∀ q ∈ g.scored, q.final_value < e.final_value := by
    intro h1 q hq
    rcases hbest with ⟨_, hv, hall⟩ | ⟨l1, r, l2, hs, _, hv, hl1, hl2⟩
    · have := hall q hq
      rw [hv] at h1
      exact lt_of_le_of_lt this h1
    · rw [hv] at h1
      rw [hs] at hq
      rcases List.mem_append.mp hq with h | h
      · exact lt_trans (hl1 q h) h1
      · rcases List.mem_cons.mp h with rfl | h
        · exact h1
        · exact lt_of_le_of_lt (hl2 q h) h1
  unfold updateBest
  simp only []
  split_ifs with h1 h2
  · exact ⟨hrec', Or.inr ⟨g.scored, e, [], rfl, rfl, rfl, hup h1, by simp⟩⟩
  · exact ⟨hrec', Or.inr ⟨g.scored, e, [], rfl, rfl, rfl, hup h1, by simp⟩⟩
  · refine ⟨hrec', ?_⟩
    rcases hbest with ⟨hb, hv, hall⟩ | ⟨l1, r, l2, hs, hb, hv, hl1, hl2⟩
    · refine Or.inl ⟨hb, hv, ?_⟩
      intro q hq
      rcases List.mem_append.mp hq with h | h
      · exact hall q h
      · rw [List.mem_singleton] at h
        subst h
        rw [hv] at h1
        exact not_lt.mp h1
    · refine Or.inr ⟨l1, r, l2 ++ [e], ?_, hb, hv, hl1, ?_⟩
      · simp only [hs, List.append_assoc, List.cons_append]
      · intro q hq
        rcases List.mem_append.mp hq with h | h
        · exact hl2 q h
        · rw [List.mem_singleton] at h
          subst h
          rw [hv] at h1
          exact not_lt.mp h1

theorem iterate_inv (ext : Extern) (problem : ProblemData) (fuel : Nat) (rs : RestartState)
    (g : SearchState) (hrs : RatioOK rs) (hg : SearchInv ext problem g) :
    SearchInv ext problem (iterate ext problem fuel rs g) := by
  induction fuel generalizing rs g with
  | zero => exact hg
  | succ fuel ih =>
    rw [iterate]
    split
    · exact hg
    · rename_i clock hc
      simp only []
      have hu := updateBest_inv ext problem rs g
        (constructCandidate ext problem rs.dry_ratio rs.perishable_ratio clock).clock
        { at_start := rs,
          candidate := (constructCandidate ext problem rs.dry_ratio
            rs.perishable_ratio clock).current_solution,
          final_value := evaluate ext problem (constructCandidate ext problem rs.dry_ratio
            rs.perishable_ratio clock).current_solution }
        ⟨hrs, ⟨clock, rfl⟩, rfl⟩ hg
      split_ifs with hstop
      · exact hu
      · exact ih _ _ (clampStep_ratioOK _) hu

theorem restarts_inv (ext : Extern) (problem : ProblemData) (ratios : List ℚ)
    (g : SearchState) (hr : ∀ r ∈ ratios, 0 ≤ r ∧ r ≤ 1) (hg : SearchInv ext problem g) :
    SearchInv ext problem (restarts ext problem ratios g) := by
  induction ratios generalizing g with
  | nil => exact hg
  | cons r rest ih =>
    rw [restarts]
    split
    · exact hg
    · rename_i clock hc
      have h01 := hr r (List.mem_cons_self _ _)
      exact ih _ (fun q hq => hr q (List.mem_cons_of_mem _ hq))
        (iterate_inv ext problem _ _ _ (initRestart_ratioOK r h01.1 h01.2) hg)

theorem starting_ratios_range : ∀ r ∈ starting_ratios, (0 : ℚ) ≤ r ∧ r ≤ 1 := by
  intro r hr
  simp only [starting_ratios, List.mem_cons, List.mem_singleton, List.not_mem_nil,
    or_false] at hr
  rcases hr with rfl | rfl | rfl | rfl | rfl <;> norm_num

theorem search_inv (ext : Extern) (problem : ProblemData) (clock : Nat) :
    SearchInv ext problem (search ext problem clock) :=
  restarts_inv ext problem _ _ starting_ratios_range
    ⟨by simp [searchInit], Or.inl ⟨rfl, rfl, by simp [searchInit]⟩⟩

theorem foodUnits_append (D E : List Drop) (v : Int) :
    foodUnits (D ++ E) v = foodUnits D v + foodUnits E v := by
  unfold foodUnits
  rw [List.filter_append, List.map_append, List.sum_append]

theorem otherUnits_append (D E : List Drop) (v : Int) :
    otherUnits (D ++ E) v = otherUnits D v + otherUnits E v := by
  unfold otherUnits
  rw [List.filter_append, List.map_append, List.sum_append]

theorem foodUnits_singleton (d : Drop) (v : Int) :
    foodUnits [d] v = if d.village_id = v then d.dry_food + d.perishable_food else 0 := by
  unfold foodUnits
  by_cases h : d.village_id = v <;> simp [List.filter, h]

theorem otherUnits_singleton (d : Drop) (v : Int) :
    otherUnits [d] v = if d.village_id = v then d.other_supplies else 0 := by
  unfold otherUnits
  by_cases h : d.village_id = v <;> simp [List.filter, h]

theorem updateBest_scored (rs : RestartState) (g : SearchState) (s : Solution) (v : ℚ) :
    (updateBest rs g s v).2.scored = g.scored := by
  unfold updateBest
  simp only []
  split_ifs <;> rfl

theorem singleTrip_feasible (ext : Extern) (problem : ProblemData) (city : Point)
    (helicopter : Helicopter) (village : Village)
    (hs : SingleVillage ext problem city helicopter village) (d : Int) (hd0 : 0 ≤ d)
    (hd1 : d ≤ 90) : Feasible ext problem (singleTrip d) := by
  have h9 : (0 : ℚ) < eps9 := by norm_num [eps9]
  have hhel : vecAt problem.helicopters (1 - 1) = helicopter := by
    rw [hs.helicopters]; rfl
  have hhome : vecAt problem.cities (helicopter.home_city_id - 1) = city := by
    rw [hs.cities, hs.home]; rfl
  have hvil : vecAt problem.villages (1 - 1) = village := by
    rw [hs.villages]; rfl
  have hdist : tripDistance ext problem city
      [{ village_id := 1, dry_food := d, perishable_food := 90 - d, other_supplies := 10 }]
      = 2 * ext.distance city village.coords := by
    simp only [tripDistance, routeLegs, hvil, hs.symmetric]
    ring
  have hd0' : (0 : ℚ) ≤ (d : ℚ) := by exact_mod_cast hd0
  have hp0' : (0 : ℚ) ≤ ((90 - d : Int) : ℚ) := by exact_mod_cast (by omega : 0 ≤ 90 - d)
  intro plan hp
  simp only [singleTrip, List.mem_singleton] at hp
  subst hp
  refine ⟨by simp, ?_, ?_⟩
  · intro trip ht
    simp only [List.mem_singleton] at ht
    subst ht
    simp only [hhel, hhome]
    refine ⟨by simp, by simp [total_dry_dropped], by simp [total_peri_dropped],
      by simp [total_other_dropped], hd0, by simp only []; omega, by norm_num, ?_, ?_, ?_⟩
    · intro drop hdm
      simp only [List.mem_singleton] at hdm
      subst hdm
      exact ⟨hd0, by simp only []; omega, by norm_num⟩
    · rw [hdist]
      linarith [hs.reach]
    · unfold tripWeight
      simp only []
      have h1 := mul_le_mul_of_nonneg_left
        (le_max_left (vecAt problem.packages DRY).weight (vecAt problem.packages PER).weight)
        hd0'
      have h2 := mul_le_mul_of_nonneg_left
        (le_max_right (vecAt problem.packages DRY).weight (vecAt problem.packages PER).weight)
        hp0'
      have hsum : (d : ℚ) + ((90 - d : Int) : ℚ) = 90 := by push_cast; ring
      have h3 : (d : ℚ) * max (vecAt problem.packages DRY).weight
            (vecAt problem.packages PER).weight
          + ((90 - d : Int) : ℚ) * max (vecAt problem.packages DRY).weight
            (vecAt problem.packages PER).weight
          = 90 * max (vecAt problem.packages DRY).weight
            (vecAt problem.packages PER).weight := by
        rw [← add_mul, hsum]
      have := hs.capacity
      push_cast at h1 h2 h3 ⊢
      linarith
  · intro n hn hl
    simp only [List.length_singleton] at hl
    have : n = 1 := by omega
    subst this
    simp only [hhel, hhome, List.take_succ_cons, List.take_zero, List.map_cons, List.map_nil,
      List.sum_cons, List.sum_nil, add_zero, hdist]
    linarith [hs.budget]

theorem exampleProblem_single :
    SingleVillage exampleExtern exampleProblem exampleCity exampleHelicopter exampleVillage where
  cities := rfl
  helicopters := rfl
  villages := rfl
  helicopter_id := rfl
  home := rfl
  village_id := rfl
  population := rfl
  dry_weight := by decide!
  perishable_weight := by decide!
  other_weight := by decide!
  capacity := by decide!
  symmetric := by decide!
  reach := by decide!
  budget := by decide!
  dry_value := by decide!
  perishable_value := by decide!

/-- With 4 clock ticks, `solve` scores the first candidate only and returns its plan. -/
theorem solve_example : solve exampleExtern exampleProblem 4 = [examplePlan] := by
  decide!

/-! ## Claims C1 to C10 -/

/-- C2. In the solution that `solve` returns, every plan has at least one trip, every trip
has at least one drop, its three pickup totals equal the sums of the corresponding
quantities over its drops, and no pickup and no drop quantity is negative. -/
theorem solve_shape (ext : Extern) (problem : ProblemData) (clock : Nat) :
    ∀ plan ∈ solve ext problem clock,
      plan.trips ≠ [] ∧ ∀ trip ∈ plan.trips,
        trip.drops ≠ []
        ∧ trip.dry_food_pickup = (trip.drops.map Drop.dry_food).sum
        ∧ trip.perishable_food_pickup = (trip.drops.map Drop.perishable_food).sum
        ∧ trip.other_supplies_pickup = (trip.drops.map Drop.other_supplies).sum
        ∧ 0 ≤ trip.dry_food_pickup ∧ 0 ≤ trip.perishable_food_pickup
        ∧ 0 ≤ trip.other_supplies_pickup
        ∧ ∀ drop ∈ trip.drops,
            0 ≤ drop.dry_food ∧ 0 ≤ drop.perishable_food ∧ 0 ≤ drop.other_supplies :=
  fun plan hp => validate_shape ext problem _ plan hp

/-- Witness of C2: the plan that `solve` returns for the example problem after 4 clock
ticks. -/
theorem solve_shape_witness :
    examplePlan ∈ solve exampleExtern exampleProblem 4
    ∧ examplePlan.trips ≠ [] ∧ ∀ trip ∈ examplePlan.trips,
        trip.drops ≠ []
        ∧ trip.dry_food_pickup = (trip.drops.map Drop.dry_food).sum
        ∧ trip.perishable_food_pickup = (trip.drops.map Drop.perishable_food).sum
        ∧ trip.other_supplies_pickup = (trip.drops.map Drop.other_supplies).sum
        ∧ 0 ≤ trip.dry_food_pickup ∧ 0 ≤ trip.perishable_food_pickup
        ∧ 0 ≤ trip.other_supplies_pickup
        ∧ ∀ drop ∈ trip.drops,
            0 ≤ drop.dry_food ∧ 0 ≤ drop.perishable_food ∧ 0 ≤ drop.other_supplies :=
  ⟨by rw [solve_example]; exact List.mem_singleton.mpr rfl,
    solve_shape exampleExtern exampleProblem 4 examplePlan
      (by rw [solve_example]; exact List.mem_singleton.mpr rfl)⟩

/-- In exact arithmetic, for a village with population `P >= 0` and non-negative dry and perishable
quantities (and any other-supply quantity), `calculateVillageValue` returns
`countedPerishable x value[PER] + countedDry x value[DRY] + countedOther x value[OTH]` with
`countedPerishable = min(perishable, 9P)`, `countedDry = min(dry, 9P - countedPerishable)`
and `countedOther = min(other, P)`, which is the spec's `deliveryValue` with nothing already
counted. -/
theorem villageValue_closed_form (village : Village) (dry per oth : Int)
    (packages : List PackageInfo) (hP : 0 ≤ village.population) (hd : 0 ≤ dry)
    (hp : 0 ≤ per) :
    calculateVillageValue village dry per oth packages
      = ((min per (9 * village.population) : Int) : ℚ) * (vecAt packages PER).value
        + ((min dry (9 * village.population - min per (9 * village.population)) : Int) : ℚ)
            * (vecAt packages DRY).value
        + ((min oth village.population : Int) : ℚ) * (vecAt packages OTH).value
    ∧ calculateVillageValue village dry per oth packages
      = deliveryValue village dry per oth 0 0 packages := by
  have h := calculateVillageValue_closed village dry per oth packages hP hd hp
  refine ⟨h, ?_⟩
  rw [h]
  unfold deliveryValue
  simp only [sub_zero]
  rw [max_eq_right (by omega : (0 : Int) ≤ 9 * village.population), max_eq_right hP]

/-- In exact arithmetic, for population `>= 0`, non-negative unit values and non-negative
quantities, `calculateVillageValue` never decreases when the dry units or the other-supply
units increase, and never decreases when the perishable units increase provided
`value[PER] >= value[DRY]` or the food total stays within the cap `9 x population`. -/
theorem villageValue_mono_exact (village : Village) (packages : List PackageInfo)
    (dry per oth dry' per' oth' : Int)
    (hP : 0 ≤ village.population)
    (hvd : 0 ≤ (vecAt packages DRY).value) (hvp : 0 ≤ (vecAt packages PER).value)
    (hvo : 0 ≤ (vecAt packages OTH).value)
    (hd : 0 ≤ dry) (hp : 0 ≤ per) (hdd : dry ≤ dry') (hpp : per ≤ per')
    (hoo : oth ≤ oth') :
    calculateVillageValue village dry per oth packages
        ≤ calculateVillageValue village dry' per oth packages
    ∧ calculateVillageValue village dry per oth packages
        ≤ calculateVillageValue village dry per oth' packages
    ∧ ((vecAt packages DRY).value ≤ (vecAt packages PER).value
          ∨ dry + per' ≤ 9 * village.population →
        calculateVillageValue village dry per oth packages
          ≤ calculateVillageValue village dry per' oth packages) := by
  rw [calculateVillageValue_closed village dry per oth packages hP hd hp,
    calculateVillageValue_closed village dry' per oth packages hP (by omega) hp,
    calculateVillageValue_closed village dry per oth' packages hP hd hp,
    calculateVillageValue_closed village dry per' oth packages hP hd (by omega)]
  refine ⟨?_, ?_, ?_⟩
  · have h : ((min dry (9 * village.population - min per (9 * village.population)) : Int) : ℚ)
        ≤ ((min dry' (9 * village.population - min per (9 * village.population)) : Int) : ℚ) := by
      exact_mod_cast (by omega)
    nlinarith [mul_le_mul_of_nonneg_right h hvd]
  · have h : ((min oth village.population : Int) : ℚ)
        ≤ ((min oth' village.population : Int) : ℚ) := by
      exact_mod_cast (by omega)
    nlinarith [mul_le_mul_of_nonneg_right h hvo]
  · have h1 : ((min per (9 * village.population) : Int) : ℚ)
        ≤ ((min per' (9 * village.population) : Int) : ℚ) := by
      exact_mod_cast (by omega)
    rintro (hle | hcap)
    · have h2 : ((min dry (9 * village.population - min per (9 * village.population)) : Int) : ℚ)
            - (((min per' (9 * village.population) : Int) : ℚ)
                - ((min per (9 * village.population) : Int) : ℚ))
          ≤ ((min dry (9 * village.population - min per' (9 * village.population)) : Int) : ℚ) := by
        have : min dry (9 * village.population - min per (9 * village.population))
              - (min per' (9 * village.population) - min per (9 * village.population))
            ≤ min dry (9 * village.population - min per' (9 * village.population)) := by omega
        exact_mod_cast this
      have p1 := mul_nonneg (sub_nonneg.mpr h1) (sub_nonneg.mpr hle)
      have p2 := mul_nonneg (sub_nonneg.mpr h2) hvd
      linarith
    · have h2 : min dry (9 * village.population - min per (9 * village.population))
          = min dry (9 * village.population - min per' (9 * village.population)) := by omega
      rw [h2]
      have p1 := mul_le_mul_of_nonneg_right h1 hvp
      linarith

/-- C6. The validation pass is idempotent, `validate (validate s) = validate s` for every
problem and every solution, and it returns a feasible solution unchanged (feasible: every
plan has a trip; every trip has a drop, pickups equal to the sums over its drops, no negative
quantity, distance and weight within the capacities; cumulative distance within `d_max`). -/
theorem validate_idempotent (ext : Extern) (problem : ProblemData) (s : Solution) :
    validate ext problem (validate ext problem s) = validate ext problem s
    ∧ (Feasible ext problem s → validate ext problem s = s) :=
  ⟨validate_idem ext problem s, validate_of_feasible ext problem s⟩

/-- Witness of C6: the solution of the example problem that delivers 9 dry, 81 perishable
and 10 other units in one trip is feasible, and the validation pass returns it unchanged. -/
theorem validate_idempotent_witness :
    Feasible exampleExtern exampleProblem (singleTrip 9)
    ∧ validate exampleExtern exampleProblem (singleTrip 9) = singleTrip 9 :=
  ⟨singleTrip_feasible exampleExtern exampleProblem exampleCity exampleHelicopter
      exampleVillage exampleProblem_single 9 (by decide) (by decide),
    (validate_idempotent exampleExtern exampleProblem (singleTrip 9)).2
      (singleTrip_feasible exampleExtern exampleProblem exampleCity exampleHelicopter
        exampleVillage exampleProblem_single 9 (by decide) (by decide))⟩

/-- C7. The validation pass only removes: the plans it returns correspond, in order, to a
sublist of the input plans, each with the helicopter id of its input plan and with a sublist
of the trips of its input plan (so every kept trip is the input trip, with the same drops in
the same order and the same pickups). -/
theorem validate_only_removes (ext : Extern) (problem : ProblemData) (s : Solution) :
    ∃ kept : List HelicopterPlan, List.Sublist kept s
      ∧ List.Forall₂
          (fun out inp : HelicopterPlan =>
            out.helicopter_id = inp.helicopter_id ∧ List.Sublist out.trips inp.trips)
          (validate ext problem s) kept := by
  induction s with
  | nil => exact ⟨[], List.Sublist.slnil, List.Forall₂.nil⟩
  | cons p rest ih =>
    obtain ⟨kept, hs, hf⟩ := ih
    rw [validate]
    split_ifs with he
    · exact ⟨kept, hs.cons p, hf⟩
    · exact ⟨p :: kept, hs.cons₂ p,
        List.Forall₂.cons ⟨rfl, validateTrips_sublist ext problem _ _ _ _⟩ hf⟩

/-- C8. When the deadline has already expired at the first deadline test (no clock tick
left), `solve` scores no candidate and returns the empty solution, for every problem. -/
theorem solve_expired (ext : Extern) (problem : ProblemData) :
    (search ext problem 0).scored = [] ∧ solve ext problem 0 = [] :=
  ⟨rfl, rfl⟩

theorem adapt_eq_spec (ext : Extern) (rs : RestartState) (v : ℚ) (draws : Nat) :
    clampStep (adaptStep ext rs v draws).1 = specAdapt ext rs v (ext.dis draws) := by
  unfold adaptStep specAdapt clampStep cooling_rate
  by_cases hf : rs.first_iteration = true
  · simp only [hf, if_true]
  · have hf' : rs.first_iteration = false := by simpa using hf
    simp only [hf', Bool.false_eq_true, if_false]
    by_cases hw : v < rs.previous_value
    · simp only [hw, if_true]
      by_cases ha : ext.dis draws < ext.exp ((v - rs.previous_value) / rs.temperature)
      · simp only [ha, if_true]
      · simp only [ha, if_false]
        norm_num
    · simp only [hw, if_false]

theorem adapt_draws (ext : Extern) (rs : RestartState) (v : ℚ) (draws : Nat) :
    (adaptStep ext rs v draws).2
      = if rs.first_iteration = false ∧ v < rs.previous_value then draws + 1 else draws := by
  unfold adaptStep
  by_cases hf : rs.first_iteration = true
  · simp [hf]
  · have hf' : rs.first_iteration = false := by simpa using hf
    simp only [hf', Bool.false_eq_true, if_false, true_and]
    by_cases hw : v < rs.previous_value
    · simp only [hw, if_true]
      split_ifs <;> rfl
    · simp only [hw, if_false]

/-! ## The variables of a restart -/

theorem updateBest_fst (rs : RestartState) (g : SearchState) (s : Solution) (v : ℚ) :
    (updateBest rs g s v).1
      = { rs with no_imp_count :=
            if v > g.best_value ∧ v - g.best_value ≥ min_imp_threshold then 0
            else rs.no_imp_count + 1 } := by
  unfold updateBest
  simp only []
  by_cases h1 : v > g.best_value
  · by_cases h2 : v - g.best_value ≥ min_imp_threshold
    · rw [if_pos h1, if_pos h2, if_pos ⟨h1, h2⟩]
    · rw [if_pos h1, if_neg h2, if_neg (fun h => h2 h.2)]
  · rw [if_neg h1, if_neg (fun h => h1 h.1)]

theorem updateBest_best (rs : RestartState) (g : SearchState) (s : Solution) (v : ℚ) :
    (updateBest rs g s v).2.best_value = max g.best_value v
    ∧ (updateBest rs g s v).2.best_global_solution
        = if v > g.best_value then s else g.best_global_solution := by
  unfold updateBest
  simp only []
  by_cases h1 : v > g.best_value
  · rw [if_pos h1, if_pos h1]
    split_ifs <;> exact ⟨(max_eq_right (le_of_lt h1)).symm, rfl⟩
  · rw [if_neg h1, if_neg h1]
    exact ⟨(max_eq_left (not_lt.mp h1)).symm, rfl⟩

theorem initRestart_stepOK (r : ℚ) (h0 : 0 ≤ r) (h1 : r ≤ 1) : StepOK (initRestart r) := by
  unfold StepOK initRestart
  exact ⟨h0, h1, rfl, by norm_num, by norm_num, Or.inl rfl, by norm_num, by simp,
    fun _ => ⟨rfl, rfl⟩⟩

theorem specAdapt_stepOK (ext : Extern) (rs : RestartState) (v d : ℚ) (h : StepOK rs) :
    StepOK (specAdapt ext rs v d) := by
  obtain ⟨_, _, _, _, _, hdir, htemp, _, _⟩ := h
  unfold StepOK specAdapt
  refine ⟨le_max_left _ _, max_le (by norm_num) (min_le_left _ _), rfl, le_max_left _ _,
    max_le (by norm_num) (min_le_left _ _), ?_, ?_, by simp, by simp⟩
  · simp only []
    split_ifs <;> first
      | exact hdir
      | (rcases hdir with h | h <;> rw [h] <;> simp)
  · simp only []
    rw [htemp, pow_succ]
    ring

theorem stepOK_no_imp (rs : RestartState) (n : Int) (h : StepOK rs) :
    StepOK { rs with no_imp_count := n } := h

theorem stepOK_snoc (l : List PassRecord) (e : PassRecord)
    (hl : ∀ r ∈ l, StepOK r.at_start) (he : StepOK e.at_start) :
    ∀ r ∈ l ++ [e], StepOK r.at_start := by
  intro r hr
  rcases List.mem_append.mp hr with h | h
  · exact hl r h
  · rw [List.mem_singleton] at h
    subst h
    exact he

theorem iterate_stepOK (ext : Extern) (problem : ProblemData) (fuel : Nat)
    (rs : RestartState) (g : SearchState) (hrs : StepOK rs)
    (hg : ∀ r ∈ g.scored, StepOK r.at_start) :
    ∀ r ∈ (iterate ext problem fuel rs g).scored, StepOK r.at_start := by
  induction fuel generalizing rs g with
  | zero => exact hg
  | succ fuel ih =>
    rw [iterate]
    split
    · exact hg
    · rename_i clock hc
      simp only []
      have hlog := stepOK_snoc g.scored
        { at_start := rs,
          candidate := (constructCandidate ext problem rs.dry_ratio
            rs.perishable_ratio clock).current_solution,
          final_value := evaluate ext problem (constructCandidate ext problem rs.dry_ratio
            rs.perishable_ratio clock).current_solution } hg hrs
      split_ifs with hstop
      · rw [updateBest_scored]
        exact hlog
      · apply ih
        · rw [adapt_eq_spec]
          apply specAdapt_stepOK
          rw [updateBest_fst]
          exact hrs
        · simp only [updateBest_scored]
          exact hlog

theorem restarts_stepOK (ext : Extern) (problem : ProblemData) (ratios : List ℚ)
    (g : SearchState) (hr : ∀ r ∈ ratios, 0 ≤ r ∧ r ≤ 1)
    (hg : ∀ r ∈ g.scored, StepOK r.at_start) :
    ∀ r ∈ (restarts ext problem ratios g).scored, StepOK r.at_start := by
  induction ratios generalizing g with
  | nil => exact hg
  | cons r rest ih =>
    rw [restarts]
    split
    · exact hg
    · rename_i clock hc
      have h01 := hr r (List.mem_cons_self _ _)
      exact ih _ (fun q hq => hr q (List.mem_cons_of_mem _ hq))
        (iterate_stepOK ext problem _ _ _ (initRestart_stepOK r h01.1 h01.2) hg)

theorem search_stepOK (ext : Extern) (problem : ProblemData) (clock : Nat) :
    ∀ r ∈ (search ext problem clock).scored, StepOK r.at_start :=
  restarts_stepOK ext problem _ _ starting_ratios_range (by simp [searchInit])

theorem log_step {res g g1 : SearchState} {e : PassRecord} {c c1 : Nat}
    (hg : g1.scored = g.scored ++ [e]) (hc : c1 = c + 1) (he : e.at_start.completed = c)
    (h : ∃ l : List PassRecord, res.scored = g1.scored ++ l
      ∧ ∀ (k : Nat) (r : PassRecord), l[k]? = some r → r.at_start.completed = c1 + k) :
    ∃ l : List PassRecord, res.scored = g.scored ++ l
      ∧ ∀ (k : Nat) (r : PassRecord), l[k]? = some r → r.at_start.completed = c + k := by
  obtain ⟨l, hl, hk⟩ := h
  refine ⟨e :: l, ?_, ?_⟩
  · rw [hl, hg]
    simp only [List.append_assoc, List.singleton_append]
  · intro k r hkr
    cases k with
    | zero =>
      simp only [List.getElem?_cons_zero, Option.some.injEq] at hkr
      subst hkr
      simpa using he
    | succ k =>
      simp only [List.getElem?_cons_succ] at hkr
      have := hk k r hkr
      omega

/-- The log of a restart: the candidates it scores are appended to the log in order, and the
`k`-th of them is built after `k` completed iterations of the restart. -/
theorem iterate_log (ext : Extern) (problem : ProblemData) (fuel : Nat)
    (rs : RestartState) (g : SearchState) :
    ∃ l : List PassRecord, (iterate ext problem fuel rs g).scored = g.scored ++ l
      ∧ ∀ (k : Nat) (r : PassRecord), l[k]? = some r →
          r.at_start.completed = rs.completed + k := by
  induction fuel generalizing rs g with
  | zero => exact ⟨[], by simp [iterate], by simp⟩
  | succ fuel ih =>
    rw [iterate]
    split
    · exact ⟨[], by simp, by simp⟩
    · rename_i clock hc
      simp only []
      split_ifs with hstop
      · refine ⟨[_], by rw [updateBest_scored], ?_⟩
        intro k r hk
        cases k with
        | zero =>
          simp only [List.getElem?_cons_zero, Option.some.injEq] at hk
          subst hk
          rfl
        | succ k => simp at hk
      · exact log_step (updateBest_scored _ _ _ _)
          (by rw [adapt_eq_spec]; simp only [specAdapt, updateBest_fst]) rfl (ih _ _)

/-! ## The stagnation counter -/

theorem iterate_succ (ext : Extern) (problem : ProblemData) (fuel : Nat) (rs : RestartState)
    (g : SearchState) (clock : Nat) (hc : g.clock = clock + 1) :
    iterate ext problem (fuel + 1) rs g
      = if (scoreState ext problem rs g clock).1.no_imp_count ≥ max_no_improvement then
          (scoreState ext problem rs g clock).2
        else
          iterate ext problem fuel
            (clampStep (adaptStep ext (scoreState ext problem rs g clock).1
              (passRecord ext problem rs clock).final_value
              (scoreState ext problem rs g clock).2.draws).1)
            { (scoreState ext problem rs g clock).2 with
              draws := (adaptStep ext (scoreState ext problem rs g clock).1
                (passRecord ext problem rs clock).final_value
                (scoreState ext problem rs g clock).2.draws).2 } := by
  rw [iterate]
  split
  · rename_i h0
    omega
  · rename_i c hc2
    have : c = clock := by omega
    subst this
    rfl

theorem scoreState_scored (ext : Extern) (problem : ProblemData) (rs : RestartState)
    (g : SearchState) (clock : Nat) :
    (scoreState ext problem rs g clock).2.scored
      = g.scored ++ [passRecord ext problem rs clock] := by
  unfold scoreState
  rw [updateBest_scored]

theorem scoreState_clock (ext : Extern) (problem : ProblemData) (rs : RestartState)
    (g : SearchState) (clock : Nat) :
    (scoreState ext problem rs g clock).2.clock ≤ clock := by
  unfold scoreState
  rw [updateBest_clock]
  exact constructCandidate_clock ext problem _ _ clock

theorem scoreState_best (ext : Extern) (problem : ProblemData) (rs : RestartState)
    (g : SearchState) (clock : Nat) :
    (scoreState ext problem rs g clock).2.best_value
      = max g.best_value (passRecord ext problem rs clock).final_value := by
  unfold scoreState
  rw [(updateBest_best _ _ _ _).1]

theorem scoreState_count (ext : Extern) (problem : ProblemData) (rs : RestartState)
    (g : SearchState) (clock : Nat) :
    (scoreState ext problem rs g clock).1.no_imp_count
      = if (passRecord ext problem rs clock).final_value > g.best_value
            ∧ (passRecord ext problem rs clock).final_value - g.best_value
                ≥ min_imp_threshold then 0
        else rs.no_imp_count + 1 := by
  unfold scoreState
  rw [updateBest_fst]

theorem adapt_count (ext : Extern) (rs : RestartState) (v : ℚ) (draws : Nat) :
    (clampStep (adaptStep ext rs v draws).1).no_imp_count = rs.no_imp_count := by
  rw [adapt_eq_spec]
  rfl

/-- A restart whose candidates are all stagnant scores at most `20 - no_imp_count`
candidates, and exactly that many when the clock is not exhausted at its end. -/
theorem iterate_stagnant (ext : Extern) (problem : ProblemData) (fuel : Nat)
    (rs : RestartState) (g : SearchState) (l : List PassRecord)
    (hfuel : g.clock ≤ fuel) (h0 : 0 ≤ rs.no_imp_count)
    (h20 : rs.no_imp_count < max_no_improvement)
    (hl : (iterate ext problem fuel rs g).scored = g.scored ++ l)
    (hs : stagnantRun g.best_value l = true) :
    (l.length : Int) ≤ max_no_improvement - rs.no_imp_count
    ∧ (0 < (iterate ext problem fuel rs g).clock →
        (l.length : Int) = max_no_improvement - rs.no_imp_count) := by
  induction fuel generalizing rs g l with
  | zero =>
    rw [iterate_zero _ _ _ _ _ (by omega)] at hl ⊢
    have hnil : l = [] := by simpa using hl
    subst hnil
    refine ⟨by simp only [List.length_nil, Nat.cast_zero]; omega, fun h => by omega⟩
  | succ fuel ih =>
    rcases Nat.eq_zero_or_pos g.clock with hz | hpos
    · rw [iterate_zero _ _ _ _ _ hz] at hl ⊢
      have hnil : l = [] := by simpa using hl
      subst hnil
      refine ⟨by simp only [List.length_nil, Nat.cast_zero]; omega, fun h => by omega⟩
    · obtain ⟨clock, hc⟩ : ∃ c, g.clock = c + 1 := ⟨g.clock - 1, by omega⟩
      rw [iterate_succ _ _ _ _ _ clock hc] at hl ⊢
      have hcount := scoreState_count ext problem rs g clock
      by_cases hstop : (scoreState ext problem rs g clock).1.no_imp_count ≥ max_no_improvement
      · rw [if_pos hstop] at hl ⊢
        rw [scoreState_scored] at hl
        have hl1 : l = [passRecord ext problem rs clock] :=
          (List.append_cancel_left hl).symm
        subst hl1
        simp only [stagnantRun, Bool.and_true, decide_eq_true_eq] at hs
        have hno : ¬ ((passRecord ext problem rs clock).final_value > g.best_value
            ∧ (passRecord ext problem rs clock).final_value - g.best_value
                ≥ min_imp_threshold) := by
          intro h
          linarith [h.2]
        rw [if_neg hno] at hcount
        rw [hcount] at hstop
        have : rs.no_imp_count = max_no_improvement - 1 := by omega
        refine ⟨by simp only [List.length_singleton, Nat.cast_one]; omega,
          fun _ => by simp only [List.length_singleton, Nat.cast_one]; omega⟩
      · rw [if_neg hstop] at hl ⊢
        obtain ⟨l1, hl1, _⟩ := iterate_log ext problem fuel
          (clampStep (adaptStep ext (scoreState ext problem rs g clock).1
            (passRecord ext problem rs clock).final_value
            (scoreState ext problem rs g clock).2.draws).1)
          { (scoreState ext problem rs g clock).2 with
            draws := (adaptStep ext (scoreState ext problem rs g clock).1
              (passRecord ext problem rs clock).final_value
              (scoreState ext problem rs g clock).2.draws).2 }
        have hl2 : l = passRecord ext problem rs clock :: l1 := by
          rw [hl1] at hl
          simp only [scoreState_scored, List.append_assoc, List.singleton_append] at hl
          exact (List.append_cancel_left hl).symm
        subst hl2
        simp only [stagnantRun, Bool.and_eq_true, decide_eq_true_eq] at hs
        have hno : ¬ ((passRecord ext problem rs clock).final_value > g.best_value
            ∧ (passRecord ext problem rs clock).final_value - g.best_value
                ≥ min_imp_threshold) := by
          intro h
          linarith [h.2, hs.1]
        rw [if_neg hno] at hcount
        rw [hcount] at hstop
        have hclk := scoreState_clock ext problem rs g clock
        have hih := ih _ _ l1 (by simp only []; omega)
          (by rw [adapt_count, hcount]; omega)
          (by rw [adapt_count, hcount]; omega)
          hl1
          (by simp only [scoreState_best]; exact hs.2)
        rw [adapt_count, hcount] at hih
        refine ⟨by simp only [List.length_cons, Nat.cast_add, Nat.cast_one]; omega,
          fun h => ?_⟩
        have := hih.2 h
        simp only [List.length_cons, Nat.cast_add, Nat.cast_one]
        omega

/-! ## The global best -/

theorem bestOK_max (g : SearchState) (h : BestOK g) :
    ∀ r ∈ g.scored, r.final_value ≤ g.best_value := by
  intro q hq
  rcases h with ⟨_, hv, hall⟩ | ⟨l1, r, l2, hs, _, hv, hl1, hl2⟩
  · rw [hv]
    exact hall q hq
  · rw [hv]
    rw [hs] at hq
    rcases List.mem_append.mp hq with h | h
    · exact le_of_lt (hl1 q h)
    · rcases List.mem_cons.mp h with h | h
      · rw [h]
      · exact hl2 q h

theorem bestOK_earliest (g : SearchState) (h : BestOK g)
    (hv : ∃ r ∈ g.scored, -DBL_MAX < r.final_value) :
    ∃ l1 r l2, g.scored = l1 ++ r :: l2 ∧ g.best_global_solution = r.candidate
      ∧ g.best_value = r.final_value ∧ (∀ q ∈ l1, q.final_value < r.final_value)
      ∧ ∀ q ∈ l2, q.final_value ≤ r.final_value := by
  obtain ⟨r0, h0, hv0⟩ := hv
  rcases h with ⟨_, _, hall⟩ | h
  · exact absurd (hall r0 h0) (not_le.mpr hv0)
  · exact h

theorem updateBest_sentinel (rs : RestartState) (g : SearchState) (s : Solution) (v : ℚ)
    (h : g.best_global_solution = [] ∨ -DBL_MAX < g.best_value)
    (hb : -DBL_MAX ≤ g.best_value) :
    ((updateBest rs g s v).2.best_global_solution = []
        ∨ -DBL_MAX < (updateBest rs g s v).2.best_value)
    ∧ -DBL_MAX ≤ (updateBest rs g s v).2.best_value := by
  obtain ⟨h1, h2⟩ := updateBest_best rs g s v
  rw [h1, h2]
  by_cases hv : v > g.best_value
  · rw [if_pos hv]
    exact ⟨Or.inr (lt_of_le_of_lt hb (lt_max_of_lt_right hv)), le_trans hb (le_max_left _ _)⟩
  · rw [if_neg hv, max_eq_left (not_lt.mp hv)]
    exact ⟨h, hb⟩

theorem iterate_sentinel (ext : Extern) (problem : ProblemData) (fuel : Nat)
    (rs : RestartState) (g : SearchState)
    (h : g.best_global_solution = [] ∨ -DBL_MAX < g.best_value)
    (hb : -DBL_MAX ≤ g.best_value) :
    ((iterate ext problem fuel rs g).best_global_solution = []
        ∨ -DBL_MAX < (iterate ext problem fuel rs g).best_value)
    ∧ -DBL_MAX ≤ (iterate ext problem fuel rs g).best_value := by
  induction fuel generalizing rs g with
  | zero => exact ⟨h, hb⟩
  | succ fuel ih =>
    rcases Nat.eq_zero_or_pos g.clock with hz | hpos
    · rw [iterate_zero _ _ _ _ _ hz]
      exact ⟨h, hb⟩
    · obtain ⟨clock, hc⟩ : ∃ c, g.clock = c + 1 := ⟨g.clock - 1, by omega⟩
      rw [iterate_succ _ _ _ _ _ clock hc]
      have hu : ((scoreState ext problem rs g clock).2.best_global_solution = []
          ∨ -DBL_MAX < (scoreState ext problem rs g clock).2.best_value)
          ∧ -DBL_MAX ≤ (scoreState ext problem rs g clock).2.best_value :=
        updateBest_sentinel _ _ _ _ h hb
      split_ifs
      · exact hu
      · exact ih _ _ hu.1 hu.2

theorem restarts_sentinel (ext : Extern) (problem : ProblemData) (ratios : List ℚ)
    (g : SearchState) (h : g.best_global_solution = [] ∨ -DBL_MAX < g.best_value)
    (hb : -DBL_MAX ≤ g.best_value) :
    ((restarts ext problem ratios g).best_global_solution = []
        ∨ -DBL_MAX < (restarts ext problem ratios g).best_value)
    ∧ -DBL_MAX ≤ (restarts ext problem ratios g).best_value := by
  induction ratios generalizing g with
  | nil => exact ⟨h, hb⟩
  | cons r rest ih =>
    rw [restarts]
    split
    · exact ⟨h, hb⟩
    · rename_i clock hc
      have hi := iterate_sentinel ext problem (clock + 1) (initRestart r)
        { g with clock := clock } h hb
      exact ih _ hi.1 hi.2

theorem search_sentinel (ext : Extern) (problem : ProblemData) (clock : Nat)
    (hv : ∀ r ∈ (search ext problem clock).scored, r.final_value ≤ -DBL_MAX) :
    (search ext problem clock).best_global_solution = [] := by
  rcases (restarts_sentinel ext problem starting_ratios (searchInit clock) (Or.inl rfl)
    (le_refl _)).1 with h | h
  · exact h
  · rcases (search_inv ext problem clock).2 with ⟨hb, _, _⟩ | ⟨l1, r, l2, hs, _, hv2, _, _⟩
    · exact hb
    · exfalso
      have hr := hv r (by rw [hs]; simp)
      unfold search at hv2
      rw [hv2] at h
      exact absurd hr (not_le.mpr h)

/-! ## Claims about the ratio search -/

/-- C11. The global best is replaced only by a candidate with a strictly greater score
(lines 297-300). When the search ends, `best_value` is at least the score of every candidate
scored in any restart. As soon as one candidate has a score above the initial
`best_value = -DBL_MAX` of line 45, the global best is the earliest candidate of the log with
the highest score, and `solve` returns the validation pass applied to that candidate. When no
candidate has a score above `-DBL_MAX`, in particular when no candidate was scored, `solve`
returns the empty Solution. -/
theorem global_best_is_earliest_maximum (ext : Extern) (problem : ProblemData)
    (clock : Nat) :
    (∀ (rs : RestartState) (g : SearchState) (s : Solution) (v : ℚ),
      (updateBest rs g s v).2.best_value = max g.best_value v
      ∧ (updateBest rs g s v).2.best_global_solution
          = if v > g.best_value then s else g.best_global_solution)
    ∧ (∀ r ∈ (search ext problem clock).scored,
        r.final_value ≤ (search ext problem clock).best_value)
    ∧ ((∃ r ∈ (search ext problem clock).scored, -DBL_MAX < r.final_value) →
        ∃ l1 r l2, (search ext problem clock).scored = l1 ++ r :: l2
          ∧ (search ext problem clock).best_global_solution = r.candidate
          ∧ (search ext problem clock).best_value = r.final_value
          ∧ (∀ q ∈ l1, q.final_value < r.final_value)
          ∧ (∀ q ∈ l2, q.final_value ≤ r.final_value)
          ∧ solve ext problem clock = validate ext problem r.candidate)
    ∧ ((∀ r ∈ (search ext problem clock).scored, r.final_value ≤ -DBL_MAX) →
        solve ext problem clock = [])
    ∧ ((search ext problem clock).scored = [] → solve ext problem clock = []) := by
  refine ⟨updateBest_best, bestOK_max _ (search_inv ext problem clock).2, ?_, ?_, ?_⟩
  · intro hv
    obtain ⟨l1, r, l2, hs, hb, hbv, h1, h2⟩ :=
      bestOK_earliest _ (search_inv ext problem clock).2 hv
    exact ⟨l1, r, l2, hs, hb, hbv, h1, h2, by unfold solve; rw [hb]⟩
  · intro hv
    unfold solve
    rw [search_sentinel ext problem clock hv]
    rfl
  · intro hnil
    unfold solve
    rw [search_sentinel ext problem clock (by rw [hnil]; simp)]
    rfl

theorem global_best_is_earliest_maximum_witness :
    (∃ r ∈ (search exampleExtern exampleProblem 12).scored, -DBL_MAX < r.final_value)
    ∧ ∃ l1 r l2, (search exampleExtern exampleProblem 12).scored = l1 ++ r :: l2
        ∧ (search exampleExtern exampleProblem 12).best_global_solution = r.candidate
        ∧ (search exampleExtern exampleProblem 12).best_value = r.final_value
        ∧ (∀ q ∈ l1, q.final_value < r.final_value)
        ∧ (∀ q ∈ l2, q.final_value ≤ r.final_value)
        ∧ solve exampleExtern exampleProblem 12 = validate exampleExtern exampleProblem
            r.candidate :=
  ⟨by decide!,
    (global_best_is_earliest_maximum exampleExtern exampleProblem 12).2.2.1 (by decide!)⟩

/-- C17. The step adaptation of lines 315-342 is the rule of the spec, `specAdapt`: in the
first iteration of a restart direction and step are kept, and they are `+1` and `0.2` there,
so that the ratio becomes `clamp(ratio + 1 x 0.2, 0, 1)`; in a later iteration a worse score
with a draw below `exp((new - previous)/temperature)` keeps direction and step, a worse score
with a draw not below it negates the direction and multiplies the step by 0.9, and a score
that is not worse multiplies the step by 1.1; in every case the previous score becomes the new
score, the ratio `clamp(ratio + direction x step, 0, 1)`, the step `clamp(step, 0.05, 0.3)`
and the temperature `0.95 x temperature`. A draw is consumed exactly in the later iterations
with a worse score. -/
theorem step_adaptation_is_spec_rule (ext : Extern) (rs : RestartState) (new_score : ℚ)
    (draws : Nat) (start_ratio : ℚ) (count : Int) :
    clampStep (adaptStep ext rs new_score draws).1
      = specAdapt ext rs new_score (ext.dis draws)
    ∧ (adaptStep ext rs new_score draws).2
        = (if rs.first_iteration = false ∧ new_score < rs.previous_value then draws + 1
           else draws)
    ∧ (initRestart start_ratio).first_iteration = true
    ∧ (initRestart start_ratio).direction = 1
    ∧ (initRestart start_ratio).learning_rate = 2 / 10
    ∧ (clampStep (adaptStep ext { initRestart start_ratio with no_imp_count := count }
          new_score draws).1).dry_ratio = max 0 (min 1 (start_ratio + 1 * (2 / 10)))
    ∧ (clampStep (adaptStep ext { initRestart start_ratio with no_imp_count := count }
          new_score draws).1).first_iteration = false := by
  refine ⟨adapt_eq_spec ext rs new_score draws, adapt_draws ext rs new_score draws, rfl, rfl,
    rfl, ?_, ?_⟩
  · rw [adapt_eq_spec]
    simp [specAdapt, initRestart]
  · rw [adapt_eq_spec]
    rfl

/-- C18. At the start of every construction pass of every restart, for every scoring and
every sequence of draws (`ext` is arbitrary), the dry ratio is in `[0,1]`, the perishable
ratio is `1 - dry ratio`, the step is in `[0.05, 0.3]`, the direction is `+1` or `-1` and the
temperature is `100 x 0.95^k` for the number `k` of completed iterations of the restart: the
`k`-th candidate that a restart appends to the log (counting from 0) is built after `k`
completed iterations. -/
theorem restart_variables_invariant (ext : Extern) (problem : ProblemData) (clock : Nat) :
    (∀ r ∈ (search ext problem clock).scored,
      0 ≤ r.at_start.dry_ratio ∧ r.at_start.dry_ratio ≤ 1
      ∧ r.at_start.perishable_ratio = 1 - r.at_start.dry_ratio
      ∧ 5 / 100 ≤ r.at_start.learning_rate ∧ r.at_start.learning_rate ≤ 3 / 10
      ∧ (r.at_start.direction = 1 ∨ r.at_start.direction = -1)
      ∧ r.at_start.temperature = 100 * (95 / 100) ^ r.at_start.completed)
    ∧ ∀ (fuel : Nat) (start_ratio : ℚ) (g : SearchState),
        ∃ l : List PassRecord,
          (iterate ext problem fuel (initRestart start_ratio) g).scored = g.scored ++ l
          ∧ ∀ (k : Nat) (r : PassRecord), l[k]? = some r → r.at_start.completed = k := by
  refine ⟨?_, ?_⟩
  · intro r hr
    obtain ⟨h1, h2, h3, h4, h5, h6, h7, _, _⟩ := search_stepOK ext problem clock r hr
    exact ⟨h1, h2, h3, h4, h5, h6, h7⟩
  · intro fuel start_ratio g
    obtain ⟨l, hl, hk⟩ := iterate_log ext problem fuel (initRestart start_ratio) g
    refine ⟨l, hl, ?_⟩
    intro k r hkr
    have := hk k r hkr
    simpa [initRestart] using this

theorem restart_variables_invariant_witness :
    ∃ r ∈ (search exampleExtern exampleProblem 12).scored,
      r.at_start.completed = 2 ∧ r.at_start.temperature = 100 * (95 / 100) ^ 2
      ∧ 0 ≤ r.at_start.dry_ratio ∧ r.at_start.dry_ratio ≤ 1 :=
  ⟨(search exampleExtern exampleProblem 12).scored.getD 2 default, by decide!, by decide!,
    by
      have h := (restart_variables_invariant exampleExtern exampleProblem 12).1
        ((search exampleExtern exampleProblem 12).scored.getD 2 default) (by decide!)
      have hc : ((search exampleExtern exampleProblem 12).scored.getD 2
        default).at_start.completed = 2 := by decide!
      rw [hc] at h
      exact ⟨h.2.2.2.2.2.2, h.1, h.2.1⟩⟩

/-- C19. The stagnation counter starts at 0 in a restart, is set to 0 exactly when the score
of the candidate exceeds the global best by at least 0.01 and is incremented otherwise, also
when the global best improves by less; the step adaptation leaves it alone. The restart ends
as soon as the counter has reached 20 (line 311). So a restart whose candidates are all
stagnant scores at most 20 candidates, and exactly 20 when the clock is not exhausted at its
end, that is when no deadline test of the restart failed. -/
theorem stagnation_limit (ext : Extern) (problem : ProblemData) :
    (∀ start_ratio : ℚ, (initRestart start_ratio).no_imp_count = 0)
    ∧ (∀ (rs : RestartState) (g : SearchState) (s : Solution) (v : ℚ),
        (updateBest rs g s v).1.no_imp_count
          = if v > g.best_value ∧ v - g.best_value ≥ 1 / 100 then 0
            else rs.no_imp_count + 1)
    ∧ (∀ (rs : RestartState) (v : ℚ) (draws : Nat),
        (clampStep (adaptStep ext rs v draws).1).no_imp_count = rs.no_imp_count)
    ∧ (∀ (fuel : Nat) (rs : RestartState) (g : SearchState) (clock : Nat),
        g.clock = clock + 1 →
        (scoreState ext problem rs g clock).1.no_imp_count ≥ 20 →
        iterate ext problem (fuel + 1) rs g = (scoreState ext problem rs g clock).2)
    ∧ ∀ (fuel : Nat) (start_ratio : ℚ) (g : SearchState) (l : List PassRecord),
        g.clock ≤ fuel →
        (iterate ext problem fuel (initRestart start_ratio) g).scored = g.scored ++ l →
        stagnantRun g.best_value l = true →
        l.length ≤ 20
        ∧ (0 < (iterate ext problem fuel (initRestart start_ratio) g).clock →
            l.length = 20) := by
  refine ⟨fun _ => rfl, ?_, adapt_count ext, ?_, ?_⟩
  · intro rs g s v
    rw [updateBest_fst]
    rfl
  · intro fuel rs g clock hc hstop
    have hstop2 : (scoreState ext problem rs g clock).1.no_imp_count ≥ max_no_improvement :=
      hstop
    rw [iterate_succ _ _ _ _ _ clock hc, if_pos hstop2]
  · intro fuel start_ratio g l hfuel hl hs
    have h := iterate_stagnant ext problem fuel (initRestart start_ratio) g l hfuel
      (le_refl _) (by show (0 : Int) < 20; norm_num) hl hs
    have e0 : (initRestart start_ratio).no_imp_count = 0 := rfl
    have e20 : max_no_improvement = 20 := rfl
    rw [e0, e20] at h
    refine ⟨by omega, fun hc => ?_⟩
    have := h.2 hc
    omega

theorem stagnation_limit_witness :
    (iterate exampleExtern unreachableProblem 101 (initRestart (1 / 10))
      (settledState 100)).scored.length = 20 :=
  ((stagnation_limit exampleExtern unreachableProblem).2.2.2.2 101 (1 / 10)
    (settledState 100)
    (iterate exampleExtern unreachableProblem 101 (initRestart (1 / 10))
      (settledState 100)).scored
    (by decide) rfl (by decide!)).2 (by decide!)

/-! ## What a scored candidate has passed -/

theorem specFood_nonneg (W avg : ℚ) (remF : Int) (hW : 0 ≤ W) (havg : 0 < avg)
    (hF : 0 ≤ remF) : 0 ≤ specFood W avg remF :=
  le_min hF (Int.floor_nonneg.mpr (div_nonneg hW havg.le))

theorem specDry_bounds (W dr avg : ℚ) (remF : Int) (hdr0 : 0 ≤ dr) (hdr1 : dr ≤ 1)
    (hW : 0 ≤ W) (havg : 0 < avg) (hF : 0 ≤ remF) :
    0 ≤ specDry W dr avg remF ∧ specDry W dr avg remF ≤ specFood W avg remF := by
  have h0 := specFood_nonneg W avg remF hW havg hF
  have h0q : (0 : ℚ) ≤ (specFood W avg remF : ℚ) := by exact_mod_cast h0
  unfold specDry
  refine ⟨Int.floor_nonneg.mpr (mul_nonneg h0q hdr0), ?_⟩
  have h1 : (⌊(specFood W avg remF : ℚ) * dr⌋ : ℚ) ≤ (specFood W avg remF : ℚ) * dr :=
    Int.floor_le _
  have h2 : (specFood W avg remF : ℚ) * dr ≤ (specFood W avg remF : ℚ) := by nlinarith
  exact_mod_cast le_trans h1 h2

/-- With a perishable unit no heavier than a dry unit, the food of the mix is within the
weight capacity. -/
theorem specFoodWeight_le (problem : ProblemData) (W dr avg : ℚ) (remF : Int)
    (hW : 0 ≤ W) (havg : 0 < avg) (hF : 0 ≤ remF)
    (hav : avg = avgFoodWt problem dr (1 - dr))
    (hw : (vecAt problem.packages PER).weight ≤ (vecAt problem.packages DRY).weight) :
    specFoodWeight problem W dr avg remF ≤ W := by
  have h0 := specFood_nonneg W avg remF hW havg hF
  have h0q : (0 : ℚ) ≤ (specFood W avg remF : ℚ) := by exact_mod_cast h0
  have hfl : (specFood W avg remF : ℚ) ≤ W / avg := by
    have h1 : specFood W avg remF ≤ ⌊W / avg⌋ := min_le_right _ _
    have h2 : ((⌊W / avg⌋ : Int) : ℚ) ≤ W / avg := Int.floor_le _
    exact le_trans (by exact_mod_cast h1) h2
  have hfa : (specFood W avg remF : ℚ) * avg ≤ W := by
    rwa [le_div_iff₀ havg] at hfl
  have hd : (specDry W dr avg remF : ℚ) ≤ (specFood W avg remF : ℚ) * dr := by
    unfold specDry
    exact Int.floor_le _
  have hfa2 : (specFood W avg remF : ℚ) * (dr * (vecAt problem.packages DRY).weight
      + (1 - dr) * (vecAt problem.packages PER).weight) = (specFood W avg remF : ℚ) * avg := by
    rw [hav]
    rfl
  have hprod := mul_nonneg (sub_nonneg.mpr hd) (sub_nonneg.mpr hw)
  unfold specFoodWeight specPerishable
  push_cast
  nlinarith

theorem firstStopMix_spec (problem : ProblemData) (W dr avg : ℚ) (remF remO : Int)
    (hdr0 : 0 ≤ dr) (hW : 0 ≤ W) (havg : 0 < avg) (hF : 0 ≤ remF) (hO : 0 ≤ remO) :
    firstStopMix problem W dr avg remF remO
      = if specFoodWeight problem W dr avg remF > W + eps9 then none
        else if (vecAt problem.packages OTH).weight > eps9
            ∧ W - specFoodWeight problem W dr avg remF > eps9 then
          some { dry_units := specDry W dr avg remF,
                 perishable_units := specPerishable W dr avg remF,
                 other_units := specOther problem W dr avg remF remO,
                 total_weight := specFoodWeight problem W dr avg remF
                   + (specOther problem W dr avg remF remO : ℚ)
                     * (vecAt problem.packages OTH).weight }
        else
          some { dry_units := specDry W dr avg remF,
                 perishable_units := specPerishable W dr avg remF,
                 other_units := 0,
                 total_weight := specFoodWeight problem W dr avg remF
                   + ((0 : Int) : ℚ) * (vecAt problem.packages OTH).weight } := by
  have e1 : toInt (W / avg) = ⌊W / avg⌋ := toInt_eq_floor _ (div_nonneg hW havg.le)
  have h0 : 0 ≤ min remF ⌊W / avg⌋ := specFood_nonneg W avg remF hW havg hF
  have h0q : (0 : ℚ) ≤ ((min remF ⌊W / avg⌋ : Int) : ℚ) := by exact_mod_cast h0
  have e2 : toInt (((min remF ⌊W / avg⌋ : Int) : ℚ) * dr)
      = ⌊((min remF ⌊W / avg⌋ : Int) : ℚ) * dr⌋ := toInt_eq_floor _ (mul_nonneg h0q hdr0)
  unfold firstStopMix
  simp only [e1, e2]
  unfold specOther specFoodWeight specPerishable specDry specFood
  by_cases hfw : ((⌊((min remF ⌊W / avg⌋ : Int) : ℚ) * dr⌋ : Int) : ℚ)
      * (vecAt problem.packages DRY).weight
      + ((min remF ⌊W / avg⌋ - ⌊((min remF ⌊W / avg⌋ : Int) : ℚ) * dr⌋ : Int) : ℚ)
        * (vecAt problem.packages PER).weight > W + eps9
  · rw [if_pos hfw, if_pos hfw]
  · rw [if_neg hfw, if_neg hfw]
    by_cases hoth : (vecAt problem.packages OTH).weight > eps9
        ∧ W - (((⌊((min remF ⌊W / avg⌋ : Int) : ℚ) * dr⌋ : Int) : ℚ)
            * (vecAt problem.packages DRY).weight
          + ((min remF ⌊W / avg⌋ - ⌊((min remF ⌊W / avg⌋ : Int) : ℚ) * dr⌋ : Int) : ℚ)
            * (vecAt problem.packages PER).weight) > eps9
    · rw [if_pos hoth, if_pos hoth]
      have h9 : (0 : ℚ) < eps9 := by norm_num [eps9]
      have hwo : 0 < (vecAt problem.packages OTH).weight := lt_trans h9 hoth.1
      have hq : 0 ≤ (W - (((⌊((min remF ⌊W / avg⌋ : Int) : ℚ) * dr⌋ : Int) : ℚ)
            * (vecAt problem.packages DRY).weight
          + ((min remF ⌊W / avg⌋ - ⌊((min remF ⌊W / avg⌋ : Int) : ℚ) * dr⌋ : Int) : ℚ)
            * (vecAt problem.packages PER).weight)) / (vecAt problem.packages OTH).weight :=
        div_nonneg (le_trans h9.le hoth.2.le) hwo.le
      rw [toInt_eq_floor _ hq]
      have hfl0 := Int.floor_nonneg.mpr hq
      rw [max_eq_right (le_min hO hfl0)]
      have hle : ((min remO ⌊(W - (((⌊((min remF ⌊W / avg⌋ : Int) : ℚ) * dr⌋ : Int) : ℚ)
            * (vecAt problem.packages DRY).weight
          + ((min remF ⌊W / avg⌋ - ⌊((min remF ⌊W / avg⌋ : Int) : ℚ) * dr⌋ : Int) : ℚ)
            * (vecAt problem.packages PER).weight)) / (vecAt problem.packages OTH).weight⌋
            : Int) : ℚ) * (vecAt problem.packages OTH).weight
          ≤ W - (((⌊((min remF ⌊W / avg⌋ : Int) : ℚ) * dr⌋ : Int) : ℚ)
            * (vecAt problem.packages DRY).weight
          + ((min remF ⌊W / avg⌋ - ⌊((min remF ⌊W / avg⌋ : Int) : ℚ) * dr⌋ : Int) : ℚ)
            * (vecAt problem.packages PER).weight) := by
        have ha : ((min remO ⌊(W - (((⌊((min remF ⌊W / avg⌋ : Int) : ℚ) * dr⌋ : Int) : ℚ)
            * (vecAt problem.packages DRY).weight
          + ((min remF ⌊W / avg⌋ - ⌊((min remF ⌊W / avg⌋ : Int) : ℚ) * dr⌋ : Int) : ℚ)
            * (vecAt problem.packages PER).weight)) / (vecAt problem.packages OTH).weight⌋
            : Int) : ℚ)
            ≤ (W - (((⌊((min remF ⌊W / avg⌋ : Int) : ℚ) * dr⌋ : Int) : ℚ)
            * (vecAt problem.packages DRY).weight
          + ((min remF ⌊W / avg⌋ - ⌊((min remF ⌊W / avg⌋ : Int) : ℚ) * dr⌋ : Int) : ℚ)
            * (vecAt problem.packages PER).weight)) / (vecAt problem.packages OTH).weight :=
          le_trans (by exact_mod_cast min_le_right _ _) (Int.floor_le _)
        rwa [le_div_iff₀ hwo] at ha
      rw [if_neg (by linarith)]
    · rw [if_neg hoth, if_neg hoth]
      have h9 : (0 : ℚ) < eps9 := by norm_num [eps9]
      rw [if_neg (by
        simp only [Int.cast_zero, zero_mul, add_zero]
        exact hfw)]

/-! ## The mix of the extension scan and the mix of the first-stop scan -/

theorem nextStopMix_eq (problem : ProblemData) (c dr avg : ℚ) (remF remO : Int) :
    nextStopMix problem c dr avg remF remO
      = (firstStopMix problem c dr (avg + eps9) remF remO).bind nonZeroMix := by
  unfold nextStopMix firstStopMix nonZeroMix
  simp only []
  split_ifs <;> simp_all

theorem firstStopMix_demand_limited (problem : ProblemData) (c dr avg : ℚ)
    (remF remO : Int) (hc : 0 ≤ c) (havg : 0 < avg)
    (hF : remF ≤ toInt (c / (avg + eps9))) :
    firstStopMix problem c dr (avg + eps9) remF remO
      = firstStopMix problem c dr avg remF remO := by
  have h9 : (0 : ℚ) < eps9 := by norm_num [eps9]
  have hle : c / (avg + eps9) ≤ c / avg :=
    div_le_div_of_nonneg_left hc havg (by linarith)
  have h1 : toInt (c / (avg + eps9)) ≤ toInt (c / avg) := by
    rw [toInt_eq_floor _ (div_nonneg hc (by linarith)),
      toInt_eq_floor _ (div_nonneg hc havg.le)]
    exact Int.floor_le_floor hle
  have e1 : min remF (toInt (c / (avg + eps9))) = remF := min_eq_left hF
  have e2 : min remF (toInt (c / avg)) = remF := min_eq_left (le_trans hF h1)
  unfold firstStopMix
  simp only [e1, e2]

/-! ## The first-stop scan selects the lowest-indexed maximum -/

/-- The first-stop scan body in one equation: the four tests that leave a village out before
the mix is computed, then the mix with its two weight checks. -/
theorem firstStopCandidate_eq (ext : Extern) (problem : ProblemData)
    (helicopter : Helicopter) (home : Point) (dr pr budget : ℚ) (remF remO : List Int)
    (i : Nat) :
    firstStopCandidate ext problem helicopter home dr pr budget remF remO i
      = if (vecAt remF i ≤ 0 ∧ vecAt remO i ≤ 0)
            ∨ 2 * ext.distance home (vecAt problem.villages i).coords
                > helicopter.distance_capacity
            ∨ 2 * ext.distance home (vecAt problem.villages i).coords > budget
            ∨ avgFoodWt problem dr pr < eps9 then none
        else (firstStopMix problem helicopter.weight_capacity dr (avgFoodWt problem dr pr)
            (vecAt remF i) (vecAt remO i)).map fun m =>
          { net_value :=
              calculateVillageValue (vecAt problem.villages i) m.dry_units
                m.perishable_units m.other_units problem.packages
              - (helicopter.fixed_cost
                  + helicopter.alpha
                    * (2 * ext.distance home (vecAt problem.villages i).coords)),
            dry_units := m.dry_units, perishable_units := m.perishable_units,
            other_units := m.other_units } := by
  unfold firstStopCandidate
  simp only []
  by_cases h1 : vecAt remF i ≤ 0 ∧ vecAt remO i ≤ 0
  · rw [if_pos h1, if_pos (Or.inl h1)]
  · rw [if_neg h1]
    by_cases h2 : 2 * ext.distance home (vecAt problem.villages i).coords
        > helicopter.distance_capacity
        ∨ 2 * ext.distance home (vecAt problem.villages i).coords > budget
    · rw [if_pos h2, if_pos (by tauto)]
    · rw [if_neg h2]
      by_cases h3 : avgFoodWt problem dr pr < eps9
      · rw [if_pos h3, if_pos (by tauto)]
      · rw [if_neg h3, if_neg (by tauto)]
        cases firstStopMix problem helicopter.weight_capacity dr (avgFoodWt problem dr pr)
          (vecAt remF i) (vecAt remO i) <;> rfl

/-- C14 (counterexample). A village with remaining demand that passes the two distance
checks, with a blended food weight of 5.5, is left out of the first-stop comparison by the
weight check of line 119: the weight capacity is 9.9, a dry unit weighs 1 and a perishable
unit 10, the ratio is 0.5, so the food is 1 unit, 0 dry and 1 perishable, of weight 10. -/
theorem weight_check_leaves_village_out :
    ¬ (vecAt (initialDemand heavyPerishableProblem).rem_food_demand 0 ≤ 0
        ∧ vecAt (initialDemand heavyPerishableProblem).rem_other_demand 0 ≤ 0)
    ∧ 2 * exampleExtern.distance exampleCity exampleVillage.coords
        ≤ lightHelicopter.distance_capacity
    ∧ 2 * exampleExtern.distance exampleCity exampleVillage.coords
        ≤ heavyPerishableProblem.d_max
    ∧ eps9 ≤ avgFoodWt heavyPerishableProblem (1 / 2) (1 / 2)
    ∧ firstStopCandidate exampleExtern heavyPerishableProblem lightHelicopter exampleCity
        (1 / 2) (1 / 2) heavyPerishableProblem.d_max
        (initialDemand heavyPerishableProblem).rem_food_demand
        (initialDemand heavyPerishableProblem).rem_other_demand 0 = none
    ∧ (firstStopScan exampleExtern heavyPerishableProblem lightHelicopter exampleCity
        (1 / 2) (1 / 2) heavyPerishableProblem.d_max
        (initialDemand heavyPerishableProblem).rem_food_demand
        (initialDemand heavyPerishableProblem).rem_other_demand
        (List.range heavyPerishableProblem.villages.length) 5
        firstStopInit).1.best_first_vil_idx = -1 := by
  decide!

/-- In exact arithmetic, in the first-stop scan, for every village that has remaining demand and
passes the two distance checks, with a blended food weight of at least `1e-9`, a ratio and a
weight capacity that are not negative and demand counters that are not negative, the
constructor computes `food = min(remaining food demand, floor(capacity / blended))`,
`dry = floor(food x ratio)` and `perishable = food - dry`. It leaves the village out when the
weight of that food exceeds the capacity by more than `1e-9`, and otherwise scores it with
`other = min(remaining other demand, floor(leftover / other weight))` when the other weight
and the leftover weight are above `1e-9`, and with `other = 0` when not. The food is within
the capacity, so that the village is scored, whenever a perishable unit is no heavier than a
dry unit. -/
theorem firstStopCandidate_formula (ext : Extern) (problem : ProblemData)
    (helicopter : Helicopter) (home : Point) (dr pr budget : ℚ) (remF remO : List Int)
    (i : Nat) (hdr0 : 0 ≤ dr) (hW : 0 ≤ helicopter.weight_capacity)
    (hF0 : 0 ≤ vecAt remF i) (hO0 : 0 ≤ vecAt remO i)
    (hdem : ¬ (vecAt remF i ≤ 0 ∧ vecAt remO i ≤ 0))
    (hd1 : 2 * ext.distance home (vecAt problem.villages i).coords
      ≤ helicopter.distance_capacity)
    (hd2 : 2 * ext.distance home (vecAt problem.villages i).coords ≤ budget)
    (havg : eps9 ≤ avgFoodWt problem dr pr) :
    firstStopCandidate ext problem helicopter home dr pr budget remF remO i
      = (if specFoodWeight problem helicopter.weight_capacity dr (avgFoodWt problem dr pr)
            (vecAt remF i) > helicopter.weight_capacity + eps9 then none
        else some
          { net_value :=
              calculateVillageValue (vecAt problem.villages i)
                (specDry helicopter.weight_capacity dr (avgFoodWt problem dr pr)
                  (vecAt remF i))
                (specPerishable helicopter.weight_capacity dr (avgFoodWt problem dr pr)
                  (vecAt remF i))
                (if (vecAt problem.packages OTH).weight > eps9
                    ∧ helicopter.weight_capacity
                      - specFoodWeight problem helicopter.weight_capacity dr
                          (avgFoodWt problem dr pr) (vecAt remF i) > eps9 then
                  specOther problem helicopter.weight_capacity dr (avgFoodWt problem dr pr)
                    (vecAt remF i) (vecAt remO i)
                else 0)
                problem.packages
              - (helicopter.fixed_cost
                  + helicopter.alpha
                    * (2 * ext.distance home (vecAt problem.villages i).coords)),
            dry_units := specDry helicopter.weight_capacity dr (avgFoodWt problem dr pr)
              (vecAt remF i),
            perishable_units := specPerishable helicopter.weight_capacity dr
              (avgFoodWt problem dr pr) (vecAt remF i),
            other_units :=
              if (vecAt problem.packages OTH).weight > eps9
                  ∧ helicopter.weight_capacity
                    - specFoodWeight problem helicopter.weight_capacity dr
                        (avgFoodWt problem dr pr) (vecAt remF i) > eps9 then
                specOther problem helicopter.weight_capacity dr (avgFoodWt problem dr pr)
                  (vecAt remF i) (vecAt remO i)
              else 0 })
    ∧ (pr = 1 - dr →
        (vecAt problem.packages PER).weight ≤ (vecAt problem.packages DRY).weight →
        specFoodWeight problem helicopter.weight_capacity dr (avgFoodWt problem dr pr)
          (vecAt remF i) ≤ helicopter.weight_capacity) := by
  have h9 : (0 : ℚ) < eps9 := by norm_num [eps9]
  have havg0 : 0 < avgFoodWt problem dr pr := lt_of_lt_of_le h9 havg
  constructor
  · rw [firstStopCandidate_eq, if_neg (by
      rw [not_or, not_or, not_or]
      exact ⟨hdem, not_lt.mpr hd1, not_lt.mpr hd2, not_lt.mpr havg⟩),
      firstStopMix_spec problem _ dr _ _ _ hdr0 hW havg0 hF0 hO0]
    split_ifs <;> rfl
  · intro hpr hw
    subst hpr
    exact specFoodWeight_le problem _ dr _ _ hW havg0 hF0 rfl hw

/-- C15 (counterexample). With leftover capacity 10, all package weights 1, ratio 0.5, a
remaining food demand of 90 and a remaining other demand of 10, the first-stop scan of a
helicopter of weight capacity 10 computes 5 dry and 5 perishable units and no other unit,
while the extension scan computes 4 dry, 5 perishable and 1 other unit: it divides by the
blended food weight plus `1e-9`. -/
theorem extension_mix_differs :
    eps9 < (10 : ℚ) ∧ avgFoodWt exampleProblem (1 / 2) (1 / 2) = 1
    ∧ firstStopMix exampleProblem 10 (1 / 2) (avgFoodWt exampleProblem (1 / 2) (1 / 2))
        90 10 = some ⟨5, 5, 0, 10⟩
    ∧ nextStopMix exampleProblem 10 (1 / 2) (avgFoodWt exampleProblem (1 / 2) (1 / 2))
        90 10 = some ⟨4, 5, 1, 10⟩ := by
  decide!

/-- C15 (amended). For every ratio, village, demand counters and leftover capacity `c`, the
mix of the extension scan is the mix that the first-stop scan computes for a helicopter of
weight capacity `c` with the blended food weight raised by `1e-9`, and the village is skipped
when that mix is all zero. With `c` not negative and a positive blended food weight, the two
scans compute the same mix whenever the remaining food demand is at most
`floor(c / (blended + 1e-9))`. -/
theorem extension_mix_relation (problem : ProblemData) (c dr avg : ℚ)
    (rem_food rem_other : Int) :
    nextStopMix problem c dr avg rem_food rem_other
      = (firstStopMix problem c dr (avg + eps9) rem_food rem_other).bind nonZeroMix
    ∧ (0 ≤ c → 0 < avg → rem_food ≤ toInt (c / (avg + eps9)) →
        nextStopMix problem c dr avg rem_food rem_other
          = (firstStopMix problem c dr avg rem_food rem_other).bind nonZeroMix) := by
  refine ⟨nextStopMix_eq problem c dr avg rem_food rem_other, ?_⟩
  intro hc havg hF
  rw [nextStopMix_eq, firstStopMix_demand_limited problem c dr avg rem_food rem_other hc
    havg hF]

theorem extension_mix_relation_witness :
    nextStopMix exampleProblem 10 (1 / 2) 1 6 10
      = (firstStopMix exampleProblem 10 (1 / 2) 1 6 10).bind nonZeroMix :=
  (extension_mix_relation exampleProblem 10 (1 / 2) 1 6 10).2 (by norm_num) (by norm_num)
    (by decide!)

theorem evalDrop_cost (problem : ProblemData) (st : EvalState) (d : Drop) (c : ℚ) :
    evalDrop problem (withCost st c) d = withCost (evalDrop problem st d) c := rfl

theorem evalDrops_cost (problem : ProblemData) (drops : List Drop) (st : EvalState) (c : ℚ) :
    drops.foldl (evalDrop problem) (withCost st c)
      = withCost (drops.foldl (evalDrop problem) st) c := by
  induction drops generalizing st with
  | nil => rfl
  | cons d ds ih => rw [List.foldl_cons, List.foldl_cons, evalDrop_cost, ih]

theorem withCost_withCost (st : EvalState) (a b : ℚ) :
    withCost (withCost st a) b = withCost st b := rfl

theorem evalTrip_eq (ext : Extern) (problem : ProblemData) (helicopter : Helicopter)
    (home : Point) (st : EvalState) (t : Trip) :
    ∃ cost : ℚ, evalTrip ext problem helicopter home st t
      = withCost (t.drops.foldl (evalDrop problem) st) cost := by
  unfold evalTrip
  by_cases he : t.drops.isEmpty = true
  · rw [if_pos he]
    have : t.drops = [] := by simpa using he
    rw [this]
    exact ⟨st.ttrip_cost, rfl⟩
  · rw [if_neg he]
    exact ⟨_, evalDrops_cost problem t.drops st _⟩

/-- The evaluator meets the drops of the trips of a plan in encounter order; the trips only
add to the cost. -/
theorem evalTrips_drops (ext : Extern) (problem : ProblemData) (helicopter : Helicopter)
    (home : Point) (trips : List Trip) (st : EvalState) :
    ∃ cost : ℚ, trips.foldl (evalTrip ext problem helicopter home) st
      = withCost ((tripsDrops trips).foldl (evalDrop problem) st) cost := by
  induction trips generalizing st with
  | nil => exact ⟨st.ttrip_cost, rfl⟩
  | cons t ts ih =>
    rw [List.foldl_cons, tripsDrops, List.foldl_append]
    obtain ⟨c1, h1⟩ := evalTrip_eq ext problem helicopter home st t
    rw [h1]
    obtain ⟨c2, h2⟩ := ih (withCost (t.drops.foldl (evalDrop problem) st) c1)
    exact ⟨c2, by rw [h2, evalDrops_cost, withCost_withCost]⟩

theorem evalPlans_drops (ext : Extern) (problem : ProblemData) (s : Solution)
    (st : EvalState) :
    ∃ cost : ℚ, s.foldl (evalPlan ext problem) st
      = withCost ((allDrops s).foldl (evalDrop problem) st) cost := by
  induction s generalizing st with
  | nil => exact ⟨st.ttrip_cost, rfl⟩
  | cons p ps ih =>
    rw [List.foldl_cons, allDrops, List.foldl_append]
    obtain ⟨c1, h1⟩ := evalTrips_drops ext problem
      (vecAt problem.helicopters (p.helicopter_id - 1))
      (vecAt problem.cities
        ((vecAt problem.helicopters (p.helicopter_id - 1)).home_city_id - 1)) p.trips st
    have e1 : evalPlan ext problem st p
        = withCost ((tripsDrops p.trips).foldl (evalDrop problem) st) c1 := h1
    rw [e1]
    obtain ⟨c2, h2⟩ := ih (withCost ((tripsDrops p.trips).foldl (evalDrop problem) st) c1)
    exact ⟨c2, by rw [h2, evalDrops_cost, withCost_withCost]⟩

/-- The arithmetic of one cap: what a drop adds to the counted units. -/
theorem cap_step (a f cap : ℚ) (hf : 0 ≤ f) :
    min f (max 0 (cap - a)) = min (a + f) cap - min a cap := by
  rcases le_total cap a with h | h
  · rw [max_eq_left (by linarith), min_eq_right hf, min_eq_right (by linarith),
      min_eq_right h]
    ring
  · rw [max_eq_right (by linarith), min_eq_left h]
    rcases le_total f (cap - a) with h2 | h2
    · rw [min_eq_left h2, min_eq_left (by linarith)]
      ring
    · rw [min_eq_right h2, min_eq_right (by linarith)]

theorem foodUnits_cons (d : Drop) (ds : List Drop) (v : Int) :
    foodUnits (d :: ds) v
      = (if d.village_id = v then d.dry_food + d.perishable_food else 0)
        + foodUnits ds v := by
  have := foodUnits_append [d] ds v
  rw [foodUnits_singleton] at this
  exact this

theorem otherUnits_cons (d : Drop) (ds : List Drop) (v : Int) :
    otherUnits (d :: ds) v
      = (if d.village_id = v then d.other_supplies else 0) + otherUnits ds v := by
  have := otherUnits_append [d] ds v
  rw [otherUnits_singleton] at this
  exact this

theorem dense_id (problem : ProblemData) (hdense : DenseVillageIds problem) (k : Int)
    (hk1 : 1 ≤ k) (hkn : k ≤ problem.villages.length) :
    (vecAt problem.villages (k - 1)).id = k := by
  have h := hdense (k - 1).toNat (by omega)
  have e : (((k - 1).toNat : Nat) : Int) = k - 1 := by omega
  rw [e] at h
  rw [h]
  ring

theorem evalDrop_food (problem : ProblemData) (hdense : DenseVillageIds problem)
    (st : EvalState) (d : Drop) (hd1 : 1 ≤ d.village_id)
    (hdn : d.village_id ≤ problem.villages.length) :
    (evalDrop problem st d).food_delivered
      = vecSet st.food_delivered d.village_id
          (vecAt st.food_delivered d.village_id
            + ((d.dry_food + d.perishable_food : Int) : ℚ))
    ∧ (evalDrop problem st d).other_delivered
      = vecSet st.other_delivered d.village_id
          (vecAt st.other_delivered d.village_id + (d.other_supplies : ℚ)) := by
  constructor <;>
  · unfold evalDrop
    simp only [dense_id problem hdense d.village_id hd1 hdn]

theorem countedFood_spec (problem : ProblemData) (hdense : DenseVillageIds problem)
    (k : Int) (hk1 : 1 ≤ k) (hkn : k ≤ problem.villages.length) (drops : List Drop)
    (st : EvalState)
    (hd : ∀ d ∈ drops, 1 ≤ d.village_id ∧ d.village_id ≤ problem.villages.length
      ∧ 0 ≤ d.dry_food ∧ 0 ≤ d.perishable_food)
    (hlen : st.food_delivered.length = problem.villages.length + 1) :
    countedFood problem st drops k
      = min (vecAt st.food_delivered k + (foodUnits drops k : ℚ))
          (((vecAt problem.villages (k - 1)).population : ℚ) * 9)
        - min (vecAt st.food_delivered k)
            (((vecAt problem.villages (k - 1)).population : ℚ) * 9) := by
  induction drops generalizing st with
  | nil => simp [countedFood, foodUnits]
  | cons d ds ih =>
    obtain ⟨d1, dn, dd, dp⟩ := hd d (List.mem_cons_self _ _)
    have hds : ∀ e ∈ ds, 1 ≤ e.village_id ∧ e.village_id ≤ problem.villages.length
        ∧ 0 ≤ e.dry_food ∧ 0 ≤ e.perishable_food :=
      fun e he => hd e (List.mem_cons_of_mem _ he)
    have hfd := (evalDrop_food problem hdense st d d1 dn).1
    have hf0 : (0 : ℚ) ≤ ((d.dry_food + d.perishable_food : Int) : ℚ) := by
      exact_mod_cast (by omega : 0 ≤ d.dry_food + d.perishable_food)
    rw [countedFood, foodUnits_cons]
    by_cases hv : d.village_id = k
    · subst hv
      have hnew : vecAt (evalDrop problem st d).food_delivered d.village_id
          = vecAt st.food_delivered d.village_id
            + ((d.dry_food + d.perishable_food : Int) : ℚ) := by
        rw [hfd, vecAt_vecSet_self _ _ _ (by omega) (by omega)]
      rw [if_pos rfl, if_pos rfl, ih _ hds (by rw [hfd, vecSet_length]; exact hlen), hnew]
      have hef : effectiveFood problem st d
          = min (((d.dry_food + d.perishable_food : Int) : ℚ))
              (max 0 (((vecAt problem.villages (d.village_id - 1)).population : ℚ) * 9
                - vecAt st.food_delivered d.village_id)) := by
        unfold effectiveFood
        simp only [dense_id problem hdense d.village_id d1 dn]
      rw [hef, cap_step _ _ _ hf0]
      push_cast
      ring_nf
    · have hnew : vecAt (evalDrop problem st d).food_delivered k
          = vecAt st.food_delivered k := by
        rw [hfd, vecAt_vecSet_ne _ _ _ _ hv]
      rw [if_neg hv, if_neg hv, ih _ hds (by rw [hfd, vecSet_length]; exact hlen), hnew]
      simp

theorem countedOther_spec (problem : ProblemData) (hdense : DenseVillageIds problem)
    (k : Int) (hk1 : 1 ≤ k) (hkn : k ≤ problem.villages.length) (drops : List Drop)
    (st : EvalState)
    (hd : ∀ d ∈ drops, 1 ≤ d.village_id ∧ d.village_id ≤ problem.villages.length
      ∧ 0 ≤ d.other_supplies)
    (hlen : st.other_delivered.length = problem.villages.length + 1) :
    countedOther problem st drops k
      = min (vecAt st.other_delivered k + (otherUnits drops k : ℚ))
          (((vecAt problem.villages (k - 1)).population : ℚ) * 1)
        - min (vecAt st.other_delivered k)
            (((vecAt problem.villages (k - 1)).population : ℚ) * 1) := by
  induction drops generalizing st with
  | nil => simp [countedOther, otherUnits]
  | cons d ds ih =>
    obtain ⟨d1, dn, dd⟩ := hd d (List.mem_cons_self _ _)
    have hds : ∀ e ∈ ds, 1 ≤ e.village_id ∧ e.village_id ≤ problem.villages.length
        ∧ 0 ≤ e.other_supplies :=
      fun e he => hd e (List.mem_cons_of_mem _ he)
    have hfd := (evalDrop_food problem hdense st d d1 dn).2
    have hf0 : (0 : ℚ) ≤ (d.other_supplies : ℚ) := by exact_mod_cast dd
    rw [countedOther, otherUnits_cons]
    by_cases hv : d.village_id = k
    · subst hv
      have hnew : vecAt (evalDrop problem st d).other_delivered d.village_id
          = vecAt st.other_delivered d.village_id + (d.other_supplies : ℚ) := by
        rw [hfd, vecAt_vecSet_self _ _ _ (by omega) (by omega)]
      rw [if_pos rfl, if_pos rfl, ih _ hds (by rw [hfd, vecSet_length]; exact hlen), hnew]
      have hef : effectiveOther problem st d
          = min (d.other_supplies : ℚ)
              (max 0 (((vecAt problem.villages (d.village_id - 1)).population : ℚ) * 1
                - vecAt st.other_delivered d.village_id)) := by
        unfold effectiveOther
        simp only [dense_id problem hdense d.village_id d1 dn]
      rw [hef, cap_step _ _ _ hf0]
      push_cast
      ring_nf
    · have hnew : vecAt (evalDrop problem st d).other_delivered k
          = vecAt st.other_delivered k := by
        rw [hfd, vecAt_vecSet_ne _ _ _ _ hv]
      rw [if_neg hv, if_neg hv, ih _ hds (by rw [hfd, vecSet_length]; exact hlen), hnew]
      simp

theorem vecAt_replicate_zero (m : Nat) (k : Int) : vecAt (List.replicate m (0 : ℚ)) k = 0 := by
  unfold vecAt
  split_ifs
  · rw [List.getD_eq_getElem?_getD, List.getElem?_replicate]
    split_ifs <;> rfl
  · rfl

theorem evalDrop_value (problem : ProblemData) (st : EvalState) (d : Drop) :
    (evalDrop problem st d).tval_gained
      = st.tval_gained
        + min (d.perishable_food : ℚ) (effectiveFood problem st d)
          * (vecAt problem.packages PER).value
        + min (d.dry_food : ℚ)
            (effectiveFood problem st d
              - min (d.perishable_food : ℚ) (effectiveFood problem st d))
          * (vecAt problem.packages DRY).value
        + effectiveOther problem st d * (vecAt problem.packages OTH).value := rfl

theorem effective_split (dry per eff : ℚ) (hd : 0 ≤ dry) (he : eff ≤ dry + per) :
    min per eff + min dry (eff - min per eff) = eff := by
  rcases le_total per eff with h | h
  · rw [min_eq_left h, min_eq_right (by linarith)]
    ring
  · rw [min_eq_right h, sub_self, min_eq_right hd]
    ring

/-! ## Claim about the evaluator -/

/-- C12. With dense village ids, for every solution whose drops name villages of the problem
and have no negative quantity, and every village `k` with population `P >= 0`: the evaluator
meets the drops of all plans and trips in encounter order (the trips only add to the cost);
the food units it counts for the village (`effective_food`, summed over the drops to the
village) are `min(total dry + perishable delivered to the village, 9P)` and the other units
it counts (`effective_vo`) are `min(total other delivered, P)`; the counted food of a drop is
split into the perishable and dry units that are valued; and once `9P` food units (`P` other
units) have been delivered to the village, a later drop to it has no counted food (other)
unit, so that it adds no food (other) value. -/
theorem evaluator_caps_once_per_village (ext : Extern) (problem : ProblemData)
    (s : Solution) (k : Int) (hdense : DenseVillageIds problem)
    (hd : ∀ d ∈ allDrops s, 1 ≤ d.village_id ∧ d.village_id ≤ problem.villages.length
      ∧ 0 ≤ d.dry_food ∧ 0 ≤ d.perishable_food ∧ 0 ≤ d.other_supplies)
    (hk1 : 1 ≤ k) (hkn : k ≤ problem.villages.length)
    (hP : 0 ≤ (vecAt problem.villages (k - 1)).population) :
    (∃ cost : ℚ, s.foldl (evalPlan ext problem) (evalInit problem)
        = withCost ((allDrops s).foldl (evalDrop problem) (evalInit problem)) cost)
    ∧ countedFood problem (evalInit problem) (allDrops s) k
        = min (foodUnits (allDrops s) k : ℚ)
            (9 * ((vecAt problem.villages (k - 1)).population : ℚ))
    ∧ countedOther problem (evalInit problem) (allDrops s) k
        = min (otherUnits (allDrops s) k : ℚ)
            ((vecAt problem.villages (k - 1)).population : ℚ)
    ∧ (∀ (st : EvalState) (d : Drop), 0 ≤ d.dry_food → 0 ≤ d.perishable_food →
        (evalDrop problem st d).tval_gained
          = st.tval_gained
            + min (d.perishable_food : ℚ) (effectiveFood problem st d)
              * (vecAt problem.packages PER).value
            + min (d.dry_food : ℚ)
                (effectiveFood problem st d
                  - min (d.perishable_food : ℚ) (effectiveFood problem st d))
              * (vecAt problem.packages DRY).value
            + effectiveOther problem st d * (vecAt problem.packages OTH).value
        ∧ min (d.perishable_food : ℚ) (effectiveFood problem st d)
            + min (d.dry_food : ℚ)
                (effectiveFood problem st d
                  - min (d.perishable_food : ℚ) (effectiveFood problem st d))
          = effectiveFood problem st d)
    ∧ (∀ (st : EvalState) (d : Drop), d.village_id = k → 0 ≤ d.dry_food →
        0 ≤ d.perishable_food →
        9 * ((vecAt problem.villages (k - 1)).population : ℚ) ≤ vecAt st.food_delivered k →
        effectiveFood problem st d = 0
        ∧ (evalDrop problem st d).tval_gained
          = st.tval_gained + effectiveOther problem st d * (vecAt problem.packages OTH).value)
    ∧ (∀ (st : EvalState) (d : Drop), d.village_id = k → 0 ≤ d.other_supplies →
        ((vecAt problem.villages (k - 1)).population : ℚ) ≤ vecAt st.other_delivered k →
        effectiveOther problem st d = 0) := by
  have hPq : (0 : ℚ) ≤ ((vecAt problem.villages (k - 1)).population : ℚ) := by
    exact_mod_cast hP
  refine ⟨evalPlans_drops ext problem s (evalInit problem), ?_, ?_, ?_, ?_, ?_⟩
  · rw [countedFood_spec problem hdense k hk1 hkn (allDrops s) (evalInit problem)
      (fun d h => ⟨(hd d h).1, (hd d h).2.1, (hd d h).2.2.1, (hd d h).2.2.2.1⟩)
      (by simp [evalInit])]
    have e0 : vecAt (evalInit problem).food_delivered k = 0 := vecAt_replicate_zero _ k
    have e1 : min (0 : ℚ) (((vecAt problem.villages (k - 1)).population : ℚ) * 9) = 0 :=
      min_eq_left (by linarith)
    rw [e0, zero_add, e1, sub_zero, mul_comm]
  · rw [countedOther_spec problem hdense k hk1 hkn (allDrops s) (evalInit problem)
      (fun d h => ⟨(hd d h).1, (hd d h).2.1, (hd d h).2.2.2.2⟩)
      (by simp [evalInit])]
    have e0 : vecAt (evalInit problem).other_delivered k = 0 := vecAt_replicate_zero _ k
    have e1 : min (0 : ℚ) (((vecAt problem.villages (k - 1)).population : ℚ) * 1) = 0 :=
      min_eq_left (by linarith)
    rw [e0, zero_add, e1, sub_zero, mul_one]
  · intro st d hdry hper
    refine ⟨evalDrop_value problem st d, ?_⟩
    apply effective_split _ _ _ (by exact_mod_cast hdry)
    unfold effectiveFood
    simp only []
    refine le_trans (min_le_left _ _) ?_
    push_cast
    exact le_refl _
  · intro st d hv hdry hper hfull
    subst hv
    have hid := dense_id problem hdense d.village_id hk1 hkn
    have hf0 : (0 : ℚ) ≤ ((d.dry_food + d.perishable_food : Int) : ℚ) := by
      exact_mod_cast (by omega : 0 ≤ d.dry_food + d.perishable_food)
    have he : effectiveFood problem st d = 0 := by
      unfold effectiveFood
      simp only [hid]
      rw [max_eq_left (by linarith), min_eq_right hf0]
    refine ⟨he, ?_⟩
    rw [evalDrop_value, he]
    have hp : (0 : ℚ) ≤ (d.perishable_food : ℚ) := by exact_mod_cast hper
    have hdq : (0 : ℚ) ≤ (d.dry_food : ℚ) := by exact_mod_cast hdry
    rw [min_eq_right hp, sub_zero, min_eq_right hdq]
    ring
  · intro st d hv hoth hfull
    subst hv
    have hid := dense_id problem hdense d.village_id hk1 hkn
    have ho : (0 : ℚ) ≤ (d.other_supplies : ℚ) := by exact_mod_cast hoth
    unfold effectiveOther
    simp only [hid]
    rw [max_eq_left (by linarith), min_eq_right ho]

theorem evaluator_caps_once_per_village_witness :
    countedFood exampleProblem (evalInit exampleProblem) (allDrops [examplePlan]) 1 = 90
    ∧ countedOther exampleProblem (evalInit exampleProblem) (allDrops [examplePlan]) 1 = 10 :=
  ⟨((evaluator_caps_once_per_village exampleExtern exampleProblem [examplePlan] 1
      (by intro i hi
          have : i = 0 := by simpa [exampleProblem] using hi
          subst this
          rfl)
      (by decide!) (by decide) (by decide!) (by decide!)).2.1).trans (by decide!),
    ((evaluator_caps_once_per_village exampleExtern exampleProblem [examplePlan] 1
      (by intro i hi
          have : i = 0 := by simpa [exampleProblem] using hi
          subst this
          rfl)
      (by decide!) (by decide) (by decide!) (by decide!)).2.2.1).trans (by decide!)⟩

/-! ## Constructed trips pass the validation pass -/

theorem twoVillageProblem_wellFormed : WellFormed twoVillageProblem := by
  refine ⟨?_, ?_, ?_⟩
  · intro v hv
    simp only [twoVillageProblem, List.mem_cons, List.mem_singleton, List.not_mem_nil,
      or_false] at hv
    rcases hv with rfl | rfl <;> decide
  · intro h hh
    simp only [twoVillageProblem, List.mem_singleton] at hh
    subst hh
    decide!
  · intro i hi
    have : i = 0 ∨ i = 1 := by
      simp only [twoVillageProblem, List.length_cons, List.length_nil] at hi
      omega
    rcases this with rfl | rfl <;> rfl

theorem twoVillageProblem_denseHelicopters : DenseHelicopterIds twoVillageProblem := by
  intro i hi
  have : i = 0 := by simpa [twoVillageProblem] using hi
  subst this
  rfl

theorem twoVillageProblem_costs :
    ∀ h ∈ twoVillageProblem.helicopters, 0 ≤ h.fixed_cost ∧ 0 ≤ h.alpha := by
  intro h hh
  simp only [twoVillageProblem, List.mem_singleton] at hh
  subst hh
  decide!

/-! ## The score of a constructed candidate is the sum of the accepted net values -/

theorem pow2_eq (e : Int) : pow2 e = (2 : ℚ) ^ e := by
  unfold pow2
  split_ifs with h
  · obtain ⟨n, rfl⟩ := Int.eq_ofNat_of_zero_le h
    simp
  · obtain ⟨n, hn⟩ : ∃ n : Nat, e = -(n : Int) := ⟨(-e).toNat, by omega⟩
    subst hn
    simp

theorem bitsAux_spec : ∀ (fuel n : Nat), n ≤ fuel → n ≠ 0 →
    2 ^ (bitsAux fuel n - 1) ≤ n ∧ n < 2 ^ bitsAux fuel n := by
  intro fuel
  induction fuel with
  | zero => intro n h1 h2; omega
  | succ fuel ih =>
    intro n h1 h2
    rw [bitsAux, if_neg h2]
    by_cases h : n / 2 = 0
    · have hn : n = 1 := by omega
      subst hn
      have : bitsAux fuel (1 / 2) = 0 := by
        cases fuel with
        | zero => rfl
        | succ f => rw [bitsAux]; simp
      rw [this]
      simp
    · obtain ⟨a, b⟩ := ih (n / 2) (by omega) h
      have hb : 1 ≤ bitsAux fuel (n / 2) := by
        by_contra hc
        have : bitsAux fuel (n / 2) = 0 := by omega
        rw [this] at b
        simp at b
        exact h b
      obtain ⟨k, hk⟩ : ∃ k, bitsAux fuel (n / 2) = k + 1 := ⟨bitsAux fuel (n / 2) - 1, by omega⟩
      rw [hk] at a b ⊢
      simp only [Nat.add_sub_cancel] at a ⊢
      constructor
      · rw [pow_succ]; omega
      · rw [pow_succ] at b ⊢; omega

theorem bits_spec (n : Nat) (h : n ≠ 0) : 2 ^ (bits n - 1) ≤ n ∧ n < 2 ^ bits n :=
  bitsAux_spec n n (le_refl n) h

theorem bits_pos (n : Nat) (h : n ≠ 0) : 1 ≤ bits n := by
  by_contra hc
  have h0 : bits n = 0 := by omega
  have := (bits_spec n h).2
  rw [h0] at this
  simp at this
  exact h this

theorem binade_spec (q : ℚ) (hq : q ≠ 0) :
    (2 : ℚ) ^ binade q ≤ |q| ∧ |q| < (2 : ℚ) ^ (binade q + 1) := by
  have ha0 : q.num.natAbs ≠ 0 := by
    intro h
    exact hq (Rat.zero_of_num_zero (Int.natAbs_eq_zero.mp h))
  have hb0 : q.den ≠ 0 := q.den_nz
  obtain ⟨a1, a2⟩ := bits_spec _ ha0
  obtain ⟨b1, b2⟩ := bits_spec _ hb0
  have hla := bits_pos _ ha0
  have hlb := bits_pos _ hb0
  obtain ⟨la, hla2⟩ : ∃ k, bits q.num.natAbs = k + 1 := ⟨_, (Nat.sub_add_cancel hla).symm⟩
  obtain ⟨lb, hlb2⟩ : ∃ k, bits q.den = k + 1 := ⟨_, (Nat.sub_add_cancel hlb).symm⟩
  rw [hla2] at a1 a2
  rw [hlb2] at b1 b2
  simp only [Nat.add_sub_cancel] at a1 b1
  have habs : |q| = (q.num.natAbs : ℚ) / (q.den : ℚ) := by
    conv_lhs => rw [← Rat.num_div_den q]
    rw [abs_div, Nat.abs_cast, Nat.cast_natAbs, Int.cast_abs]
  have hbpos : (0 : ℚ) < (q.den : ℚ) := by exact_mod_cast Nat.pos_of_ne_zero hb0
  have A1 : ((2 : ℚ) ^ la) ≤ (q.num.natAbs : ℚ) := by exact_mod_cast a1
  have A2 : (q.num.natAbs : ℚ) < (2 : ℚ) ^ (la + 1) := by exact_mod_cast a2
  have B1 : ((2 : ℚ) ^ lb) ≤ (q.den : ℚ) := by exact_mod_cast b1
  have B2 : (q.den : ℚ) < (2 : ℚ) ^ (lb + 1) := by exact_mod_cast b2
  have two0 : (2 : ℚ) ≠ 0 := by norm_num
  -- the two bounds on |q|
  have up : |q| < (2 : ℚ) ^ ((la : Int) - lb + 1) := by
    rw [habs, div_lt_iff₀ hbpos]
    have e : (2 : ℚ) ^ ((la : Int) - lb + 1) * (2 : ℚ) ^ lb = (2 : ℚ) ^ (la + 1) := by
      rw [← zpow_natCast (2 : ℚ) lb, ← zpow_add₀ two0, ← zpow_natCast]
      congr 1
      push_cast
      ring
    have p : (0 : ℚ) < (2 : ℚ) ^ ((la : Int) - lb + 1) := zpow_pos (by norm_num) _
    calc (q.num.natAbs : ℚ) < (2 : ℚ) ^ (la + 1) := A2
      _ = (2 : ℚ) ^ ((la : Int) - lb + 1) * (2 : ℚ) ^ lb := e.symm
      _ ≤ (2 : ℚ) ^ ((la : Int) - lb + 1) * (q.den : ℚ) := by
        exact mul_le_mul_of_nonneg_left B1 (le_of_lt p)
  have low : (2 : ℚ) ^ ((la : Int) - lb - 1) ≤ |q| := by
    rw [habs, le_div_iff₀ hbpos]
    have e : (2 : ℚ) ^ ((la : Int) - lb - 1) * (2 : ℚ) ^ (lb + 1) = (2 : ℚ) ^ la := by
      rw [← zpow_natCast (2 : ℚ) (lb + 1), ← zpow_add₀ two0, ← zpow_natCast]
      congr 1
      push_cast
      ring
    have p : (0 : ℚ) < (2 : ℚ) ^ ((la : Int) - lb - 1) := zpow_pos (by norm_num) _
    calc (2 : ℚ) ^ ((la : Int) - lb - 1) * (q.den : ℚ)
        ≤ (2 : ℚ) ^ ((la : Int) - lb - 1) * (2 : ℚ) ^ (lb + 1) :=
          mul_le_mul_of_nonneg_left (le_of_lt B2) (le_of_lt p)
      _ = (2 : ℚ) ^ la := e
      _ ≤ (q.num.natAbs : ℚ) := A1
  have he0 : ((bits q.num.natAbs : Int) - (bits q.den : Int)) = (la : Int) - lb := by
    rw [hla2, hlb2]; push_cast; ring
  unfold binade
  simp only [he0, pow2_eq]
  split_ifs with h
  · exact ⟨h, up⟩
  · refine ⟨low, ?_⟩
    rw [sub_add_cancel]
    exact not_le.mp h

theorem binade_unique (q : ℚ) (e : Int) (h1 : (2 : ℚ) ^ e ≤ |q|)
    (h2 : |q| < (2 : ℚ) ^ (e + 1)) : binade q = e := by
  have hq : q ≠ 0 := by
    intro h
    rw [h, abs_zero] at h1
    exact absurd h1 (not_le.mpr (zpow_pos (by norm_num) _))
  obtain ⟨b1, b2⟩ := binade_spec q hq
  have one2 : (1 : ℚ) < 2 := by norm_num
  have c1 : (2 : ℚ) ^ e < (2 : ℚ) ^ (binade q + 1) := lt_of_le_of_lt h1 b2
  have c2 : (2 : ℚ) ^ binade q < (2 : ℚ) ^ (e + 1) := lt_of_le_of_lt b1 h2
  rw [zpow_lt_zpow_iff_right₀ one2] at c1 c2
  omega

theorem roundEven_bounds (q : ℚ) : ⌊q⌋ ≤ roundEven q ∧ roundEven q ≤ ⌊q⌋ + 1 := by
  unfold roundEven
  split_ifs <;> constructor <;> omega

theorem roundEven_int (n : Int) : roundEven (n : ℚ) = n := by
  unfold roundEven
  rw [Int.floor_intCast]
  simp

theorem roundEven_mono (x y : ℚ) (h : x ≤ y) : roundEven x ≤ roundEven y := by
  have hf : ⌊x⌋ ≤ ⌊y⌋ := Int.floor_le_floor h
  rcases lt_or_eq_of_le hf with hlt | heq
  · have a := (roundEven_bounds x).2
    have b := (roundEven_bounds y).1
    omega
  · unfold roundEven
    rw [← heq]
    have hxy : x - (⌊x⌋ : ℚ) ≤ y - (⌊x⌋ : ℚ) := by linarith
    split_ifs <;> first | omega | (exfalso; linarith)

theorem roundEven_neg (q : ℚ) : roundEven (-q) = -roundEven q := by
  have h0 : (0 : ℚ) ≤ q - ⌊q⌋ := by linarith [Int.floor_le q]
  have h1 : q - ⌊q⌋ < 1 := by linarith [Int.lt_floor_add_one q]
  by_cases hz : q - ⌊q⌋ = 0
  · have hq : q = ((⌊q⌋ : Int) : ℚ) := by linarith
    rw [hq, ← Int.cast_neg, roundEven_int, roundEven_int]
  · have hpos : 0 < q - ⌊q⌋ := lt_of_le_of_ne h0 (Ne.symm hz)
    have hfl : ⌊-q⌋ = -⌊q⌋ - 1 := by
      rw [Int.floor_eq_iff]
      push_cast
      constructor <;> linarith
    unfold roundEven
    rw [hfl]
    push_cast
    split_ifs <;> first | omega | (exfalso; linarith)

theorem binade_neg (q : ℚ) : binade (-q) = binade q := by
  unfold binade
  simp only [Rat.neg_num, Rat.neg_den, Int.natAbs_neg, abs_neg]

theorem fl64_neg (q : ℚ) : fl64 (-q) = -fl64 q := by
  unfold fl64
  by_cases h : q = 0
  · simp [h]
  · rw [if_neg h, if_neg (neg_ne_zero.mpr h), binade_neg, neg_div, roundEven_neg]
    push_cast
    ring

theorem fl64_zero : fl64 0 = 0 := by simp [fl64]

theorem pow2_pos (e : Int) : 0 < pow2 e := by
  rw [pow2_eq]
  exact zpow_pos (by norm_num) _

theorem two_pow_52 : ((4503599627370496 : Int) : ℚ) = (2 : ℚ) ^ (52 : Int) := by norm_num

theorem two_pow_53 : ((9007199254740992 : Int) : ℚ) = (2 : ℚ) ^ (53 : Int) := by norm_num

/-- The scaled significand of a positive rational lies in `[2^52, 2^53)`. -/
theorem scaled_bounds (q : ℚ) (hq : 0 < q) :
    (2 : ℚ) ^ (52 : Int) ≤ q / pow2 (binade q - 52)
    ∧ q / pow2 (binade q - 52) < (2 : ℚ) ^ (53 : Int) := by
  obtain ⟨b1, b2⟩ := binade_spec q (ne_of_gt hq)
  rw [abs_of_pos hq] at b1 b2
  have two0 : (2 : ℚ) ≠ 0 := by norm_num
  have hs := pow2_pos (binade q - 52)
  constructor
  · rw [le_div_iff₀ hs, pow2_eq, ← zpow_add₀ two0]
    have : (52 : Int) + (binade q - 52) = binade q := by ring
    rw [this]
    exact b1
  · rw [div_lt_iff₀ hs, pow2_eq, ← zpow_add₀ two0]
    have : (53 : Int) + (binade q - 52) = binade q + 1 := by ring
    rw [this]
    exact b2

theorem significand_bounds (q : ℚ) (hq : 0 < q) :
    4503599627370496 ≤ roundEven (q / pow2 (binade q - 52))
    ∧ roundEven (q / pow2 (binade q - 52)) ≤ 9007199254740992 := by
  obtain ⟨s1, s2⟩ := scaled_bounds q hq
  constructor
  · have := roundEven_mono _ _ (by rw [two_pow_52]; exact s1 :
      ((4503599627370496 : Int) : ℚ) ≤ q / pow2 (binade q - 52))
    rwa [roundEven_int] at this
  · have := roundEven_mono _ _ (by rw [two_pow_53]; exact le_of_lt s2 :
      q / pow2 (binade q - 52) ≤ ((9007199254740992 : Int) : ℚ))
    rwa [roundEven_int] at this

theorem fl64_pos_bounds (q : ℚ) (hq : 0 < q) :
    (2 : ℚ) ^ binade q ≤ fl64 q ∧ fl64 q ≤ (2 : ℚ) ^ (binade q + 1) := by
  obtain ⟨m1, m2⟩ := significand_bounds q hq
  have two0 : (2 : ℚ) ≠ 0 := by norm_num
  have hs := pow2_pos (binade q - 52)
  rw [fl64, if_neg (ne_of_gt hq)]
  have e1 : (2 : ℚ) ^ binade q = (2 : ℚ) ^ (52 : Int) * pow2 (binade q - 52) := by
    rw [pow2_eq, ← zpow_add₀ two0]
    congr 1
    ring
  have e2 : (2 : ℚ) ^ (binade q + 1) = (2 : ℚ) ^ (53 : Int) * pow2 (binade q - 52) := by
    rw [pow2_eq, ← zpow_add₀ two0]
    congr 1
    ring
  rw [e1, e2, ← two_pow_52, ← two_pow_53]
  constructor
  · exact mul_le_mul_of_nonneg_right (by exact_mod_cast m1) (le_of_lt hs)
  · exact mul_le_mul_of_nonneg_right (by exact_mod_cast m2) (le_of_lt hs)

theorem fl64_pos (q : ℚ) (hq : 0 < q) : 0 < fl64 q :=
  lt_of_lt_of_le (zpow_pos (by norm_num) _) (fl64_pos_bounds q hq).1

theorem binade_mono (x y : ℚ) (hx : 0 < x) (h : x ≤ y) : binade x ≤ binade y := by
  have hy : 0 < y := lt_of_lt_of_le hx h
  obtain ⟨a1, _⟩ := binade_spec x (ne_of_gt hx)
  obtain ⟨_, b2⟩ := binade_spec y (ne_of_gt hy)
  rw [abs_of_pos hx] at a1
  rw [abs_of_pos hy] at b2
  have : (2 : ℚ) ^ binade x < (2 : ℚ) ^ (binade y + 1) := lt_of_le_of_lt (le_trans a1 h) b2
  rw [zpow_lt_zpow_iff_right₀ (by norm_num : (1 : ℚ) < 2)] at this
  omega

theorem fl64_mono_pos (x y : ℚ) (hx : 0 < x) (h : x ≤ y) : fl64 x ≤ fl64 y := by
  have hy : 0 < y := lt_of_lt_of_le hx h
  rcases lt_or_eq_of_le (binade_mono x y hx h) with hlt | heq
  · have a := (fl64_pos_bounds x hx).2
    have b := (fl64_pos_bounds y hy).1
    have c : (2 : ℚ) ^ (binade x + 1) ≤ (2 : ℚ) ^ binade y :=
      zpow_le_zpow_right₀ (by norm_num) (by omega)
    linarith
  · rw [fl64, fl64, if_neg (ne_of_gt hx), if_neg (ne_of_gt hy), heq]
    have hs := pow2_pos (binade y - 52)
    have hd : x / pow2 (binade y - 52) ≤ y / pow2 (binade y - 52) :=
      div_le_div_of_nonneg_right h (le_of_lt hs)
    have := roundEven_mono _ _ hd
    exact mul_le_mul_of_nonneg_right (by exact_mod_cast this) (le_of_lt hs)

theorem fl64_mono (x y : ℚ) (h : x ≤ y) : fl64 x ≤ fl64 y := by
  rcases lt_trichotomy x 0 with hx | hx | hx
  · rcases lt_trichotomy y 0 with hy | hy | hy
    · have := fl64_mono_pos (-y) (-x) (by linarith) (by linarith)
      rw [fl64_neg, fl64_neg] at this
      linarith
    · have := fl64_pos (-x) (by linarith)
      rw [fl64_neg] at this
      rw [hy, fl64_zero]
      linarith
    · have a := fl64_pos (-x) (by linarith)
      rw [fl64_neg] at a
      have b := fl64_pos y hy
      linarith
  · subst hx
    rcases lt_or_eq_of_le h with hy | hy
    · rw [fl64_zero]
      exact le_of_lt (fl64_pos y hy)
    · rw [← hy]
  · exact fl64_mono_pos x y hx h

theorem fl64_of_binade (q : ℚ) (e : Int) (h1 : (2 : ℚ) ^ e ≤ |q|)
    (h2 : |q| < (2 : ℚ) ^ (e + 1)) :
    fl64 q = (roundEven (q / (2 : ℚ) ^ (e - 52)) : ℚ) * (2 : ℚ) ^ (e - 52) := by
  have hq : q ≠ 0 := by
    intro h
    rw [h, abs_zero] at h1
    exact absurd h1 (not_le.mpr (zpow_pos (by norm_num) _))
  rw [fl64, if_neg hq, binade_unique q e h1 h2, pow2_eq]

/-- A significand of at most 53 bits times a power of two is not changed by the rounding. -/
theorem fl64_representable (m : Int) (k : Int) (hm : |m| ≤ 9007199254740992) :
    fl64 ((m : ℚ) * (2 : ℚ) ^ k) = (m : ℚ) * (2 : ℚ) ^ k := by
  have two0 : (2 : ℚ) ≠ 0 := by norm_num
  have hk : (0 : ℚ) < (2 : ℚ) ^ k := zpow_pos (by norm_num) _
  -- it is enough to treat a positive significand
  have key : ∀ n : Int, 0 < n → n ≤ 9007199254740992 →
      fl64 ((n : ℚ) * (2 : ℚ) ^ k) = (n : ℚ) * (2 : ℚ) ^ k := by
    intro n hn0 hn
    have hnq : (0 : ℚ) < (n : ℚ) := by exact_mod_cast hn0
    have hpos : 0 < (n : ℚ) * (2 : ℚ) ^ k := mul_pos hnq hk
    set e := binade ((n : ℚ) * (2 : ℚ) ^ k) with he
    obtain ⟨b1, b2⟩ := binade_spec _ (ne_of_gt hpos)
    rw [abs_of_pos hpos, ← he] at b1 b2
    -- 2^(e-k) <= n < 2^(e-k+1)
    have c1 : (2 : ℚ) ^ (e - k) ≤ (n : ℚ) := by
      rw [zpow_sub₀ two0, div_le_iff₀ hk]
      exact b1
    have c2 : (n : ℚ) < (2 : ℚ) ^ (e - k + 1) := by
      have : (2 : ℚ) ^ (e - k + 1) = (2 : ℚ) ^ (e + 1) / (2 : ℚ) ^ k := by
        rw [← zpow_sub₀ two0]
        congr 1
        ring
      rw [this, lt_div_iff₀ hk]
      exact b2
    have hle : e - k ≤ 53 := by
      have : (2 : ℚ) ^ (e - k) ≤ (2 : ℚ) ^ (53 : Int) := by
        rw [← two_pow_53]
        exact le_trans c1 (by exact_mod_cast hn)
      rwa [zpow_le_zpow_iff_right₀ (by norm_num : (1 : ℚ) < 2)] at this
    rw [fl64, if_neg (ne_of_gt hpos), ← he, pow2_eq]
    rcases lt_or_eq_of_le hle with hlt | heq
    · -- the scaled value is the integer n * 2^(52 - (e - k))
      obtain ⟨j, hj⟩ : ∃ j : Nat, (j : Int) = 52 - (e - k) := ⟨(52 - (e - k)).toNat, by omega⟩
      have hdiv : (n : ℚ) * (2 : ℚ) ^ k / (2 : ℚ) ^ (e - 52)
          = ((n * 2 ^ j : Int) : ℚ) := by
        rw [mul_div_assoc, ← zpow_sub₀ two0]
        have : k - (e - 52) = (j : Int) := by omega
        rw [this, zpow_natCast]
        push_cast
        ring
      rw [hdiv, roundEven_int]
      push_cast
      rw [mul_assoc, ← zpow_natCast, ← zpow_add₀ two0]
      congr 2
      omega
    · -- n = 2^53
      have hn53 : n = 9007199254740992 := by
        have : (2 : ℚ) ^ (53 : Int) ≤ (n : ℚ) := by rw [← heq]; exact c1
        rw [← two_pow_53] at this
        have : (9007199254740992 : Int) ≤ n := by exact_mod_cast this
        omega
      have hk2 : e - 52 = k + 1 := by omega
      have hdiv : (n : ℚ) * (2 : ℚ) ^ k / (2 : ℚ) ^ (e - 52)
          = ((4503599627370496 : Int) : ℚ) := by
        rw [hk2, zpow_add₀ two0, hn53]
        field_simp
        ring
      rw [hdiv, roundEven_int, hk2, zpow_add₀ two0, hn53]
      push_cast
      ring
  rcases lt_trichotomy m 0 with h | h | h
  · have := key (-m) (by omega) (by rw [abs_of_neg h] at hm; omega)
    push_cast at this
    rw [neg_mul, fl64_neg] at this
    linarith
  · subst h
    simp [fl64_zero]
  · exact key m h (by rw [abs_of_pos h] at hm; exact hm)

theorem fl64_int (n : Int) (hn : |n| ≤ 9007199254740992) : fl64 (n : ℚ) = n := by
  have := fl64_representable n 0 hn
  simpa using this

theorem fl64_idem (q : ℚ) : fl64 (fl64 q) = fl64 q := by
  have two0 : (2 : ℚ) ≠ 0 := by norm_num
  have key : ∀ x : ℚ, 0 < x → fl64 (fl64 x) = fl64 x := by
    intro x hx
    obtain ⟨m1, m2⟩ := significand_bounds x hx
    have e : fl64 x = (roundEven (x / pow2 (binade x - 52)) : ℚ) * (2 : ℚ) ^ (binade x - 52) := by
      rw [fl64, if_neg (ne_of_gt hx), pow2_eq]
    rw [e]
    exact fl64_representable _ _ (by rw [abs_of_pos (by omega)]; exact m2)
  rcases lt_trichotomy q 0 with h | h | h
  · have := key (-q) (by linarith)
    rw [fl64_neg, fl64_neg] at this
    linarith
  · subst h
    rw [fl64_zero, fl64_zero]
  · exact key q h

/-! ## Machine arithmetic: the rounding and the conversions -/

theorem rounding_fl64 : Rounding fl64 :=
  ⟨fl64_mono, fl64_int, fl64_idem⟩

theorem rounding_zero {fl : ℚ → ℚ} (hfl : Rounding fl) : fl 0 = 0 := by
  have := hfl.exact_int 0 (by norm_num)
  simpa using this

theorem rounding_nonneg {fl : ℚ → ℚ} (hfl : Rounding fl) (x : ℚ) (hx : 0 ≤ x) : 0 ≤ fl x := by
  have := hfl.mono 0 x hx
  rwa [rounding_zero hfl] at this

theorem rounding_le_int {fl : ℚ → ℚ} (hfl : Rounding fl) (x : ℚ) (n : Int)
    (hn : |n| ≤ 9007199254740992) (hx : x ≤ (n : ℚ)) : fl x ≤ (n : ℚ) := by
  have := hfl.mono x n hx
  rwa [hfl.exact_int n hn] at this

theorem wrap32_of_range (x : Int) (h1 : -2147483648 ≤ x) (h2 : x ≤ 2147483647) :
    wrap32 x = x := by
  unfold wrap32
  omega

theorem castInt_of_range (q : ℚ) (h0 : 0 ≤ q) (h1 : q < 2147483648) : castInt q = ⌊q⌋ := by
  unfold castInt
  rw [if_pos ⟨by linarith, h1⟩, toInt_eq_floor q h0]

/-! ## The value model in machine arithmetic -/

/-- Closed form of the machine `calculateVillageValue` when no `int` wraps. -/
theorem machine_value_closed (fl : ℚ → ℚ) (hfl : Rounding fl) (village : Village)
    (dry per oth : Int) (packages : List PackageInfo) (hP : 0 ≤ village.population)
    (hP9 : 9 * village.population ≤ 2147483647) (hd : 0 ≤ dry) (hp : 0 ≤ per)
    (hsum : dry + per ≤ 2147483647) :
    Machine.calculateVillageValue fl village dry per oth packages
      = fl (fl (fl (((min per (9 * village.population) : Int) : ℚ)
                * (vecAt packages PER).value)
              + fl (((min dry (9 * village.population
                    - min per (9 * village.population)) : Int) : ℚ)
                * (vecAt packages DRY).value))
          + fl (((min oth village.population : Int) : ℚ) * (vecAt packages OTH).value)) := by
  unfold Machine.calculateVillageValue
  simp only []
  rw [wrap32_of_range (9 * village.population) (by omega) hP9,
    wrap32_of_range (dry + per) (by omega) hsum]
  by_cases h : min (dry + per) (9 * village.population) > 0
  · rw [if_pos h]
    have e1 : min per (min (dry + per) (9 * village.population))
        = min per (9 * village.population) := by omega
    rw [e1, wrap32_of_range _ (by omega) (by omega)]
    have e2 : min dry (min (dry + per) (9 * village.population)
          - min per (9 * village.population))
        = min dry (9 * village.population - min per (9 * village.population)) := by omega
    rw [e2, zero_add, hfl.idem]
  · rw [if_neg h]
    have e1 : min per (9 * village.population) = 0 := by omega
    have e2 : min dry (9 * village.population - min per (9 * village.population)) = 0 := by
      omega
    rw [e2, e1]
    simp only [Int.cast_zero, zero_mul, rounding_zero hfl, add_zero]

theorem whole_eq (q : ℚ) (h : Whole q) : q = (q.num : ℚ) ∧ |q.num| ≤ 1048576 := by
  obtain ⟨h1, h2⟩ := h
  constructor
  · exact (Rat.den_eq_one_iff q).mp h1 |>.symm
  · rw [Int.abs_eq_natAbs]
    exact_mod_cast h2

/-- The product of an `int` and a whole number is not changed by the rounding. -/
theorem rounding_mul_whole {fl : ℚ → ℚ} (hfl : Rounding fl) (n : Int) (v : ℚ) (hv : Whole v)
    (hn : |n| ≤ 2147483648) :
    fl ((n : ℚ) * v) = (n : ℚ) * v ∧ ∃ m : Int, (n : ℚ) * v = (m : ℚ) ∧ |m| ≤ 2251799813685248 := by
  obtain ⟨e, hb⟩ := whole_eq v hv
  have hm : |n * v.num| ≤ 2251799813685248 := by
    rw [abs_mul]
    calc |n| * |v.num| ≤ 2147483648 * 1048576 :=
          mul_le_mul hn hb (abs_nonneg _) (by norm_num)
      _ = 2251799813685248 := by norm_num
  have ec : (n : ℚ) * v = ((n * v.num : Int) : ℚ) := by
    push_cast
    rw [← e]
  refine ⟨?_, n * v.num, ec, hm⟩
  rw [ec]
  exact hfl.exact_int _ (le_trans hm (by norm_num))

/-- With whole unit values the machine value is the exact value. -/
theorem machine_value_exact (fl : ℚ → ℚ) (hfl : Rounding fl) (village : Village)
    (dry per oth : Int) (packages : List PackageInfo) (hP : 0 ≤ village.population)
    (hP9 : 9 * village.population ≤ 2147483647) (hd : 0 ≤ dry) (hp : 0 ≤ per)
    (hsum : dry + per ≤ 2147483647) (ho1 : -2147483648 ≤ oth)
    (hvd : Whole (vecAt packages DRY).value) (hvp : Whole (vecAt packages PER).value)
    (hvo : Whole (vecAt packages OTH).value) :
    Machine.calculateVillageValue fl village dry per oth packages
      = calculateVillageValue village dry per oth packages := by
  rw [machine_value_closed fl hfl village dry per oth packages hP hP9 hd hp hsum,
    calculateVillageValue_closed village dry per oth packages hP hd hp]
  obtain ⟨a1, m1, a2, a3⟩ := rounding_mul_whole hfl (min per (9 * village.population)) _ hvp
    (by rw [abs_of_nonneg (by omega)]; omega)
  obtain ⟨b1, m2, b2, b3⟩ := rounding_mul_whole hfl
    (min dry (9 * village.population - min per (9 * village.population))) _ hvd
    (by rw [abs_of_nonneg (by omega)]; omega)
  obtain ⟨c1, m3, c2, c3⟩ := rounding_mul_whole hfl (min oth village.population) _ hvo
    (by rw [abs_le]; constructor <;> omega)
  rw [a1, b1, c1, a2, b2, c2]
  have s1 : fl ((m1 : ℚ) + (m2 : ℚ)) = (m1 : ℚ) + (m2 : ℚ) := by
    have := hfl.exact_int (m1 + m2) (by
      have := abs_add m1 m2
      omega)
    push_cast at this
    exact this
  rw [s1]
  have s2 : fl ((m1 : ℚ) + (m2 : ℚ) + (m3 : ℚ)) = (m1 : ℚ) + (m2 : ℚ) + (m3 : ℚ) := by
    have := hfl.exact_int (m1 + m2 + m3) (by
      have h1 := abs_add (m1 + m2) m3
      have h2 := abs_add m1 m2
      omega)
    push_cast at this
    exact this
  rw [s2]

/-- The machine value does not decrease when the three counted quantities do not. -/
theorem machine_sum_mono (fl : ℚ → ℚ) (hfl : Rounding fl) (packages : List PackageInfo)
    (hvd : 0 ≤ (vecAt packages DRY).value) (hvp : 0 ≤ (vecAt packages PER).value)
    (hvo : 0 ≤ (vecAt packages OTH).value) (p d o p2 d2 o2 : Int) (hp : p ≤ p2)
    (hd : d ≤ d2) (ho : o ≤ o2) :
    fl (fl (fl ((p : ℚ) * (vecAt packages PER).value)
            + fl ((d : ℚ) * (vecAt packages DRY).value))
        + fl ((o : ℚ) * (vecAt packages OTH).value))
      ≤ fl (fl (fl ((p2 : ℚ) * (vecAt packages PER).value)
            + fl ((d2 : ℚ) * (vecAt packages DRY).value))
        + fl ((o2 : ℚ) * (vecAt packages OTH).value)) := by
  have a := hfl.mono _ _ (mul_le_mul_of_nonneg_right (by exact_mod_cast hp : (p : ℚ) ≤ p2) hvp)
  have b := hfl.mono _ _ (mul_le_mul_of_nonneg_right (by exact_mod_cast hd : (d : ℚ) ≤ d2) hvd)
  have c := hfl.mono _ _ (mul_le_mul_of_nonneg_right (by exact_mod_cast ho : (o : ℚ) ≤ o2) hvo)
  exact hfl.mono _ _ (add_le_add (hfl.mono _ _ (add_le_add a b)) c)

/-! ## Claims about the value model -/

/-- C4 (counterexample). For a village of population 238609295 the product `9 x population`
is above `INT_MAX` and wraps to a negative `int`: with 50 dry, 60 perishable and 12 other
units and unit values 1, 2 and 1, `calculateVillageValue` returns 12, while the claimed
formula, the spec's `deliveryValue` with nothing already counted, gives 182. -/
theorem calculateVillageValue_overflow :
    (0 : Int) ≤ (Village.mk 1 238609295 ⟨0, 0⟩).population
    ∧ (0 : Int) ≤ 50 ∧ (0 : Int) ≤ 60 ∧ (0 : Int) ≤ 12
    ∧ wrap32 (9 * (Village.mk 1 238609295 ⟨0, 0⟩).population) = -2147483641
    ∧ Machine.calculateVillageValue fl64 (Village.mk 1 238609295 ⟨0, 0⟩) 50 60 12
        examplePackages = 12
    ∧ deliveryValue (Village.mk 1 238609295 ⟨0, 0⟩) 50 60 12 0 0 examplePackages = 182 := by
  decide!

/-- C4 (amended). For a village with population `P >= 0` such that `9 x P` is an `int`, and
non-negative dry and perishable quantities whose sum is an `int` (and any other-supply
quantity), `calculateVillageValue` in machine arithmetic returns
`countedPerishable x value[PER] + countedDry x value[DRY] + countedOther x value[OTH]`,
evaluated from left to right in `double` arithmetic, with
`countedPerishable = min(perishable, 9P)`, `countedDry = min(dry, 9P - countedPerishable)`
and `countedOther = min(other, P)`: the spec's `deliveryValue` with nothing already counted.
With whole unit values up to `2^20` no operation rounds, and the value is that of the exact
definitions. -/
theorem calculateVillageValue_spec (fl : ℚ → ℚ) (hfl : Rounding fl) (village : Village)
    (dry per oth : Int) (packages : List PackageInfo) (hP : 0 ≤ village.population)
    (hP9 : 9 * village.population ≤ 2147483647) (hd : 0 ≤ dry) (hp : 0 ≤ per)
    (hsum : dry + per ≤ 2147483647) :
    Machine.calculateVillageValue fl village dry per oth packages
      = fl (fl (fl (((min per (9 * village.population) : Int) : ℚ)
                * (vecAt packages PER).value)
              + fl (((min dry (9 * village.population
                    - min per (9 * village.population)) : Int) : ℚ)
                * (vecAt packages DRY).value))
          + fl (((min oth village.population : Int) : ℚ) * (vecAt packages OTH).value))
    ∧ Machine.calculateVillageValue fl village dry per oth packages
      = Machine.deliveryValue fl village dry per oth 0 0 packages
    ∧ (-2147483648 ≤ oth → Whole (vecAt packages DRY).value →
        Whole (vecAt packages PER).value → Whole (vecAt packages OTH).value →
        Machine.calculateVillageValue fl village dry per oth packages
          = deliveryValue village dry per oth 0 0 packages) := by
  have h := machine_value_closed fl hfl village dry per oth packages hP hP9 hd hp hsum
  refine ⟨h, ?_, ?_⟩
  · rw [h]
    unfold Machine.deliveryValue
    simp only [sub_zero]
    rw [max_eq_right (by omega : (0 : Int) ≤ 9 * village.population), max_eq_right hP]
  · intro ho hvd hvp hvo
    rw [machine_value_exact fl hfl village dry per oth packages hP hP9 hd hp hsum ho hvd hvp
      hvo]
    exact (villageValue_closed_form village dry per oth packages hP hd hp).2

/-- Witness of C4 (amended) in binary64: a village of population 2 (caps 18 and 2) with 14
dry, 7 perishable and 3 other units and the unit values 2.3, 2.3 and 1 counts 7 perishable,
11 dry and 2 other units, worth `fl(fl(fl(7 x 2.3) + fl(11 x 2.3)) + 2)`. -/
theorem calculateVillageValue_spec_witness :
    Machine.calculateVillageValue fl64 (Village.mk 1 2 ⟨0, 0⟩) 14 7 3 decimalPackages
      = fl64 (fl64 (fl64 (7 * fl64 (23 / 10)) + fl64 (11 * fl64 (23 / 10))) + 2)
    ∧ Machine.calculateVillageValue fl64 (Village.mk 1 2 ⟨0, 0⟩) 14 7 3 decimalPackages
      = Machine.deliveryValue fl64 (Village.mk 1 2 ⟨0, 0⟩) 14 7 3 0 0 decimalPackages :=
  ⟨((calculateVillageValue_spec fl64 rounding_fl64 (Village.mk 1 2 ⟨0, 0⟩) 14 7 3
      decimalPackages (by decide) (by decide) (by decide) (by decide) (by decide)).1).trans
      (by decide!),
    (calculateVillageValue_spec fl64 rounding_fl64 (Village.mk 1 2 ⟨0, 0⟩) 14 7 3
      decimalPackages (by decide) (by decide) (by decide) (by decide) (by decide)).2.1⟩

/-! ## In range, the machine definitions with exact rounding are the exact definitions -/

/-- C5 (counterexample). With population 1 (food cap 9), non-negative unit values
`value[DRY] = 2`, `value[PER] = 1`, and 9 dry units, raising the perishable units from 0 to 1
lowers the value from 18 to 17, in exact and in binary64 arithmetic: the perishable unit takes
the place of a dry unit under the cap. In binary64 the same displacement lowers the value
also when the two unit values are equal and not whole: with population 2 (food cap 18),
`value[DRY] = value[PER] = 2.3` and 14 dry units, raising the perishable units from 6 to 7
replaces `fl(6 x 2.3) + fl(12 x 2.3)` by `fl(7 x 2.3) + fl(11 x 2.3)`, which is smaller. -/
theorem calculateVillageValue_not_monotone_in_perishable :
    (0 : Int) ≤ (Village.mk 1 1 ⟨0, 0⟩).population
    ∧ (∀ k ∈ [DRY, PER, OTH],
        0 ≤ (vecAt [PackageInfo.mk 1 2, PackageInfo.mk 1 1, PackageInfo.mk 1 1] k).value)
    ∧ (0 : Int) ≤ 9 ∧ (0 : Int) ≤ 0 ∧ (0 : Int) ≤ 1
    ∧ calculateVillageValue (Village.mk 1 1 ⟨0, 0⟩) 9 0 0
          [PackageInfo.mk 1 2, PackageInfo.mk 1 1, PackageInfo.mk 1 1] = 18
    ∧ calculateVillageValue (Village.mk 1 1 ⟨0, 0⟩) 9 1 0
          [PackageInfo.mk 1 2, PackageInfo.mk 1 1, PackageInfo.mk 1 1] = 17
    ∧ Machine.calculateVillageValue fl64 (Village.mk 1 1 ⟨0, 0⟩) 9 0 0
          [PackageInfo.mk 1 2, PackageInfo.mk 1 1, PackageInfo.mk 1 1] = 18
    ∧ Machine.calculateVillageValue fl64 (Village.mk 1 1 ⟨0, 0⟩) 9 1 0
          [PackageInfo.mk 1 2, PackageInfo.mk 1 1, PackageInfo.mk 1 1] = 17
    ∧ (∀ k ∈ [DRY, PER, OTH], 0 ≤ (vecAt decimalPackages k).value)
    ∧ (vecAt decimalPackages DRY).value = (vecAt decimalPackages PER).value
    ∧ Machine.calculateVillageValue fl64 (Village.mk 1 2 ⟨0, 0⟩) 14 7 0 decimalPackages
        < Machine.calculateVillageValue fl64 (Village.mk 1 2 ⟨0, 0⟩) 14 6 0 decimalPackages := by
  decide!

/-- C5 (amended). For a population `P >= 0` such that `9 x P` is an `int`, non-negative unit
values and non-negative quantities whose sum is an `int`, `calculateVillageValue` in machine
arithmetic never decreases when the dry units or the other-supply units increase, and never
decreases when the perishable units increase provided the food total stays within the cap
`9 x P`, or provided `value[PER] >= value[DRY]` and the three unit values are whole numbers
up to `2^20`, on which no operation rounds. -/
theorem calculateVillageValue_monotone (fl : ℚ → ℚ) (hfl : Rounding fl) (village : Village)
    (packages : List PackageInfo) (dry per oth dry' per' oth' : Int)
    (hP : 0 ≤ village.population) (hP9 : 9 * village.population ≤ 2147483647)
    (hvd : 0 ≤ (vecAt packages DRY).value) (hvp : 0 ≤ (vecAt packages PER).value)
    (hvo : 0 ≤ (vecAt packages OTH).value)
    (hd : 0 ≤ dry) (hp : 0 ≤ per) (hdd : dry ≤ dry') (hpp : per ≤ per')
    (hoo : oth ≤ oth') (hsum : dry' + per' ≤ 2147483647) :
    Machine.calculateVillageValue fl village dry per oth packages
        ≤ Machine.calculateVillageValue fl village dry' per oth packages
    ∧ Machine.calculateVillageValue fl village dry per oth packages
        ≤ Machine.calculateVillageValue fl village dry per oth' packages
    ∧ (dry + per' ≤ 9 * village.population →
        Machine.calculateVillageValue fl village dry per oth packages
          ≤ Machine.calculateVillageValue fl village dry per' oth packages)
    ∧ ((vecAt packages DRY).value ≤ (vecAt packages PER).value →
        Whole (vecAt packages DRY).value → Whole (vecAt packages PER).value →
        Whole (vecAt packages OTH).value → -2147483648 ≤ oth →
        Machine.calculateVillageValue fl village dry per oth packages
          ≤ Machine.calculateVillageValue fl village dry per' oth packages) := by
  refine ⟨?_, ?_, ?_, ?_⟩
  · rw [machine_value_closed fl hfl village dry per oth packages hP hP9 hd hp (by omega),
      machine_value_closed fl hfl village dry' per oth packages hP hP9 (by omega) hp
        (by omega)]
    exact machine_sum_mono fl hfl packages hvd hvp hvo _ _ _ _ _ _ (le_refl _) (by omega)
      (le_refl _)
  · rw [machine_value_closed fl hfl village dry per oth packages hP hP9 hd hp (by omega),
      machine_value_closed fl hfl village dry per oth' packages hP hP9 hd hp (by omega)]
    exact machine_sum_mono fl hfl packages hvd hvp hvo _ _ _ _ _ _ (le_refl _) (le_refl _)
      (by omega)
  · intro hcap
    rw [machine_value_closed fl hfl village dry per oth packages hP hP9 hd hp (by omega),
      machine_value_closed fl hfl village dry per' oth packages hP hP9 hd (by omega)
        (by omega)]
    exact machine_sum_mono fl hfl packages hvd hvp hvo _ _ _ _ _ _ (by omega) (by omega)
      (le_refl _)
  · intro hle wd wp wo ho
    rw [machine_value_exact fl hfl village dry per oth packages hP hP9 hd hp (by omega) ho wd
        wp wo,
      machine_value_exact fl hfl village dry per' oth packages hP hP9 hd (by omega)
        (by omega) ho wd wp wo]
    exact (villageValue_mono_exact village packages dry per oth dry' per' oth' hP hvd hvp hvo
      hd hp hdd hpp hoo).2.2 (Or.inl hle)

/-- Witness of C5 (amended) in binary64. With population 2 and the unit values 2.3, 2.3 and
1: from (10, 6, 1) units to 14 dry units, to 3 other units, and from (10, 2, 1) to 3
perishable units, within the cap 18. With population 10 and the whole unit values 1, 2 and
1: from (50, 60, 12) to 70 perishable units. -/
theorem calculateVillageValue_monotone_witness :
    Machine.calculateVillageValue fl64 (Village.mk 1 2 ⟨0, 0⟩) 10 6 1 decimalPackages
        ≤ Machine.calculateVillageValue fl64 (Village.mk 1 2 ⟨0, 0⟩) 14 6 1 decimalPackages
    ∧ Machine.calculateVillageValue fl64 (Village.mk 1 2 ⟨0, 0⟩) 10 6 1 decimalPackages
        ≤ Machine.calculateVillageValue fl64 (Village.mk 1 2 ⟨0, 0⟩) 10 6 3 decimalPackages
    ∧ Machine.calculateVillageValue fl64 (Village.mk 1 2 ⟨0, 0⟩) 10 2 1 decimalPackages
        ≤ Machine.calculateVillageValue fl64 (Village.mk 1 2 ⟨0, 0⟩) 10 3 1 decimalPackages
    ∧ Machine.calculateVillageValue fl64 exampleVillage 50 60 12 examplePackages
        ≤ Machine.calculateVillageValue fl64 exampleVillage 50 70 12 examplePackages :=
  ⟨(calculateVillageValue_monotone fl64 rounding_fl64 (Village.mk 1 2 ⟨0, 0⟩) decimalPackages
      10 6 1 14 6 3 (by decide) (by decide) (by decide!) (by decide!) (by decide!) (by decide)
      (by decide) (by decide) (by decide) (by decide) (by decide)).1,
    (calculateVillageValue_monotone fl64 rounding_fl64 (Village.mk 1 2 ⟨0, 0⟩) decimalPackages
      10 6 1 14 6 3 (by decide) (by decide) (by decide!) (by decide!) (by decide!) (by decide)
      (by decide) (by decide) (by decide) (by decide) (by decide)).2.1,
    (calculateVillageValue_monotone fl64 rounding_fl64 (Village.mk 1 2 ⟨0, 0⟩) decimalPackages
      10 2 1 10 3 1 (by decide) (by decide) (by decide!) (by decide!) (by decide!) (by decide)
      (by decide) (by decide) (by decide) (by decide) (by decide)).2.2.1 (by decide),
    (calculateVillageValue_monotone fl64 rounding_fl64 exampleVillage examplePackages
      50 60 12 50 70 12 (by decide) (by decide) (by decide!) (by decide!) (by decide!)
      (by decide) (by decide) (by decide) (by decide) (by decide) (by decide)).2.2.2
      (by decide!) (by decide!) (by decide!) (by decide!) (by decide)⟩

/-! ## The first-stop mix in machine arithmetic -/

/-- When the converted quotients are in the range of `int`, the mix of the first-stop scan in
machine arithmetic is the mix of the spec evaluated in `double` arithmetic, unless one of the
two weight checks fires. -/
theorem machine_firstStopMix_spec (fl : ℚ → ℚ) (hfl : Rounding fl) (heps : 0 < fl eps9)
    (problem : ProblemData) (W dr avg : ℚ) (remF remO : Int)
    (hdr0 : 0 ≤ dr) (hdr1 : dr ≤ 1) (hW : 0 ≤ W) (havg : 0 < avg)
    (hF0 : 0 ≤ remF) (hFm : remF ≤ 2147483647) (hO0 : 0 ≤ remO)
    (hq1 : fl (W / avg) < 2147483648)
    (hq2 : fl (fl (W - Machine.specFoodWeight fl problem W dr avg remF)
              / (vecAt problem.packages OTH).weight) < 2147483648) :
    Machine.firstStopMix fl problem W dr avg remF remO
      = (if Machine.specFoodWeight fl problem W dr avg remF > fl (W + fl eps9) then none
        else if Machine.specTotalWeight fl problem W dr avg remF remO > fl (W + fl eps9) then
          none
        else some
          { dry_units := Machine.specDry fl W dr avg remF,
            perishable_units := Machine.specPerishable fl W dr avg remF,
            other_units := Machine.specOther fl problem W dr avg remF remO,
            total_weight := Machine.specTotalWeight fl problem W dr avg remF remO }) := by
  have hq0 : 0 ≤ fl (W / avg) := rounding_nonneg hfl _ (div_nonneg hW (le_of_lt havg))
  have hfood : min remF (castInt (fl (W / avg))) = Machine.specFood fl W avg remF := by
    unfold Machine.specFood
    rw [castInt_of_range _ hq0 hq1]
  have hf0 : 0 ≤ Machine.specFood fl W avg remF := by
    unfold Machine.specFood
    exact le_min hF0 (Int.floor_nonneg.mpr hq0)
  have hfm : Machine.specFood fl W avg remF ≤ 2147483647 := by
    unfold Machine.specFood
    exact le_trans (min_le_left _ _) hFm
  have hf0q : (0 : ℚ) ≤ (Machine.specFood fl W avg remF : ℚ) := by exact_mod_cast hf0
  have hp0 : 0 ≤ fl ((Machine.specFood fl W avg remF : ℚ) * dr) :=
    rounding_nonneg hfl _ (mul_nonneg hf0q hdr0)
  have hple : fl ((Machine.specFood fl W avg remF : ℚ) * dr)
      ≤ (Machine.specFood fl W avg remF : ℚ) :=
    rounding_le_int hfl _ _ (by rw [abs_of_nonneg hf0]; omega)
      (by nlinarith)
  have hdry : castInt (fl ((Machine.specFood fl W avg remF : ℚ) * dr))
      = Machine.specDry fl W dr avg remF := by
    unfold Machine.specDry
    refine castInt_of_range _ hp0 (lt_of_le_of_lt hple ?_)
    have : (Machine.specFood fl W avg remF : ℚ) ≤ 2147483647 := by exact_mod_cast hfm
    linarith
  have hd0 : 0 ≤ Machine.specDry fl W dr avg remF := by
    unfold Machine.specDry
    exact Int.floor_nonneg.mpr hp0
  have hdle : Machine.specDry fl W dr avg remF ≤ Machine.specFood fl W avg remF := by
    unfold Machine.specDry
    have h1 := Int.floor_le (fl ((Machine.specFood fl W avg remF : ℚ) * dr))
    have h2 := le_trans h1 hple
    exact_mod_cast h2
  have hper : wrap32 (Machine.specFood fl W avg remF - Machine.specDry fl W dr avg remF)
      = Machine.specPerishable fl W dr avg remF := by
    unfold Machine.specPerishable
    exact wrap32_of_range _ (by omega) (by omega)
  unfold Machine.firstStopMix
  simp only []
  rw [hfood, hdry, hper]
  have hfw : fl (fl ((Machine.specDry fl W dr avg remF : ℚ) * (vecAt problem.packages DRY).weight)
        + fl ((Machine.specPerishable fl W dr avg remF : ℚ)
            * (vecAt problem.packages PER).weight))
      = Machine.specFoodWeight fl problem W dr avg remF := rfl
  rw [hfw]
  by_cases hc1 : Machine.specFoodWeight fl problem W dr avg remF > fl (W + fl eps9)
  · rw [if_pos hc1, if_pos hc1]
  · rw [if_neg hc1, if_neg hc1]
    have hoth : (if (vecAt problem.packages OTH).weight > fl eps9
          ∧ fl (W - Machine.specFoodWeight fl problem W dr avg remF) > fl eps9 then
          max 0 (min remO (castInt (fl (fl (W - Machine.specFoodWeight fl problem W dr avg remF)
            / (vecAt problem.packages OTH).weight))))
        else 0)
        = Machine.specOther fl problem W dr avg remF remO := by
      unfold Machine.specOther
      by_cases hc : (vecAt problem.packages OTH).weight > fl eps9
          ∧ fl (W - Machine.specFoodWeight fl problem W dr avg remF) > fl eps9
      · rw [if_pos hc, if_pos hc]
        have hquot : 0 ≤ fl (fl (W - Machine.specFoodWeight fl problem W dr avg remF)
            / (vecAt problem.packages OTH).weight) :=
          rounding_nonneg hfl _ (div_nonneg (le_of_lt (lt_trans heps hc.2))
            (le_of_lt (lt_trans heps hc.1)))
        rw [castInt_of_range _ hquot hq2]
        exact max_eq_right (le_min hO0 (Int.floor_nonneg.mpr hquot))
      · rw [if_neg hc, if_neg hc]
    rw [hoth]
    rfl

/-! ## Claim about the first-stop mix -/

/-- C14 (amended). In the first-stop scan in machine arithmetic, for every village that has
remaining demand and passes the two distance checks, with a blended food weight of at least
`1e-9`, a ratio in `[0,1]`, a weight capacity and demand counters that are not negative, and
quotients `capacity / blended` and `leftover / other weight` below `2^31` (a larger quotient
is converted to `INT_MIN`), the constructor computes
`food = min(remaining food demand, floor(capacity / blended))`, `dry = floor(food x ratio)`
and `perishable = food - dry`, every operation being the `double` operation. It leaves the
village out when the weight of that food exceeds the capacity by more than `1e-9`; otherwise
it computes `other = min(remaining other demand, floor(leftover / other weight))` when the
other weight and the leftover weight are above `1e-9`, and `other = 0` when not, leaves the
village out when the weight of the whole mix exceeds the capacity by more than `1e-9`, and
otherwise scores the village with that mix. -/
theorem first_stop_mix_formula (fl : ℚ → ℚ) (hfl : Rounding fl) (heps : 0 < fl eps9)
    (ext : Extern) (problem : ProblemData) (helicopter : Helicopter) (home : Point)
    (dr pr budget : ℚ) (remF remO : List Int) (i : Nat)
    (hdr0 : 0 ≤ dr) (hdr1 : dr ≤ 1) (hW : 0 ≤ helicopter.weight_capacity)
    (hF0 : 0 ≤ vecAt remF i) (hFm : vecAt remF i ≤ 2147483647) (hO0 : 0 ≤ vecAt remO i)
    (hdem : ¬ (vecAt remF i ≤ 0 ∧ vecAt remO i ≤ 0))
    (hd1 : fl (2 * ext.distance home (vecAt problem.villages i).coords)
      ≤ helicopter.distance_capacity)
    (hd2 : fl (2 * ext.distance home (vecAt problem.villages i).coords) ≤ budget)
    (havg : fl eps9 ≤ Machine.avgFoodWt fl problem dr pr)
    (hq1 : fl (helicopter.weight_capacity / Machine.avgFoodWt fl problem dr pr) < 2147483648)
    (hq2 : fl (fl (helicopter.weight_capacity
                - Machine.specFoodWeight fl problem helicopter.weight_capacity dr
                    (Machine.avgFoodWt fl problem dr pr) (vecAt remF i))
              / (vecAt problem.packages OTH).weight) < 2147483648) :
    Machine.firstStopCandidate fl ext problem helicopter home dr pr budget remF remO i
      = (if Machine.specFoodWeight fl problem helicopter.weight_capacity dr
            (Machine.avgFoodWt fl problem dr pr) (vecAt remF i)
            > fl (helicopter.weight_capacity + fl eps9) then none
        else if Machine.specTotalWeight fl problem helicopter.weight_capacity dr
            (Machine.avgFoodWt fl problem dr pr) (vecAt remF i) (vecAt remO i)
            > fl (helicopter.weight_capacity + fl eps9) then none
        else some
          { net_value :=
              fl (Machine.calculateVillageValue fl (vecAt problem.villages i)
                  (Machine.specDry fl helicopter.weight_capacity dr
                    (Machine.avgFoodWt fl problem dr pr) (vecAt remF i))
                  (Machine.specPerishable fl helicopter.weight_capacity dr
                    (Machine.avgFoodWt fl problem dr pr) (vecAt remF i))
                  (Machine.specOther fl problem helicopter.weight_capacity dr
                    (Machine.avgFoodWt fl problem dr pr) (vecAt remF i) (vecAt remO i))
                  problem.packages
                - fl (helicopter.fixed_cost
                    + fl (helicopter.alpha
                        * fl (2 * ext.distance home (vecAt problem.villages i).coords)))),
            dry_units := Machine.specDry fl helicopter.weight_capacity dr
              (Machine.avgFoodWt fl problem dr pr) (vecAt remF i),
            perishable_units := Machine.specPerishable fl helicopter.weight_capacity dr
              (Machine.avgFoodWt fl problem dr pr) (vecAt remF i),
            other_units := Machine.specOther fl problem helicopter.weight_capacity dr
              (Machine.avgFoodWt fl problem dr pr) (vecAt remF i) (vecAt remO i) }) := by
  unfold Machine.firstStopCandidate
  simp only []
  rw [if_neg hdem, if_neg (by
      rw [not_or]
      exact ⟨not_lt.mpr hd1, not_lt.mpr hd2⟩ :
      ¬ (fl (2 * ext.distance home (vecAt problem.villages i).coords)
            > helicopter.distance_capacity
          ∨ fl (2 * ext.distance home (vecAt problem.villages i).coords) > budget)),
    if_neg (not_lt.mpr havg),
    machine_firstStopMix_spec fl hfl heps problem _ dr _ _ _ hdr0 hdr1 hW
      (lt_of_lt_of_le heps havg) hF0 hFm hO0 hq1 hq2]
  split_ifs <;> rfl

/-- Witness of C14 (amended) in binary64: the `double` values of the weights 1.1, 1.1 and
1.06, the weight capacity the smallest `double` that is at least `90 x 1.1 + 10 x 1.06`, and
the ratio 0.1. The food weight is `fl(fl(9 x 1.1) + fl(81 x 1.1))`, above 99, the leftover
divided by 1.06 is below 10, and the village is scored with 9 dry, 81 perishable and 9
other units. -/
theorem first_stop_mix_formula_witness :
    Machine.firstStopCandidate fl64 exampleExtern decimalProblem tightHelicopter exampleCity
        (fl64 (1 / 10)) (fl64 (9 / 10)) 50 [90] [10] 0
      = some ⟨7036874417766399 / 35184372088832, 9, 81, 9⟩
    ∧ 90 * (vecAt decimalProblem.packages DRY).weight
        + 10 * (vecAt decimalProblem.packages OTH).weight ≤ tightHelicopter.weight_capacity :=
  ⟨(first_stop_mix_formula fl64 rounding_fl64 (by decide!) exampleExtern decimalProblem
      tightHelicopter exampleCity (fl64 (1 / 10)) (fl64 (9 / 10)) 50 [90] [10] 0 (by decide!)
      (by decide!) (by decide!) (by decide!) (by decide!) (by decide!) (by decide!)
      (by decide!) (by decide!) (by decide!) (by decide!) (by decide!)).trans (by decide!),
    by decide!⟩

/-! ## Claims about the value and the selection in the two scans -/

/-- The three distances of the far example are the `double` values nearest to the Euclidean
distances between the city `(0, 0)` and the villages `(1590000, 7124000)` and
`(6908000, 8902000)`. -/
theorem far_distances_are_euclidean :
    NearestDouble (farDistance exampleCity (vecAt farVillages 0).coords)
        (1590000 ^ 2 + 7124000 ^ 2)
    ∧ NearestDouble (farDistance (vecAt farVillages 0).coords (vecAt farVillages 1).coords)
        ((6908000 - 1590000) ^ 2 + (8902000 - 7124000) ^ 2)
    ∧ NearestDouble (farDistance (vecAt farVillages 1).coords exampleCity)
        (6908000 ^ 2 + 8902000 ^ 2) := by
  unfold NearestDouble
  decide!

end Solver
